import Mathlib

/-!
The in-page card-sending agent of `src-tauri/data/custom.js`.

A shallow embedding of the automation script: the configuration store, the
layered click helper, the five-step sending pipeline of `CardOperations`, its
retry controller, the `JuguangAutoCard` session and the `URLWatcher`.

Modelling conventions.

* JavaScript numbers are IEEE-754 doubles. The counters, indices and
  millisecond delays of the script are integers and are written as `Nat` or
  `Int`; where the script computes with them (the `+ 1` of the counter, the
  products with `Math.random()`, the window arithmetic of `getRandomDelay`) the
  result is rounded to the nearest double, ties to even (`round53`,
  `roundInt`). A draw of `Math.random()` is a double in `[0, 1)` (`Draw`). The
  upper end of the exponent range is not modelled: an integer of `2 ^ 1024` or
  more, which is no finite double and which no computation of the script
  produces, is rounded like the others.
* `localStorage` is a typed record: every key holds a value of the type the
  script itself writes under that key, or is absent. A number is held as the
  integer its stored text spells and is read as the double `JSON.parse` makes
  of that text.
* The host page is an oracle: each time the pipeline queries the document it
  is handed a `Page`, the answers of the document to the script's fixed
  selectors at that instant.
* An `async` function runs without interruption up to an `await` on a timer;
  the code between two such points is one atomic step.
-/

namespace AutoCard

/-! ## Numbers -/

/-- The multiple of `2 ^ t` nearest to `n`; of two equally near, the one whose
factor is even. -/
def roundTo (t n : Nat) : Nat :=
  let q := n / 2 ^ t
  let rem := n % 2 ^ t
  if 2 * rem < 2 ^ t then q * 2 ^ t
  else if 2 ^ t < 2 * rem then (q + 1) * 2 ^ t
  else if q % 2 = 0 then q * 2 ^ t
  else (q + 1) * 2 ^ t

/-- The number of halvings that bring `n` below `2 ^ 53`, at most `fuel` of
them: the binary digits of `n` beyond the 53 of a double's significand. -/
def excess : Nat → Nat → Nat
  | 0, _ => 0
  | fuel + 1, n => if n < 2 ^ 53 then 0 else excess fuel (n / 2) + 1

/-- A non-negative integer as a JavaScript number: the nearest double, whose
significand has 53 binary digits, ties going to the even significand. Below
`2 ^ 53` every integer is a double. -/
def round53 (n : Nat) : Nat := roundTo (excess n n) n

/-- An integer as a JavaScript number; rounding is symmetric about zero. -/
def roundInt (i : Int) : Int :=
  if 0 ≤ i then (round53 i.toNat : Int) else -(round53 i.natAbs : Int)

/-- A value of `Math.random()`, a double in `[0, 1)`: the number
`mant / 2 ^ (53 + exp)`. With `exp = 0` these are the multiples of `2 ^ -53`;
the largest `exp` reaches the smallest positive double, `2 ^ -1074`. -/
structure Draw where
  mant : Nat
  exp : Nat
  mant_lt : mant < 2 ^ 53
  exp_le : exp ≤ 1021

namespace Draw

/-- The number the draw stands for. -/
def toRat (r : Draw) : ℚ := (r.mant : ℚ) / 2 ^ (53 + r.exp)

/-- The value of `Math.floor(r * w)` for an integer `w`: the product
`mant * w / 2 ^ (53 + exp)` is rounded to a double and the double is floored.
Scaling by a power of two does not change which significand is nearest, and no
double is finer than `2 ^ -1074`, so the double is the numerator rounded to 53
binary digits over the same denominator. For a negative `w` the product is the
negative of that for `-w`, and its floor the negated ceiling. -/
def mulFloor (r : Draw) (w : Int) : Int :=
  if 0 ≤ w then ((round53 (r.mant * w.toNat) / 2 ^ (53 + r.exp) : Nat) : Int)
  else -(((round53 (r.mant * w.natAbs) + (2 ^ (53 + r.exp) - 1)) / 2 ^ (53 + r.exp) : Nat) : Int)

end Draw

/-! ## ConfigManager -/

/-- The entries of `localStorage` under the script's key namespace; `none` is
an absent key, a number is the integer the stored text spells. -/
structure Storage where
  enabled : Option Bool
  autoInterval : Option Int
  maxRetries : Option Nat
  cardSelection : Option String
  selectedCardIndex : Option Nat
  sentCount : Option Nat
deriving DecidableEq, Repr

namespace Storage

/-- A store with no key set: what `resetConfig` leaves behind. -/
def empty : Storage :=
  { enabled := none, autoInterval := none, maxRetries := none,
    cardSelection := none, selectedCardIndex := none, sentCount := none }

/-- The `getConfig('enabled')` read, default `true`. -/
def getEnabled (s : Storage) : Bool := s.enabled.getD true

/-- The `getConfig('autoInterval')` read, default `5000`. -/
def getAutoInterval (s : Storage) : Int := roundInt (s.autoInterval.getD 5000)

/-- The `getConfig('maxRetries')` read, default `3`. -/
def getMaxRetries (s : Storage) : Nat := round53 (s.maxRetries.getD 3)

/-- The `getConfig('cardSelection')` read, default `'random'`. -/
def getCardSelection (s : Storage) : String := s.cardSelection.getD "random"

/-- The `getConfig('selectedCardIndex')` read, default `0`. -/
def getSelectedCardIndex (s : Storage) : Nat := round53 (s.selectedCardIndex.getD 0)

/-- The `getConfig('sentCount')` read, default `0`. -/
def getSentCount (s : Storage) : Nat := round53 (s.sentCount.getD 0)

/-- The `resetConfig()` call: every key of the namespace is removed. -/
def resetConfig (_s : Storage) : Storage := empty

end Storage

/-- The JavaScript `x || 0` on a number: a falsy `0` is replaced by `0`. -/
def orZero (x : Nat) : Nat := if x = 0 then 0 else x

/-! ## Utils -/

/-- The `Utils.getRandomDelay(min, max)` value for the draw `r` of
`Math.random()`: `Math.floor(r * (max - min + 1)) + min`, every operation on
doubles. -/
def getRandomDelay (r : Draw) (min max : Int) : Int :=
  roundInt (r.mulFloor (roundInt (roundInt (roundInt max - roundInt min) + 1)) + roundInt min)

/-- A DOM element as the script sees it: an identity, whether each of the
three activation strategies throws on it, and its element children. -/
inductive Element where
  | mk (id : Nat) (clickThrows mouseEventThrows basicEventThrows : Bool)
      (children : List Element)

namespace Element

/-- Identity of the element. -/
def id : Element → Nat
  | mk i _ _ _ _ => i

/-- Whether `element.click()` throws. -/
def clickThrows : Element → Bool
  | mk _ b _ _ _ => b

/-- Whether building and dispatching the `MouseEvent` throws. -/
def mouseEventThrows : Element → Bool
  | mk _ _ b _ _ => b

/-- Whether dispatching the plain `Event` throws. -/
def basicEventThrows : Element → Bool
  | mk _ _ _ b _ => b

/-- The `element.children` collection. -/
def children : Element → List Element
  | mk _ _ _ _ cs => cs

end Element

/-- The three activation strategies of `safeClick`, in source order. -/
inductive Strategy where
  | direct
  | mouseEvent
  | basicEvent
deriving DecidableEq, Repr

/-- One activation attempt: the element, the strategy and whether it threw. -/
structure Attempt where
  elem : Nat
  strategy : Strategy
  threw : Bool
deriving DecidableEq, Repr

/-- The errors the pipeline can raise. -/
inductive Failure where
  | avatarNotFound
  | toolNotFound
  | cardTabNotFound
  | cardListEmpty
  | sendButtonNotFound
  | elementMissing
  | clickFailed
  | typeError
deriving DecidableEq, Repr

/-- The `message` of the raised `Error`; for a failed click and for a
`TypeError` the text the browser supplies is left out. -/
def Failure.message : Failure → String
  | .avatarNotFound => "无法找到头像元素"
  | .toolNotFound => "未找到获客工具按钮"
  | .cardTabNotFound => "未找到名片tab"
  | .cardListEmpty => "未找到名片列表或名片列表为空"
  | .sendButtonNotFound => "未找到发送按钮"
  | .elementMissing => "元素不存在，无法点击"
  | .clickFailed => "点击失败"
  | .typeError => "TypeError"

/-- The `Utils.safeClick(element)` call: the attempts made, and `true` or the raised error. -/
def safeClick (element : Option Element) : List Attempt × Except Failure Bool :=
  match element with
  | none => ([], .error .elementMissing)
  | some e =>
    if e.clickThrows = false then
      ([⟨e.id, .direct, false⟩], .ok true)
    else if e.mouseEventThrows = false then
      ([⟨e.id, .direct, true⟩, ⟨e.id, .mouseEvent, false⟩], .ok true)
    else if e.basicEventThrows = false then
      ([⟨e.id, .direct, true⟩, ⟨e.id, .mouseEvent, true⟩, ⟨e.id, .basicEvent, false⟩], .ok true)
    else
      ([⟨e.id, .direct, true⟩, ⟨e.id, .mouseEvent, true⟩, ⟨e.id, .basicEvent, true⟩],
        .error .clickFailed)

/-- The elements an attempt list activated: those of the attempts that did not throw. -/
def activated (as : List Attempt) : List Nat :=
  (as.filter fun a => a.threw = false).map Attempt.elem

/-! ## The host page -/

/-- An unread-message marker returned by the red-dot selector, with its `parentElement`. -/
structure Marker where
  parentElement : Option Element

/-- The answers of the document to the pipeline's selectors at one instant. -/
structure Page where
  redDots : List Marker
  customerToolSvg : Option Element
  cardTab : Option Element
  cardContainer : Option Element

/-- What the environment supplies to one atomic piece of the pipeline: the page
at that instant and the draws of `Math.random()` it may consume. -/
structure Obs where
  page : Page
  rSelect : Draw
  rDelay : Draw
  rBackoff : Draw

/-- The JavaScript `xs[i]` on a collection for an integer `i`: `undefined` out of range. -/
def index (xs : List Element) (i : Int) : Option Element :=
  if i < 0 then none else xs[i.toNat]?

/-- The JavaScript `x.children[i]`: a `TypeError` when `x` is `undefined`. -/
def childAt (x : Option Element) (i : Nat) : Except Failure (Option Element) :=
  match x with
  | none => .error .typeError
  | some e => .ok (e.children[i]?)

/-- The expression `selectedCard.children[0].children[0].children[0].children[1]`. -/
def sendButtonOf (selectedCard : Option Element) : Except Failure (Option Element) :=
  match childAt selectedCard 0 with
  | .error e => .error e
  | .ok a =>
    match childAt a 0 with
    | .error e => .error e
    | .ok b =>
      match childAt b 0 with
      | .error e => .error e
      | .ok c => childAt c 1

/-! ## CardOperations.performCardAction -/

/-- The points at which `performCardAction` can be resumed: its entry and the
four statements that follow an `await Utils.sleep`. -/
inductive Pc where
  | step1
  | step3
  | step4
  | step5
  | count
deriving DecidableEq, Repr

/-- How an atomic piece of the pipeline ends. -/
inductive Segment where
  | sleep (ms : Int) (next : Pc)
  | returned
  | threw (e : Failure)
deriving DecidableEq

/-- The result of an atomic piece: its activation attempts, the store it leaves, how it ended. -/
structure SegOut where
  attempts : List Attempt
  storage : Storage
  result : Segment

/-- The selected index of step 5 among `n` candidates (source lines 343 to 359). -/
def selectIndex (st : Storage) (rSelect : Draw) (n : Nat) : Int :=
  if st.getCardSelection = "manual" then
    if st.getSelectedCardIndex ≥ n then 0 else (st.getSelectedCardIndex : Int)
  else
    rSelect.mulFloor n

/-- A located control is clicked and the pipeline sleeps, or the click error is raised. -/
def clickThenSleep (target : Option Element) (st : Storage) (ms : Int) (next : Pc) : SegOut :=
  match safeClick target with
  | (as, .error e) => ⟨as, st, .threw e⟩
  | (as, .ok _) => ⟨as, st, .sleep ms next⟩

/-- The code of `performCardAction` from the resumption point `pc` to the next
`await Utils.sleep`, return or throw. -/
def segment (pc : Pc) (o : Obs) (st : Storage) : SegOut :=
  match pc with
  | .step1 =>
    match o.page.redDots with
    | [] => ⟨[], st, .returned⟩
    | dot :: _ =>
      match dot.parentElement with
      | none => ⟨[], st, .threw .avatarNotFound⟩
      | some firstAvatar =>
        clickThenSleep (some firstAvatar) st (getRandomDelay o.rDelay 1000 2000) .step3
  | .step3 =>
    match o.page.customerToolSvg with
    | none => ⟨[], st, .threw .toolNotFound⟩
    | some customerToolSvg =>
      clickThenSleep (some customerToolSvg) st (getRandomDelay o.rDelay 1000 2000) .step4
  | .step4 =>
    match o.page.cardTab with
    | none => ⟨[], st, .threw .cardTabNotFound⟩
    | some cardTab =>
      clickThenSleep (some cardTab) st (getRandomDelay o.rDelay 1000 2000) .step5
  | .step5 =>
    match o.page.cardContainer with
    | none => ⟨[], st, .threw .cardListEmpty⟩
    | some cardContainer =>
      if cardContainer.children.length = 0 then ⟨[], st, .threw .cardListEmpty⟩
      else
        let selectedIndex := selectIndex st o.rSelect cardContainer.children.length
        let selectedCard := index cardContainer.children selectedIndex
        match sendButtonOf selectedCard with
        | .error e => ⟨[], st, .threw e⟩
        | .ok none => ⟨[], st, .threw .sendButtonNotFound⟩
        | .ok (some sendButton) =>
          clickThenSleep (some sendButton) st (getRandomDelay o.rDelay 500 1000) .count
  | .count =>
    let currentCount := orZero st.getSentCount
    ⟨[], { st with sentCount := some (round53 (currentCount + 1)) }, .returned⟩

/-- The five observations an uninterrupted run can consume, one per atomic piece. -/
structure RunObs where
  o1 : Obs
  o2 : Obs
  o3 : Obs
  o4 : Obs
  o5 : Obs

/-- How a run of `performCardAction` stands: returned, raised, or parked at a sleep. -/
inductive Outcome where
  | returned
  | threw (e : Failure)
  | asleep (next : Pc)
deriving DecidableEq

/-- The result of a run: all activation attempts in order, the store it leaves, how it stands. -/
structure RunOut where
  attempts : List Attempt
  storage : Storage
  result : Outcome

/-- The pipeline resumed at `pc` with one observation per wake-up. -/
def runFrom (pc : Pc) (obs : List Obs) (st : Storage) : RunOut :=
  match obs with
  | [] => ⟨[], st, .asleep pc⟩
  | o :: rest =>
    match segment pc o st with
    | ⟨as, st1, .returned⟩ => ⟨as, st1, .returned⟩
    | ⟨as, st1, .threw e⟩ => ⟨as, st1, .threw e⟩
    | ⟨as, st1, .sleep _ next⟩ =>
      let out := runFrom next rest st1
      ⟨as ++ out.attempts, out.storage, out.result⟩

/-- The `performCardAction()` call run from entry to completion with nothing interleaved. -/
def performCardAction (ro : RunObs) (st : Storage) : RunOut :=
  runFrom .step1 [ro.o1, ro.o2, ro.o3, ro.o4, ro.o5] st

/-! ## CardOperations: the single-flight wrapper and the retry controller -/

/-- What the script does to its surroundings, in order of occurrence. -/
inductive Effect where
  | click (a : Attempt)
  | status (text : String)
  | sentCountShown (n : Nat)
  | warning (text : String)
  | error (text : String)
  | success (text : String)
deriving DecidableEq, Repr

/-- The mutable fields of a `CardOperations` object; `ui` tells whether a `UIManager` is attached. -/
structure CardOperations where
  isRunning : Bool
  retryCount : Nat
  maxRetries : Nat
  ui : Bool
deriving DecidableEq, Repr

/-- The object the constructor builds. -/
def CardOperations.new : CardOperations :=
  { isRunning := false, retryCount := 0, maxRetries := 3, ui := false }

/-- One `CardOperations` object in its surroundings: the store it reads and
writes, its executions of `performCardAction` parked at a sleep (with the
length of the sleep), the delays of its pending retry timers, and the effects
so far. -/
structure World where
  ops : CardOperations
  storage : Storage
  suspended : List (Pc × Int)
  retryTimers : List Int
  effects : List Effect

namespace World

/-- A world around a freshly constructed `CardOperations`. -/
def fresh (st : Storage) : World :=
  { ops := CardOperations.new, storage := st, suspended := [], retryTimers := [], effects := [] }

/-- One more effect. -/
def emit (w : World) (e : Effect) : World :=
  { w with effects := w.effects ++ [e] }

/-- The guarded call `this.ui && this.ui.updateStatus(status)`. -/
def updateStatus (w : World) (status : String) : World :=
  if w.ops.ui then w.emit (.status status) else w

/-- The guarded call `this.ui && this.ui.updateSentCount()`. -/
def updateSentCount (w : World) : World :=
  if w.ops.ui then w.emit (.sentCountShown (orZero w.storage.getSentCount)) else w

/-- The `setUIManager(uiManager)` call. -/
def setUIManager (w : World) : World :=
  { w with ops := { w.ops with ui := true } }

/-- The `handleError(error)` call; `r` is the draw used for the backoff delay. -/
def handleError (w : World) (_error : Failure) (r : Draw) : World :=
  let w := { w with ops := { w.ops with retryCount := w.ops.retryCount + 1 } }
  if w.ops.retryCount ≤ w.ops.maxRetries then
    let w := w.emit (.warning ("发名片失败，正在重试 (" ++ toString w.ops.retryCount ++ "/"
      ++ toString w.ops.maxRetries ++ ")"))
    { w with retryTimers := w.retryTimers ++ [getRandomDelay r 3000 5000] }
  else
    let w := w.emit (.error "自动发名片失败，请检查页面状态")
    { w with ops := { w.ops with retryCount := 0 } }

/-- The attempts of a piece of the pipeline become effects and its store the store. -/
def absorb (w : World) (attempts : List Attempt) (st : Storage) : World :=
  { w with storage := st, effects := w.effects ++ attempts.map Effect.click }

/-- The statements of `autoSendCard` after a `performCardAction` that returned,
then the `finally` block. -/
def onSuccess (w : World) : World :=
  let w := w.updateStatus "发送成功"
  let w := w.updateSentCount
  let w := { w with ops := { w.ops with retryCount := 0 } }
  { w with ops := { w.ops with isRunning := false } }

/-- The `catch` block of `autoSendCard`, then the `finally` block. -/
def onFailure (w : World) (error : Failure) (r : Draw) : World :=
  let w := w.updateStatus ("发送失败: " ++ error.message)
  let w := w.handleError error r
  { w with ops := { w.ops with isRunning := false } }

/-- What `autoSendCard` does once a piece of the pipeline has ended: the
execution is parked at its sleep, or the call completes on the success path or
on the `catch` path. -/
def settle (w : World) (out : SegOut) (r : Draw) : World :=
  let w := w.absorb out.attempts out.storage
  match out.result with
  | .sleep ms next => { w with suspended := w.suspended ++ [(next, ms)] }
  | .returned => w.onSuccess
  | .threw e => w.onFailure e r

/-- The `autoSendCard()` call, up to the first sleep of the pipeline or to its end. -/
def autoSendCard (w : World) (o : Obs) : World :=
  if w.ops.isRunning then
    w.updateStatus "运行中..."
  else
    let w := { w with ops := { w.ops with isRunning := true } }
    let w := w.updateStatus "正在发送名片..."
    w.settle (segment .step1 o w.storage) o.rBackoff

/-- The `i`-th parked execution wakes up from its sleep and runs to its next sleep or to its end. -/
def wake (w : World) (i : Nat) (o : Obs) : World :=
  match w.suspended[i]? with
  | none => w
  | some (pc, _) =>
    let w := { w with suspended := w.suspended.eraseIdx i }
    w.settle (segment pc o w.storage) o.rBackoff

/-- The `i`-th pending retry timer fires and calls `autoSendCard`. -/
def fireRetry (w : World) (i : Nat) (o : Obs) : World :=
  match w.retryTimers[i]? with
  | none => w
  | some _ => autoSendCard { w with retryTimers := w.retryTimers.eraseIdx i } o

/-- An uninterrupted call of `autoSendCard`: the entry, then its wake-ups, with nothing in between. -/
def autoSendCardRun (w : World) (ro : RunObs) : World :=
  ((((w.autoSendCard ro.o1).wake 0 ro.o2).wake 0 ro.o3).wake 0 ro.o4).wake 0 ro.o5

/-- An uninterrupted re-invocation: the oldest pending retry timer fires, then the wake-ups. -/
def retryRun (w : World) (ro : RunObs) : World :=
  ((((w.fireRetry 0 ro.o1).wake 0 ro.o2).wake 0 ro.o3).wake 0 ro.o4).wake 0 ro.o5

end World

/-- What can happen to a `CardOperations` object and its store. -/
inductive Event where
  | tick (o : Obs)
  | manual (o : Obs)
  | retry (i : Nat) (o : Obs)
  | wake (i : Nat) (o : Obs)
  | handleError (e : Failure) (r : Draw)
  | setUIManager
  | setEnabled (checked : Bool)
  | setAutoInterval (seconds : Int)
  | setCardSelection (value : String)
  | setSelectedCardIndex (value : Nat)
  | resetCount
  | resetConfig

/-- The effect of one event. The periodic trigger and the manual button both
call `autoSendCard`; the settings handlers write their key of the store. -/
def World.step (w : World) : Event → World
  | .tick o => w.autoSendCard o
  | .manual o => w.autoSendCard o
  | .retry i o => w.fireRetry i o
  | .wake i o => w.wake i o
  | .handleError e r => w.handleError e r
  | .setUIManager => w.setUIManager
  | .setEnabled checked => { w with storage := { w.storage with enabled := some checked } }
  | .setAutoInterval seconds =>
    { w with storage := { w.storage with autoInterval := some (seconds * 1000) } }
  | .setCardSelection value => { w with storage := { w.storage with cardSelection := some value } }
  | .setSelectedCardIndex value =>
    { w with storage := { w.storage with selectedCardIndex := some value } }
  | .resetCount => { w with storage := { w.storage with sentCount := some 0 } }.updateSentCount
  | .resetConfig => { w with storage := w.storage.resetConfig }

/-- The world after a sequence of events. -/
def World.run (w : World) (events : List Event) : World :=
  events.foldl World.step w

/-- The flag and the parked executions agree: an execution is parked at a sleep
exactly while `isRunning` is set, and then it is the only one. -/
def World.SingleFlight (w : World) : Prop :=
  w.suspended.length = if w.ops.isRunning then 1 else 0

/-! ## PageDetector -/

/-- The literal text that `targetUrlPattern` anchors at the start of the address. -/
def targetUrlPattern : String := "https://pro.xiaohongshu.com/im/multiCustomerService"

/-- The `targetUrlPattern.test(href)` match: the address starts with the literal text. -/
def isTargetUrl (href : String) : Bool :=
  List.isPrefixOf targetUrlPattern.toList href.toList

/-- The `detectCurrentPage()` result for the address `href`. -/
def detectCurrentPage (href : String) : String :=
  if isTargetUrl href then "multiCustomerService" else "unknown"

/-- The `isTargetPage()` result for the address `href`. -/
def isTargetPage (href : String) : Bool :=
  detectCurrentPage href = "multiCustomerService"

/-! ## CardOperations.getCardList -/

/-- The `getCardList()` result, by index: one entry per child of the candidate
list, none when the list is absent or empty (the display text is not modelled). -/
def getCardList (page : Page) : List Nat :=
  match page.cardContainer with
  | none => []
  | some cardContainer =>
    if cardContainer.children.length = 0 then [] else List.range cardContainer.children.length

/-! ## JuguangAutoCard and URLWatcher -/

/-- A `JuguangAutoCard` object: its `CardOperations` with the executions and
retry timers that belong to it, whether `this.ui` is set, the `isInitialized`
flag and the `intervalId` handle. -/
structure Session where
  ops : CardOperations
  suspended : List (Pc × Int)
  retryTimers : List Int
  ui : Bool
  isInitialized : Bool
  intervalId : Option Nat

/-- The object the `JuguangAutoCard` constructor builds. -/
def Session.new : Session :=
  { ops := CardOperations.new, suspended := [], retryTimers := [], ui := false,
    isInitialized := false, intervalId := none }

/-- A live `setInterval` timer: its handle, the session whose callback it runs, its period. -/
structure Interval where
  id : Nat
  owner : Nat
  ms : Int
deriving DecidableEq, Repr

/-- The page with the script in it. Sessions are named by their position in
`sessions`, which holds every `JuguangAutoCard` constructed so far. -/
structure System where
  href : String
  complete : Bool
  storage : Storage
  effects : List Effect
  sessions : List Session
  app : Option Nat
  currentUrl : String
  intervals : List Interval
  nextTimerId : Nat
  initTimers : Nat
  loadWaiters : List Nat
  startTimers : List Nat
  restartTimers : List Nat

namespace System

/-- The page when the `URLWatcher` has just been constructed: no session, no timer. -/
def initial (href currentUrl : String) (complete : Bool) (st : Storage) : System :=
  { href := href, complete := complete, storage := st, effects := [], sessions := [],
    app := none, currentUrl := currentUrl, intervals := [], nextTimerId := 1,
    initTimers := 0, loadWaiters := [], startTimers := [], restartTimers := [] }

/-- Session `k` replaced by `f` of it; nothing happens when there is no such session. -/
def modifySession (s : System) (k : Nat) (f : Session → Session) : System :=
  match s.sessions[k]? with
  | none => s
  | some sess => { s with sessions := s.sessions.set k (f sess) }

/-- A method of the `CardOperations` of session `k`, run on the shared store. -/
def onCard (s : System) (k : Nat) (f : World → World) : System :=
  match s.sessions[k]? with
  | none => s
  | some sess =>
    let w := f { ops := sess.ops, storage := s.storage, suspended := sess.suspended,
                 retryTimers := sess.retryTimers, effects := s.effects }
    { s with
      storage := w.storage
      effects := w.effects
      sessions := s.sessions.set k
        { sess with ops := w.ops, suspended := w.suspended, retryTimers := w.retryTimers } }

/-- The guarded call `this.ui && this.ui.updateStatus(status)` of session `k`. -/
def updateStatus (s : System) (k : Nat) (status : String) : System :=
  match s.sessions[k]? with
  | none => s
  | some sess => if sess.ui then { s with effects := s.effects ++ [.status status] } else s

/-- The `stop()` call of session `k`. -/
def stop (s : System) (k : Nat) : System :=
  match s.sessions[k]? with
  | none => s
  | some sess =>
    let s :=
      match sess.intervalId with
      | none => s
      | some id =>
        if id = 0 then s
        else
          { s with
            intervals := s.intervals.filter fun t => t.id ≠ id
            sessions := s.sessions.set k { sess with intervalId := none } }
    s.updateStatus k "已停止"

/-- The `startAutoMode()` call of session `k`, a method of an existing object;
`setInterval` hands out the next handle. The status line is written without
its interval suffix. -/
def startAutoMode (s : System) (k : Nat) : System :=
  match s.sessions[k]? with
  | none => s
  | some _ =>
    let s := s.stop k
    let enabled := s.storage.getEnabled
    if enabled = false then s.updateStatus k "自动模式已禁用"
    else if isTargetPage s.href = false then s.updateStatus k "当前页面不是目标页面"
    else
      let interval := s.storage.getAutoInterval
      let s : System :=
        { (s.modifySession k fun sess => { sess with intervalId := some s.nextTimerId }) with
          intervals := s.intervals ++ [Interval.mk s.nextTimerId k interval]
          nextTimerId := s.nextTimerId + 1 }
      s.updateStatus k "自动模式运行中"

/-- The `setupUI()` call of session `k`. -/
def setupUI (s : System) (k : Nat) : System :=
  s.modifySession k fun sess => { sess with ui := true, ops := { sess.ops with ui := true } }

/-- The last statements of the `try` block of `init()` of session `k`. -/
def initFinish (s : System) (k : Nat) : System :=
  let s := s.modifySession k fun sess => { sess with isInitialized := true }
  { s with effects := s.effects ++ [.success "小红书专业版自动发名片脚本已启动"] }

/-- The `init()` calls of the sessions `ks` past their wait for the page load.
Each `await` of the body yields to the other calls, so they advance in step:
all run `setupUI()`, then all run `startAutoMode()`, then all set the flag. -/
def initAfterLoad (s : System) (ks : List Nat) : System :=
  let s := ks.foldl setupUI s
  let s := ks.foldl startAutoMode s
  ks.foldl initFinish s

/-- The `init()` call of session `k`: refused when already initialized, parked
at `waitForPageLoad()` while the document is not complete. -/
def init (s : System) (k : Nat) : System :=
  match s.sessions[k]? with
  | none => s
  | some sess =>
    if sess.isInitialized then s
    else if s.complete then s.initAfterLoad [k]
    else { s with loadWaiters := s.loadWaiters ++ [k] }

/-- The window `load` event: the document is complete and the parked `init` calls go on. -/
def load (s : System) : System :=
  initAfterLoad { s with complete := true, loadWaiters := [] } s.loadWaiters

/-- The `destroy()` call of session `k`. -/
def destroy (s : System) (k : Nat) : System :=
  let s := s.stop k
  s.modifySession k fun sess => { sess with ui := false, isInitialized := false }

/-- The `restart()` call of session `k`. -/
def restart (s : System) (k : Nat) : System :=
  let s := s.destroy k
  { s with restartTimers := s.restartTimers ++ [k] }

/-- The `handleUrlChange()` call of the watcher. -/
def handleUrlChange (s : System) : System :=
  if isTargetUrl s.href then
    match s.app with
    | none =>
      { s with
        sessions := s.sessions ++ [Session.new]
        app := some s.sessions.length
        initTimers := s.initTimers + 1 }
    | some _ => s
  else
    match s.app with
    | some k => { s.destroy k with app := none }
    | none => s

/-- The `checkURL()` call of the watcher. -/
def checkURL (s : System) : System :=
  let newUrl := s.href
  if newUrl ≠ s.currentUrl then
    handleUrlChange { s with currentUrl := newUrl }
  else if isTargetUrl s.href && s.app.isNone then
    s.handleUrlChange
  else s

/-- The watcher's `stop()` call. -/
def watcherStop (s : System) : System :=
  match s.app with
  | some k => { s.destroy k with app := none }
  | none => s

/-- A pending settle-delay timer fires and calls `this.app.init()`; with no
session held the call raises a `TypeError` inside the timer and nothing changes. -/
def fireInit (s : System) : System :=
  if s.initTimers = 0 then s
  else
    let s := { s with initTimers := s.initTimers - 1 }
    match s.app with
    | none => s
    | some k => s.init k

/-- The `i`-th pending `setTimeout(() => this.mainApp.startAutoMode(), 100)` fires. -/
def fireStart (s : System) (i : Nat) : System :=
  match s.startTimers[i]? with
  | none => s
  | some k => startAutoMode { s with startTimers := s.startTimers.eraseIdx i } k

/-- The `i`-th pending `setTimeout(() => this.init(), 1000)` of a `restart()` fires. -/
def fireRestart (s : System) (i : Nat) : System :=
  match s.restartTimers[i]? with
  | none => s
  | some k => init { s with restartTimers := s.restartTimers.eraseIdx i } k

/-- The callback of the live periodic trigger with handle `id`. -/
def tick (s : System) (id : Nat) (o : Obs) : System :=
  match s.intervals.find? fun t => t.id = id with
  | none => s
  | some t =>
    if s.storage.getEnabled && isTargetPage s.href then s.onCard t.owner fun w => w.autoSendCard o
    else s.stop t.owner

/-- A settings handler of the panel of session `k` acts only while the panel exists. -/
def onPanel (s : System) (k : Nat) (f : System → System) : System :=
  match s.sessions[k]? with
  | none => s
  | some sess => if sess.ui then f s else s

end System

/-- What can happen in the page: navigation and page load, the watcher's
checks, the timers, the methods of a session and of its `CardOperations`, and
the handlers of its panel. -/
inductive Op where
  | navigate (href : String)
  | load
  | checkURL
  | watcherStop
  | fireInit
  | fireStart (i : Nat)
  | fireRestart (i : Nat)
  | tick (id : Nat) (o : Obs)
  | init (k : Nat)
  | startAutoMode (k : Nat)
  | stop (k : Nat)
  | destroy (k : Nat)
  | restart (k : Nat)
  | autoSendCard (k : Nat) (o : Obs)
  | wake (k i : Nat) (o : Obs)
  | retry (k i : Nat) (o : Obs)
  | handleError (k : Nat) (e : Failure) (r : Draw)
  | getCardList (k : Nat) (page : Page)
  | setEnabled (k : Nat) (checked : Bool)
  | setAutoInterval (k : Nat) (seconds : Int)
  | setCardSelection (k : Nat) (value : String)
  | setSelectedCardIndex (k : Nat) (value : Nat)
  | refreshCardList (k : Nat) (page : Page)
  | manualSend (k : Nat) (o : Obs)
  | togglePanel (k : Nat)
  | resetCount (k : Nat)
  | resetConfig

/-- The explicit reset intents: the reset-counter handler and `resetConfig`. -/
def Op.isReset : Op → Bool
  | .resetCount _ => true
  | .resetConfig => true
  | _ => false

/-- The effect of one operation on the page. -/
def System.step (s : System) : Op → System
  | .navigate href => { s with href := href }
  | .load => s.load
  | .checkURL => s.checkURL
  | .watcherStop => s.watcherStop
  | .fireInit => s.fireInit
  | .fireStart i => s.fireStart i
  | .fireRestart i => s.fireRestart i
  | .tick id o => s.tick id o
  | .init k => s.init k
  | .startAutoMode k => s.startAutoMode k
  | .stop k => s.stop k
  | .destroy k => s.destroy k
  | .restart k => s.restart k
  | .autoSendCard k o => s.onCard k fun w => w.autoSendCard o
  | .wake k i o => s.onCard k fun w => w.wake i o
  | .retry k i o => s.onCard k fun w => w.fireRetry i o
  | .handleError k e r => s.onCard k fun w => w.handleError e r
  | .getCardList _ _ => s
  | .setEnabled k checked =>
    s.onPanel k fun s =>
      { s with
        storage := { s.storage with enabled := some checked }
        startTimers := s.startTimers ++ [k] }
  | .setAutoInterval k seconds =>
    s.onPanel k fun s =>
      let s := { s with storage := { s.storage with autoInterval := some (seconds * 1000) } }
      if s.storage.getEnabled then { s with startTimers := s.startTimers ++ [k] } else s
  | .setCardSelection k value =>
    s.onPanel k fun s => { s with storage := { s.storage with cardSelection := some value } }
  | .setSelectedCardIndex k value =>
    s.onPanel k fun s => { s with storage := { s.storage with selectedCardIndex := some value } }
  | .refreshCardList k _ => s.onPanel k fun s => s
  | .manualSend k o => s.onPanel k fun s => s.onCard k fun w => w.autoSendCard o
  | .togglePanel k => s.onPanel k fun s => s
  | .resetCount k =>
    s.onPanel k fun s =>
      { s with
        storage := { s.storage with sentCount := some 0 }
        effects := s.effects ++ [.sentCountShown 0] }
  | .resetConfig => { s with storage := s.storage.resetConfig }

/-- The page after a sequence of operations. -/
def System.run (s : System) (ops : List Op) : System :=
  ops.foldl System.step s

/-- The three happenings of the navigation monitor: the address changes, the
watcher checks it, a settle-delay timer fires. -/
inductive MonitorEvent where
  | navigate (href : String)
  | checkURL
  | fireInit

/-- A monitor event as an operation on the page. -/
def MonitorEvent.toOp : MonitorEvent → Op
  | .navigate href => .navigate href
  | .checkURL => .checkURL
  | .fireInit => .fireInit

/-- Session `k` is live: it is initialized or a live periodic trigger runs its callback. -/
def System.live (s : System) (k : Nat) : Bool :=
  (match s.sessions[k]? with
    | none => false
    | some sess => sess.isInitialized) || s.intervals.any fun t => t.owner = k

/-- The sessions that are live. -/
def System.liveSessions (s : System) : List Nat :=
  (List.range s.sessions.length).filter s.live

/-- Every live periodic trigger has a nonzero handle, and the session whose
callback it runs holds that handle in `intervalId`. -/
def System.Owned (s : System) : Prop :=
  ∀ t ∈ s.intervals, t.id ≠ 0 ∧
    ∃ sess, s.sessions[t.owner]? = some sess ∧ sess.intervalId = some t.id

/-- No session but the one the watcher holds is live. -/
def System.OnlyApp (s : System) : Prop :=
  ∀ k, s.live k = true → s.app = some k

/-- The watcher holds a session only for an address it has seen match the pattern. -/
def System.AppOnTarget (s : System) : Prop :=
  s.app ≠ none → isTargetUrl s.currentUrl = true

/-! ## A sample page -/

namespace Sample

/-- An element with no children on which the direct click works. -/
def leaf (id : Nat) : Element := .mk id false false false []

/-- A candidate card whose send control, `leaf (10 * id + 1)`, sits at the path
`children[0].children[0].children[0].children[1]`. -/
def card (id : Nat) : Element :=
  .mk id false false false
    [.mk (10 * id + 2) false false false
      [.mk (10 * id + 3) false false false
        [.mk (10 * id + 4) false false false [leaf (10 * id), leaf (10 * id + 1)]]]]

/-- A candidate list of five cards. -/
def cardContainer : Element :=
  .mk 5 false false false [card 10, card 11, card 12, card 13, card 14]

/-- A page with one unread marker and every control of the pipeline present. -/
def page : Page :=
  { redDots := [⟨some (leaf 1)⟩], customerToolSvg := some (leaf 2), cardTab := some (leaf 3),
    cardContainer := some cardContainer }

/-- The same page without the card tab. -/
def pageNoTab : Page :=
  { redDots := [⟨some (leaf 1)⟩], customerToolSvg := some (leaf 2), cardTab := none,
    cardContainer := some cardContainer }

/-- The draw one half. -/
def half : Draw := { mant := 2 ^ 52, exp := 0, mant_lt := by decide, exp_le := by decide }

/-- The sample page observed with every draw equal to one half. -/
def obs : Obs := { page := page, rSelect := half, rDelay := half, rBackoff := half }

/-- The page without the card tab observed with every draw equal to one half. -/
def obsNoTab : Obs := { page := pageNoTab, rSelect := half, rDelay := half, rBackoff := half }

/-- A run over the sample page. -/
def runObs : RunObs := { o1 := obs, o2 := obs, o3 := obs, o4 := obs, o5 := obs }

/-- A run during which the card tab is missing. -/
def runNoTab : RunObs :=
  { o1 := obsNoTab, o2 := obsNoTab, o3 := obsNoTab, o4 := obsNoTab, o5 := obsNoTab }

/-- A store set to manual selection with the stale index `10`. -/
def manualStale : Storage :=
  { Storage.empty with cardSelection := some "manual", selectedCardIndex := some 10 }

/-- A world whose `CardOperations` has an execution parked before step 4. -/
def busy : World :=
  { ops := { CardOperations.new with isRunning := true }, storage := Storage.empty,
    suspended := [(.step4, 1500)], retryTimers := [], effects := [] }

/-- A page with one session whose pipeline is parked before the counting statements. -/
def system : System :=
  { System.initial targetUrlPattern targetUrlPattern true Storage.empty with
    sessions := [{ Session.new with
      ops := { CardOperations.new with isRunning := true }, suspended := [(.count, 750)] }]
    app := some 0 }

end Sample

/-- Whether the activation strategy `s` throws on the element. -/
def Element.throwsOn (e : Element) : Strategy → Bool
  | .direct => e.clickThrows
  | .mouseEvent => e.mouseEventThrows
  | .basicEvent => e.basicEventThrows

namespace Sample

/-- A candidate list holding one card that has no children. -/
def bareContainer : Element := .mk 5 false false false [leaf 20]

/-- The sample page with the candidate list replaced by `bareContainer`. -/
def pageBare : Page := { page with cardContainer := some bareContainer }

/-- The page with the bare card observed with every draw equal to one half. -/
def obsBare : Obs := { page := pageBare, rSelect := half, rDelay := half, rBackoff := half }

/-- A run that finds every control and then the bare card in step 5. -/
def runBare : RunObs := { o1 := obs, o2 := obs, o3 := obs, o4 := obsBare, o5 := obsBare }

end Sample

/-- A store whose `maxRetries` key holds `0`. -/
def Sample.noRetries : Storage := { Storage.empty with maxRetries := some 0 }

/-- A store whose counter holds `2 ^ 53`, the first double whose successor is not a double. -/
def Sample.saturated : Storage := { Storage.empty with sentCount := some (2 ^ 53) }

/-- The double nearest to six tenths, what the literal `0.6` denotes. -/
def Sample.sixTenths : Draw :=
  { mant := 5404319552844595, exp := 0, mant_lt := by decide, exp_le := by decide }

/-- A draw whose product with `1001` lies within half a step under `999` and is rounded to it. -/
def Sample.underInteger : Draw :=
  { mant := 8989202852633617, exp := 0, mant_lt := by decide, exp_le := by decide }

/-- The sample page entered and initialized, a run of session `0` started by its
periodic trigger and parked at its last sleep, before the counting statements,
and the address then changed to one off the pattern. -/
def Sample.leaving : System :=
  (System.initial targetUrlPattern targetUrlPattern true Storage.empty).run
    [.checkURL, .fireInit, .tick 1 Sample.obs, .wake 0 0 Sample.obs, .wake 0 0 Sample.obs,
      .wake 0 0 Sample.obs, .navigate "https://pro.xiaohongshu.com/home"]

/-- The operations that can write `sentCount`: the wake-up of a parked run, which
may reach the counting statements, and the two reset intents. -/
def Op.mayWriteCount : Op → Bool
  | .wake _ _ _ => true
  | .resetCount _ => true
  | .resetConfig => true
  | _ => false

/-- The live periodic triggers that run the callback of session `k`. -/
def System.triggersOf (s : System) (k : Nat) : List Interval :=
  s.intervals.filter fun t => t.owner = k

/-- The timers of the page are in order: live triggers are linked to the
handles of their sessions, handles are handed out in increasing order starting
above zero, no session holds the handle zero, and no session has two live
triggers. -/
def System.TimersOk (s : System) : Prop :=
  s.Owned ∧ s.nextTimerId ≠ 0 ∧
  (∀ t ∈ s.intervals, t.id < s.nextTimerId) ∧
  (∀ (k : Nat) (sess : Session), s.sessions[k]? = some sess → sess.intervalId ≠ some 0) ∧
  (∀ k, (s.triggersOf k).length ≤ 1)

/-! # Theorems -/

/-! ## Rounding to a double -/

theorem roundTo_cases (t n : Nat) :
    (roundTo t n = n / 2 ^ t * 2 ^ t ∧ 2 * (n % 2 ^ t) ≤ 2 ^ t ∧
      (2 * (n % 2 ^ t) = 2 ^ t → n / 2 ^ t % 2 = 0)) ∨
    (roundTo t n = (n / 2 ^ t + 1) * 2 ^ t ∧ 2 ^ t ≤ 2 * (n % 2 ^ t) ∧
      (2 * (n % 2 ^ t) = 2 ^ t → n / 2 ^ t % 2 = 1)) := by
  unfold roundTo
  simp only
  split_ifs with h1 h2 h3
  · exact Or.inl ⟨rfl, by omega, by omega⟩
  · exact Or.inr ⟨rfl, by omega, by omega⟩
  · exact Or.inl ⟨rfl, by omega, fun _ => h3⟩
  · exact Or.inr ⟨rfl, by omega, fun _ => by omega⟩

/-- The rounded value is within half a step of the number, between the two multiples around it. -/
theorem roundTo_near (t n : Nat) :
    2 * roundTo t n ≤ 2 * n + 2 ^ t ∧ 2 * n ≤ 2 * roundTo t n + 2 ^ t ∧
    n / 2 ^ t * 2 ^ t ≤ roundTo t n ∧ roundTo t n ≤ (n / 2 ^ t + 1) * 2 ^ t := by
  have hdm := Nat.div_add_mod n (2 ^ t)
  have hlt : n % 2 ^ t < 2 ^ t := Nat.mod_lt _ (by positivity)
  have hc : 2 ^ t * (n / 2 ^ t) = n / 2 ^ t * 2 ^ t := Nat.mul_comm _ _
  have hs : (n / 2 ^ t + 1) * 2 ^ t = n / 2 ^ t * 2 ^ t + 2 ^ t := by ring
  rcases roundTo_cases t n with ⟨h, h1, _⟩ | ⟨h, h1, _⟩ <;> rw [h] <;> omega

theorem roundTo_mul (t k : Nat) : roundTo t (k * 2 ^ t) = k * 2 ^ t := by
  have hp : 0 < 2 ^ t := by positivity
  unfold roundTo
  simp [Nat.mul_mod_left, Nat.mul_div_cancel _ hp, hp]

theorem roundTo_mono (t : Nat) {n m : Nat} (h : n ≤ m) : roundTo t n ≤ roundTo t m := by
  have hp : 0 < 2 ^ t := by positivity
  have hq : n / 2 ^ t ≤ m / 2 ^ t := Nat.div_le_div_right h
  obtain ⟨_, _, _, hn⟩ := roundTo_near t n
  obtain ⟨_, _, hm, _⟩ := roundTo_near t m
  rcases Nat.lt_or_ge (n / 2 ^ t) (m / 2 ^ t) with hlt | hge
  · calc roundTo t n ≤ (n / 2 ^ t + 1) * 2 ^ t := hn
      _ ≤ m / 2 ^ t * 2 ^ t := Nat.mul_le_mul_right _ hlt
      _ ≤ roundTo t m := hm
  · have heq : n / 2 ^ t = m / 2 ^ t := Nat.le_antisymm hq hge
    have hdn := Nat.div_add_mod n (2 ^ t)
    have hdm := Nat.div_add_mod m (2 ^ t)
    have hs : (m / 2 ^ t + 1) * 2 ^ t = m / 2 ^ t * 2 ^ t + 2 ^ t := by ring
    have hc : 2 ^ t * (m / 2 ^ t) = m / 2 ^ t * 2 ^ t := Nat.mul_comm _ _
    rcases roundTo_cases t n with ⟨h1, h2, h3⟩ | ⟨h1, h2, h3⟩ <;>
      rcases roundTo_cases t m with ⟨g1, g2, g3⟩ | ⟨g1, g2, g3⟩ <;>
      rw [h1, g1] <;> rw [heq] at * <;> omega

/-- The binary exponent found by `excess`. -/
theorem excess_spec (fuel n : Nat) (h : n < 2 ^ 53 * 2 ^ fuel) :
    (n < 2 ^ 53 → excess fuel n = 0) ∧
    (2 ^ 53 ≤ n → 1 ≤ excess fuel n ∧ 2 ^ 52 * 2 ^ excess fuel n ≤ n ∧
      n < 2 ^ 53 * 2 ^ excess fuel n) := by
  induction fuel generalizing n with
  | zero =>
    simp only [pow_zero, mul_one] at h
    exact ⟨fun _ => rfl, fun h' => absurd h (by omega)⟩
  | succ fuel ih =>
    have h2 : n / 2 < 2 ^ 53 * 2 ^ fuel := by
      rw [pow_succ] at h
      omega
    obtain ⟨ih1, ih2⟩ := ih (n / 2) h2
    constructor
    · intro hn
      rw [excess, if_pos hn]
    · intro hn
      have hn' : ¬ n < 2 ^ 53 := by omega
      rw [excess, if_neg hn']
      rcases Nat.lt_or_ge (n / 2) (2 ^ 53) with hs | hs
      · rw [ih1 hs]
        refine ⟨by omega, ?_, ?_⟩ <;> norm_num <;> omega
      · obtain ⟨_, a, b⟩ := ih2 hs
        refine ⟨by omega, ?_, ?_⟩ <;> rw [pow_succ] <;> omega

theorem lt_two_pow_fuel (n : Nat) : n < 2 ^ 53 * 2 ^ n :=
  calc n < 2 ^ n := Nat.lt_two_pow n
    _ ≤ 2 ^ 53 * 2 ^ n := Nat.le_mul_of_pos_left _ (by positivity)

theorem round53_of_lt {n : Nat} (h : n < 2 ^ 53) : round53 n = n := by
  unfold round53
  rw [(excess_spec n n (lt_two_pow_fuel n)).1 h]
  simpa using roundTo_mul 0 n


theorem round53_two_pow : round53 (2 ^ 53) = 2 ^ 53 := by decide

theorem round53_of_le {n : Nat} (h : n ≤ 2 ^ 53) : round53 n = n := by
  rcases Nat.lt_or_ge n (2 ^ 53) with h1 | h1
  · exact round53_of_lt h1
  · have : n = 2 ^ 53 := Nat.le_antisymm h h1
    rw [this]; exact round53_two_pow

/-- The exponent of a number of at least 54 binary digits and the rounding at it. -/
theorem round53_large {n : Nat} (h : 2 ^ 53 ≤ n) :
    ∃ t, 1 ≤ t ∧ 2 ^ 52 * 2 ^ t ≤ n ∧ n < 2 ^ 53 * 2 ^ t ∧ round53 n = roundTo t n := by
  obtain ⟨a, b, c⟩ := (excess_spec n n (lt_two_pow_fuel n)).2 h
  exact ⟨_, a, b, c, rfl⟩

/-- The exponent is determined by the size of the number. -/
theorem round53_eq_roundTo {n t : Nat} (h1 : 2 ^ 52 * 2 ^ t ≤ n) (h2 : n < 2 ^ 53 * 2 ^ t)
    (ht : 1 ≤ t) : round53 n = roundTo t n := by
  have hbig : 2 ^ 53 ≤ n := by
    have : 2 ^ 1 ≤ 2 ^ t := Nat.pow_le_pow_right (by decide) ht
    omega
  obtain ⟨t', _, a, b, c⟩ := round53_large hbig
  have : t' = t := by
    rcases Nat.lt_trichotomy t' t with hlt | heq | hgt
    · have : 2 ^ (t' + 1) ≤ 2 ^ t := Nat.pow_le_pow_right (by decide) hlt
      rw [pow_succ] at this
      omega
    · exact heq
    · have : 2 ^ (t + 1) ≤ 2 ^ t' := Nat.pow_le_pow_right (by decide) hgt
      rw [pow_succ] at this
      omega
  rw [c, this]


theorem round53_mono {n m : Nat} (h : n ≤ m) : round53 n ≤ round53 m := by
  rcases Nat.lt_or_ge m (2 ^ 53) with hm | hm
  · rw [round53_of_lt hm, round53_of_lt (Nat.lt_of_le_of_lt h hm)]
    exact h
  · obtain ⟨tm, htm, am, bm, cm⟩ := round53_large hm
    obtain ⟨_, _, hlo, _⟩ := roundTo_near tm m
    have hqm : 2 ^ 52 ≤ m / 2 ^ tm := by
      rw [Nat.le_div_iff_mul_le (by positivity)]
      exact am
    have hfloor : 2 ^ 52 * 2 ^ tm ≤ round53 m := by
      rw [cm]
      exact Nat.le_trans (Nat.mul_le_mul_right _ hqm) hlo
    rcases Nat.lt_or_ge n (2 ^ 53) with hn | hn
    · rw [round53_of_lt hn]
      have : 2 ^ 1 ≤ 2 ^ tm := Nat.pow_le_pow_right (by decide) htm
      omega
    · obtain ⟨tn, htn, an, bn, cn⟩ := round53_large hn
      rcases Nat.lt_trichotomy tn tm with hlt | heq | hgt
      · obtain ⟨_, _, _, hhi⟩ := roundTo_near tn n
        have hqn : n / 2 ^ tn + 1 ≤ 2 ^ 53 := by
          have : n / 2 ^ tn < 2 ^ 53 := by
            rw [Nat.div_lt_iff_lt_mul (by positivity)]
            exact bn
          omega
        have h1 : round53 n ≤ 2 ^ 53 * 2 ^ tn := by
          rw [cn]
          exact Nat.le_trans hhi (Nat.mul_le_mul_right _ hqn)
        have h2 : 2 ^ (tn + 1) ≤ 2 ^ tm := Nat.pow_le_pow_right (by decide) hlt
        rw [pow_succ] at h2
        omega
      · subst heq
        rw [cn, cm]
        exact roundTo_mono tn h
      · have h2 : 2 ^ (tm + 1) ≤ 2 ^ tn := Nat.pow_le_pow_right (by decide) hgt
        rw [pow_succ] at h2
        omega

theorem round53_idem (n : Nat) : round53 (round53 n) = round53 n := by
  rcases Nat.lt_or_ge n (2 ^ 53) with hn | hn
  · rw [round53_of_lt hn, round53_of_lt hn]
  · obtain ⟨t, ht, a, b, c⟩ := round53_large hn
    have hq1 : 2 ^ 52 ≤ n / 2 ^ t := by
      rw [Nat.le_div_iff_mul_le (by positivity)]
      exact a
    have hq2 : n / 2 ^ t < 2 ^ 53 := by
      rw [Nat.div_lt_iff_lt_mul (by positivity)]
      exact b
    rcases roundTo_cases t n with ⟨h, _, _⟩ | ⟨h, _, _⟩
    · rw [c, h]
      rw [round53_eq_roundTo (Nat.mul_le_mul_right _ hq1)
        (Nat.mul_lt_mul_of_pos_right hq2 (by positivity)) ht]
      exact roundTo_mul t _
    · rw [c, h]
      rcases Nat.lt_or_ge (n / 2 ^ t + 1) (2 ^ 53) with hs | hs
      · rw [round53_eq_roundTo (Nat.mul_le_mul_right _ (by omega))
          (Nat.mul_lt_mul_of_pos_right hs (by positivity)) ht]
        exact roundTo_mul t _
      · have hk : n / 2 ^ t + 1 = 2 ^ 53 := by omega
        have he : (n / 2 ^ t + 1) * 2 ^ t = 2 ^ 52 * 2 ^ (t + 1) := by
          rw [hk, pow_succ]; ring
        rw [he, round53_eq_roundTo (Nat.le_refl _)
          (Nat.mul_lt_mul_of_pos_right (by decide) (by positivity)) (by omega)]
        exact roundTo_mul (t + 1) _

/-- Adding one to a double and rounding does not go below it. -/
theorem le_round53_succ (n : Nat) : round53 n ≤ round53 (round53 n + 1) := by
  calc round53 n = round53 (round53 n) := (round53_idem n).symm
    _ ≤ round53 (round53 n + 1) := round53_mono (Nat.le_succ _)

/-- The rounded product of a draw's significand and a positive factor stays below the factor. -/
theorem round53_mul_lt {mant w : Nat} (hm : mant < 2 ^ 53) (hw : 1 ≤ w) :
    round53 (mant * w) < w * 2 ^ 53 := by
  have hN : mant * w + w ≤ w * 2 ^ 53 := by
    have : (mant + 1) * w ≤ 2 ^ 53 * w := Nat.mul_le_mul_right _ hm
    linarith
  rcases Nat.lt_or_ge (mant * w) (2 ^ 53) with hs | hs
  · rw [round53_of_lt hs]; omega
  · obtain ⟨t, ht, a, b, c⟩ := round53_large hs
    obtain ⟨hnear, _, _, _⟩ := roundTo_near t (mant * w)
    rw [c]
    omega


theorem Draw.toRat_range (r : Draw) : 0 ≤ r.toRat ∧ r.toRat < 1 := by
  unfold Draw.toRat
  have hp : (0 : ℚ) < 2 ^ (53 + r.exp) := by positivity
  refine ⟨by positivity, ?_⟩
  rw [div_lt_one hp]
  have h1 : (r.mant : ℚ) < 2 ^ 53 := by exact_mod_cast r.mant_lt
  have h2 : (2 : ℚ) ^ 53 ≤ 2 ^ (53 + r.exp) := pow_le_pow_right₀ (by norm_num) (by omega)
  linarith

theorem roundInt_of_abs_le {i : Int} (h1 : -(2 ^ 53) ≤ i) (h2 : i ≤ 2 ^ 53) : roundInt i = i := by
  unfold roundInt
  split_ifs with h
  · rw [round53_of_le (by omega)]
    omega
  · rw [round53_of_le (by omega)]
    omega

theorem Draw.mulFloor_natCast (r : Draw) (n : Nat) :
    r.mulFloor (n : Int) = ((round53 (r.mant * n) / 2 ^ (53 + r.exp) : Nat) : Int) := by
  simp [Draw.mulFloor]

/-- The floored product of a draw and a positive count is an index below the count. -/
theorem Draw.mulFloor_lt (r : Draw) {n : Nat} (hn : 1 ≤ n) :
    round53 (r.mant * n) / 2 ^ (53 + r.exp) < n := by
  rw [Nat.div_lt_iff_lt_mul (by positivity)]
  have h1 := round53_mul_lt r.mant_lt hn
  have h2 : n * 2 ^ 53 ≤ n * 2 ^ (53 + r.exp) :=
    Nat.mul_le_mul_left _ (Nat.pow_le_pow_right (by decide) (by omega))
  omega

theorem Draw.mulFloor_range (r : Draw) {w : Int} (hw : 1 ≤ w) :
    0 ≤ r.mulFloor w ∧ r.mulFloor w < w := by
  obtain ⟨n, rfl⟩ := Int.eq_ofNat_of_zero_le (by omega : 0 ≤ w)
  rw [Draw.mulFloor_natCast]
  have := r.mulFloor_lt (by omega : 1 ≤ n)
  generalize round53 (r.mant * n) / 2 ^ (53 + r.exp) = q at this ⊢
  omega


/-- Every index below a count of at most `2 ^ 52` is the floored product of some draw. -/
theorem Draw.mulFloor_surj {w k : Nat} (hw : w ≤ 2 ^ 52) (hk : k < w) :
    ∃ r : Draw, r.mulFloor (w : Int) = (k : Int) := by
  have hw0 : 0 < w := by omega
  have hdm := Nat.div_add_mod (k * 2 ^ 53 + (w - 1)) w
  have hmod : (k * 2 ^ 53 + (w - 1)) % w < w := Nat.mod_lt _ hw0
  -- the significand: the least `m` with `k * 2 ^ 53 ≤ m * w`
  have hlt : (k * 2 ^ 53 + (w - 1)) / w < 2 ^ 53 := by
    rw [Nat.div_lt_iff_lt_mul hw0]
    have : (k + 1) * 2 ^ 53 ≤ w * 2 ^ 53 := Nat.mul_le_mul_right _ hk
    omega
  refine ⟨⟨(k * 2 ^ 53 + (w - 1)) / w, 0, hlt, by decide⟩, ?_⟩
  rw [Draw.mulFloor_natCast]
  congr 1
  simp only [Nat.add_zero]
  generalize hm : (k * 2 ^ 53 + (w - 1)) / w = m at hdm hlt
  have hc : w * m = m * w := Nat.mul_comm _ _
  have hlo : k * 2 ^ 53 ≤ m * w := by omega
  have hhi : m * w < k * 2 ^ 53 + w := by omega
  generalize m * w = N at hlo hhi
  have hbounds : k * 2 ^ 53 ≤ round53 N ∧ round53 N < (k + 1) * 2 ^ 53 := by
    rcases Nat.lt_or_ge N (2 ^ 53) with hs | hs
    · rw [round53_of_lt hs]; omega
    · obtain ⟨t, ht, a, b, c⟩ := round53_large hs
      obtain ⟨hnear, _, hfl, _⟩ := roundTo_near t N
      rw [c]
      have hP : 2 ^ t < 2 * w := by omega
      have ht53 : t ≤ 53 := by
        by_contra hcon
        have : 2 ^ 54 ≤ 2 ^ t := Nat.pow_le_pow_right (by decide) (by omega)
        omega
      constructor
      · -- `k * 2 ^ 53` is a multiple of `2 ^ t` that does not exceed `N`
        have hsplit : k * 2 ^ 53 = k * 2 ^ (53 - t) * 2 ^ t := by
          rw [Nat.mul_assoc, ← pow_add, Nat.sub_add_cancel ht53]
        have hq : k * 2 ^ (53 - t) ≤ N / 2 ^ t := by
          rw [Nat.le_div_iff_mul_le (by positivity), ← hsplit]
          exact hlo
        calc k * 2 ^ 53 = k * 2 ^ (53 - t) * 2 ^ t := hsplit
          _ ≤ N / 2 ^ t * 2 ^ t := Nat.mul_le_mul_right _ hq
          _ ≤ roundTo t N := hfl
      · omega
  exact Nat.div_eq_of_lt_le hbounds.1 hbounds.2


/-- The exact floor of the product of a draw and a count. -/
theorem Draw.floor_toRat_mul (r : Draw) (n : Nat) :
    ⌊r.toRat * (n : ℚ)⌋ = ((r.mant * n / 2 ^ (53 + r.exp) : Nat) : Int) := by
  have hD : 0 < 2 ^ (53 + r.exp) := by positivity
  have hDq : (0 : ℚ) < ((2 ^ (53 + r.exp) : Nat) : ℚ) := by exact_mod_cast hD
  have hdm := Nat.div_add_mod (r.mant * n) (2 ^ (53 + r.exp))
  have hlt := Nat.mod_lt (r.mant * n) hD
  have heq : r.toRat * (n : ℚ) = ((r.mant * n : Nat) : ℚ) / ((2 ^ (53 + r.exp) : Nat) : ℚ) := by
    unfold Draw.toRat
    push_cast
    ring
  rw [heq, Int.floor_eq_iff]
  constructor
  · rw [le_div_iff₀ hDq]
    have : r.mant * n / 2 ^ (53 + r.exp) * 2 ^ (53 + r.exp) ≤ r.mant * n :=
      Nat.div_mul_le_self _ _
    exact_mod_cast this
  · rw [div_lt_iff₀ hDq]
    have : r.mant * n < (r.mant * n / 2 ^ (53 + r.exp) + 1) * 2 ^ (53 + r.exp) := by
      have hc : 2 ^ (53 + r.exp) * (r.mant * n / 2 ^ (53 + r.exp)) =
          r.mant * n / 2 ^ (53 + r.exp) * 2 ^ (53 + r.exp) := Nat.mul_comm _ _
      have hs : (r.mant * n / 2 ^ (53 + r.exp) + 1) * 2 ^ (53 + r.exp) =
          r.mant * n / 2 ^ (53 + r.exp) * 2 ^ (53 + r.exp) + 2 ^ (53 + r.exp) := by ring
      omega
    exact_mod_cast this

/-- Rounding the product moves the floor by at most one, and only upwards: for a
count of at most `2 ^ 53` the floored double product is the exact floor or the
integer after it. -/
theorem Draw.mulFloor_near (r : Draw) {n : Nat} (hn : n ≤ 2 ^ 53) :
    ⌊r.toRat * (n : ℚ)⌋ ≤ r.mulFloor n ∧ r.mulFloor n ≤ ⌊r.toRat * (n : ℚ)⌋ + 1 := by
  rw [Draw.floor_toRat_mul, Draw.mulFloor_natCast]
  have hD : 0 < 2 ^ (53 + r.exp) := by positivity
  have hdm := Nat.div_add_mod (r.mant * n) (2 ^ (53 + r.exp))
  have hlt := Nat.mod_lt (r.mant * n) hD
  have hmul : r.mant * n < 2 ^ 53 * 2 ^ 53 :=
    calc r.mant * n ≤ r.mant * 2 ^ 53 := Nat.mul_le_mul_left _ hn
      _ < 2 ^ 53 * 2 ^ 53 := Nat.mul_lt_mul_of_pos_right r.mant_lt (by positivity)
  generalize r.mant * n = N at hdm hlt hmul ⊢
  generalize hq : N / 2 ^ (53 + r.exp) = e0 at hdm ⊢
  have hbounds : e0 * 2 ^ (53 + r.exp) ≤ round53 N ∧
      round53 N ≤ (e0 + 1) * 2 ^ (53 + r.exp) := by
    have hc : 2 ^ (53 + r.exp) * e0 = e0 * 2 ^ (53 + r.exp) := Nat.mul_comm _ _
    have hs : (e0 + 1) * 2 ^ (53 + r.exp) = e0 * 2 ^ (53 + r.exp) + 2 ^ (53 + r.exp) := by ring
    rcases Nat.lt_or_ge N (2 ^ 53) with hsm | hbig
    · rw [round53_of_lt hsm]; omega
    · obtain ⟨t, ht, a, b, c⟩ := round53_large hbig
      obtain ⟨_, _, hfl, hce⟩ := roundTo_near t N
      rw [c]
      have ht53 : t ≤ 53 := by
        by_contra hcon
        have : 2 ^ 54 ≤ 2 ^ t := Nat.pow_le_pow_right (by decide) (by omega)
        omega
      have hsplit : 2 ^ (53 + r.exp) = 2 ^ (53 + r.exp - t) * 2 ^ t := by
        rw [← pow_add, Nat.sub_add_cancel (by omega)]
      constructor
      · have hq1 : e0 * 2 ^ (53 + r.exp - t) ≤ N / 2 ^ t := by
          rw [Nat.le_div_iff_mul_le (by positivity), Nat.mul_assoc, ← hsplit]
          omega
        calc e0 * 2 ^ (53 + r.exp) = e0 * 2 ^ (53 + r.exp - t) * 2 ^ t := by
              rw [Nat.mul_assoc, ← hsplit]
          _ ≤ N / 2 ^ t * 2 ^ t := Nat.mul_le_mul_right _ hq1
          _ ≤ roundTo t N := hfl
      · have hq2 : N / 2 ^ t < (e0 + 1) * 2 ^ (53 + r.exp - t) := by
          rw [Nat.div_lt_iff_lt_mul (by positivity), Nat.mul_assoc, ← hsplit]
          omega
        calc roundTo t N ≤ (N / 2 ^ t + 1) * 2 ^ t := hce
          _ ≤ (e0 + 1) * 2 ^ (53 + r.exp - t) * 2 ^ t := Nat.mul_le_mul_right _ hq2
          _ = (e0 + 1) * 2 ^ (53 + r.exp) := by rw [Nat.mul_assoc, ← hsplit]
  have h1 : e0 ≤ round53 N / 2 ^ (53 + r.exp) := (Nat.le_div_iff_mul_le hD).mpr hbounds.1
  have h2 : round53 N / 2 ^ (53 + r.exp) ≤ e0 + 1 :=
    Nat.div_le_of_le_mul (by rw [Nat.mul_comm]; exact hbounds.2)
  omega

/-- On a window of safe integers no step of `getRandomDelay` but the product rounds. -/
theorem getRandomDelay_eq (r : Draw) {min max : Int} (hle : min ≤ max)
    (hmin : -(2 ^ 53) ≤ min) (hmax : max ≤ 2 ^ 53) (hw : max - min < 2 ^ 53) :
    getRandomDelay r min max = r.mulFloor (max - min + 1) + min := by
  unfold getRandomDelay
  rw [roundInt_of_abs_le hmin (by omega), roundInt_of_abs_le (by omega) hmax,
    roundInt_of_abs_le (by omega : -(2 ^ 53) ≤ max - min) (by omega),
    roundInt_of_abs_le (by omega : -(2 ^ 53) ≤ max - min + 1) (by omega)]
  obtain ⟨h0, h1⟩ := r.mulFloor_range (by omega : 1 ≤ max - min + 1)
  exact roundInt_of_abs_le (by omega) (by omega)

/-- The delay lies in the window: `min ≤ getRandomDelay r min max ≤ max`. -/
theorem getRandomDelay_mem (r : Draw) {min max : Int} (hle : min ≤ max)
    (hmin : -(2 ^ 53) ≤ min) (hmax : max ≤ 2 ^ 53) (hw : max - min < 2 ^ 53) :
    min ≤ getRandomDelay r min max ∧ getRandomDelay r min max ≤ max := by
  rw [getRandomDelay_eq r hle hmin hmax hw]
  obtain ⟨h0, h1⟩ := r.mulFloor_range (by omega : 1 ≤ max - min + 1)
  constructor <;> omega

/-- The delay is the exact `floor(r * (max - min + 1)) + min` or one more. -/
theorem getRandomDelay_near (r : Draw) {min max : Int} (hle : min ≤ max)
    (hmin : -(2 ^ 53) ≤ min) (hmax : max ≤ 2 ^ 53) (hw : max - min < 2 ^ 53) :
    ⌊r.toRat * ((max - min + 1 : Int) : ℚ)⌋ + min ≤ getRandomDelay r min max ∧
    getRandomDelay r min max ≤ ⌊r.toRat * ((max - min + 1 : Int) : ℚ)⌋ + min + 1 := by
  rw [getRandomDelay_eq r hle hmin hmax hw]
  obtain ⟨w, hwe⟩ := Int.eq_ofNat_of_zero_le (by omega : 0 ≤ max - min + 1)
  rw [hwe]
  have h := r.mulFloor_near (by omega : w ≤ 2 ^ 53)
  simp only [Int.ofNat_eq_coe, Int.cast_natCast]
  omega

/-- Every delay of a window narrower than `2 ^ 52` is the delay of some draw. -/
theorem getRandomDelay_surj {min max d : Int} (hmin : -(2 ^ 53) ≤ min) (hmax : max ≤ 2 ^ 53)
    (hw : max - min < 2 ^ 52) (h1 : min ≤ d) (h2 : d ≤ max) :
    ∃ r : Draw, getRandomDelay r min max = d := by
  obtain ⟨w, hwe⟩ := Int.eq_ofNat_of_zero_le (by omega : 0 ≤ max - min + 1)
  obtain ⟨k, hke⟩ := Int.eq_ofNat_of_zero_le (by omega : 0 ≤ d - min)
  obtain ⟨r, hr⟩ := Draw.mulFloor_surj (by omega : w ≤ 2 ^ 52) (by omega : k < w)
  refine ⟨r, ?_⟩
  rw [getRandomDelay_eq r (by omega) hmin hmax (by omega), hwe, hr]
  omega

/-! ## The pipeline, piece by piece -/

/-- On a number `x || 0` is `x`. -/
theorem orZero_eq (x : Nat) : orZero x = x := by
  unfold orZero; split <;> simp_all

theorem clickThenSleep_storage (target : Option Element) (st : Storage) (ms : Int) (next : Pc) :
    (clickThenSleep target st ms next).storage = st := by
  unfold clickThenSleep
  split <;> rfl

theorem clickThenSleep_result (target : Option Element) (st : Storage) (ms : Int) (next : Pc) :
    (clickThenSleep target st ms next).result = .sleep ms next ∨
      ∃ e, (clickThenSleep target st ms next).result = .threw e := by
  unfold clickThenSleep
  split
  · exact Or.inr ⟨_, rfl⟩
  · exact Or.inl rfl

/-- Only the counting piece writes the store. -/
theorem segment_storage (pc : Pc) (o : Obs) (st : Storage) (h : pc ≠ .count) :
    (segment pc o st).storage = st := by
  cases pc <;> simp only [segment] <;> first | exact absurd rfl h | skip
  all_goals (repeat' split) <;> first | rfl | exact clickThenSleep_storage _ _ _ _

/-- A piece that goes to sleep is one of the first four, and it resumes at the next one. -/
theorem segment_sleep (pc : Pc) (o : Obs) (st : Storage) (ms : Int) (next : Pc)
    (h : (segment pc o st).result = .sleep ms next) :
    (pc = .step1 ∧ next = .step3) ∨ (pc = .step3 ∧ next = .step4) ∨
      (pc = .step4 ∧ next = .step5) ∨ (pc = .step5 ∧ next = .count) := by
  cases pc <;> simp only [segment] at h
  all_goals (repeat' split at h)
  all_goals first
    | exact Segment.noConfusion h
    | (rcases clickThenSleep_result _ _ _ _ with h1 | ⟨e, h1⟩
       · rw [h1] at h; simp at h; simp [h]
       · rw [h1] at h; exact Segment.noConfusion h)

/-- A piece that returns is the entry finding no marker, or the counting piece. -/
theorem segment_returned (pc : Pc) (o : Obs) (st : Storage)
    (h : (segment pc o st).result = .returned) :
    (pc = .step1 ∧ o.page.redDots = []) ∨ pc = .count := by
  cases pc <;> simp only [segment] at h
  case count => exact Or.inr rfl
  all_goals (repeat' split at h)
  all_goals first
    | exact Segment.noConfusion h
    | (rcases clickThenSleep_result _ _ _ _ with h1 | ⟨e, h1⟩ <;>
        (rw [h1] at h; exact Segment.noConfusion h))
    | (left; exact ⟨rfl, by assumption⟩)

theorem segment_step1_nil (o : Obs) (st : Storage) (h : o.page.redDots = []) :
    segment .step1 o st = ⟨[], st, .returned⟩ := by
  simp only [segment, h]

theorem segment_count (o : Obs) (st : Storage) :
    segment .count o st =
      ⟨[], { st with sentCount := some (round53 (orZero st.getSentCount + 1)) }, .returned⟩ := rfl

/-- One unfolding of the resumed pipeline, by the way its first piece ends. -/
theorem runFrom_cons (pc : Pc) (o : Obs) (rest : List Obs) (st : Storage) :
    runFrom pc (o :: rest) st =
      match (segment pc o st).result with
      | .returned => ⟨(segment pc o st).attempts, (segment pc o st).storage, .returned⟩
      | .threw e => ⟨(segment pc o st).attempts, (segment pc o st).storage, .threw e⟩
      | .sleep _ next =>
        ⟨(segment pc o st).attempts ++ (runFrom next rest (segment pc o st).storage).attempts,
          (runFrom next rest (segment pc o st).storage).storage,
          (runFrom next rest (segment pc o st).storage).result⟩ := by
  rcases h : segment pc o st with ⟨as, st1, r⟩
  cases r <;> simp [runFrom, h]

/-- The store a completed pipeline leaves: the counter one higher, every other key as it was. -/
theorem runFrom_count (o : Obs) (rest : List Obs) (st : Storage) :
    (runFrom .count (o :: rest) st).result = .returned ∧
      (runFrom .count (o :: rest) st).storage =
        { st with sentCount := some (round53 (orZero st.getSentCount + 1)) } := by
  rw [runFrom_cons, segment_count]
  exact ⟨rfl, rfl⟩

theorem runFrom_step5 (o o' : Obs) (rest : List Obs) (st : Storage) :
    ((runFrom .step5 (o :: o' :: rest) st).result = .returned ∧
      (runFrom .step5 (o :: o' :: rest) st).storage =
        { st with sentCount := some (round53 (orZero st.getSentCount + 1)) }) ∨
    ∃ e, (runFrom .step5 (o :: o' :: rest) st).result = .threw e ∧
      (runFrom .step5 (o :: o' :: rest) st).storage = st := by
  rw [runFrom_cons]
  have hst := segment_storage .step5 o st (by decide)
  rcases hr : (segment .step5 o st).result with ⟨ms, next⟩ | _ | e
  · rcases segment_sleep _ _ _ _ _ hr with ⟨h, _⟩ | ⟨h, _⟩ | ⟨h, _⟩ | ⟨_, h⟩ <;>
      first | exact absurd h (by decide) | skip
    subst h
    simp only [hst]
    exact Or.inl (runFrom_count o' rest st)
  · rcases segment_returned _ _ _ hr with ⟨h, _⟩ | h <;> exact absurd h (by decide)
  · exact Or.inr ⟨e, rfl, hst⟩

theorem runFrom_step4 (o o' o'' : Obs) (rest : List Obs) (st : Storage) :
    ((runFrom .step4 (o :: o' :: o'' :: rest) st).result = .returned ∧
      (runFrom .step4 (o :: o' :: o'' :: rest) st).storage =
        { st with sentCount := some (round53 (orZero st.getSentCount + 1)) }) ∨
    ∃ e, (runFrom .step4 (o :: o' :: o'' :: rest) st).result = .threw e ∧
      (runFrom .step4 (o :: o' :: o'' :: rest) st).storage = st := by
  rw [runFrom_cons]
  have hst := segment_storage .step4 o st (by decide)
  rcases hr : (segment .step4 o st).result with ⟨ms, next⟩ | _ | e
  · rcases segment_sleep _ _ _ _ _ hr with ⟨h, _⟩ | ⟨h, _⟩ | ⟨_, h⟩ | ⟨h, _⟩ <;>
      first | exact absurd h (by decide) | skip
    subst h
    simp only [hst]
    exact runFrom_step5 o' o'' rest st
  · rcases segment_returned _ _ _ hr with ⟨h, _⟩ | h <;> exact absurd h (by decide)
  · exact Or.inr ⟨e, rfl, hst⟩

theorem runFrom_step3 (o o' o'' o3 : Obs) (rest : List Obs) (st : Storage) :
    ((runFrom .step3 (o :: o' :: o'' :: o3 :: rest) st).result = .returned ∧
      (runFrom .step3 (o :: o' :: o'' :: o3 :: rest) st).storage =
        { st with sentCount := some (round53 (orZero st.getSentCount + 1)) }) ∨
    ∃ e, (runFrom .step3 (o :: o' :: o'' :: o3 :: rest) st).result = .threw e ∧
      (runFrom .step3 (o :: o' :: o'' :: o3 :: rest) st).storage = st := by
  rw [runFrom_cons]
  have hst := segment_storage .step3 o st (by decide)
  rcases hr : (segment .step3 o st).result with ⟨ms, next⟩ | _ | e
  · rcases segment_sleep _ _ _ _ _ hr with ⟨h, _⟩ | ⟨_, h⟩ | ⟨h, _⟩ | ⟨h, _⟩ <;>
      first | exact absurd h (by decide) | skip
    subst h
    simp only [hst]
    exact runFrom_step4 o' o'' o3 rest st
  · rcases segment_returned _ _ _ hr with ⟨h, _⟩ | h <;> exact absurd h (by decide)
  · exact Or.inr ⟨e, rfl, hst⟩

/-- How an uninterrupted `performCardAction` ends and what it leaves in the store. -/
theorem performCardAction_cases (ro : RunObs) (st : Storage) :
    (ro.o1.page.redDots = [] ∧ (performCardAction ro st).result = .returned ∧
      (performCardAction ro st).storage = st ∧ (performCardAction ro st).attempts = []) ∨
    (ro.o1.page.redDots ≠ [] ∧ (performCardAction ro st).result = .returned ∧
      (performCardAction ro st).storage =
        { st with sentCount := some (round53 (orZero st.getSentCount + 1)) }) ∨
    (ro.o1.page.redDots ≠ [] ∧ ∃ e, (performCardAction ro st).result = .threw e ∧
      (performCardAction ro st).storage = st) := by
  unfold performCardAction
  by_cases hd : ro.o1.page.redDots = []
  · left
    rw [runFrom_cons, segment_step1_nil _ _ hd]
    exact ⟨hd, rfl, rfl, rfl⟩
  · right
    rw [runFrom_cons]
    have hst := segment_storage .step1 ro.o1 st (by decide)
    rcases hr : (segment .step1 ro.o1 st).result with ⟨ms, next⟩ | _ | e
    · rcases segment_sleep _ _ _ _ _ hr with ⟨_, h⟩ | ⟨h, _⟩ | ⟨h, _⟩ | ⟨h, _⟩ <;>
        first | exact absurd h (by decide) | skip
      subst h
      simp only [hst]
      rcases runFrom_step3 ro.o2 ro.o3 ro.o4 ro.o5 [] st with h | h
      · exact Or.inl ⟨hd, h⟩
      · exact Or.inr ⟨hd, h⟩
    · rcases segment_returned _ _ _ hr with ⟨_, h⟩ | h
      · exact absurd h hd
      · exact absurd h (by decide)
    · exact Or.inr ⟨hd, e, rfl, hst⟩

/-- C3, as the code has it. Counter delta per run: with the stored `sentCount`
reading `c`, an uninterrupted `performCardAction` that finds a marker and
returns, every step having succeeded, leaves `sentCount = c + 1` when
`c < 2 ^ 53`, and for every finite double `c` the double nearest to `c + 1`;
one that returns early because no marker exists, or that raises at any step,
leaves `sentCount = c`; and the run always ends in one of these ways. -/
theorem counter_delta_per_run (ro : RunObs) (st : Storage) (c : Nat)
    (hc : st.getSentCount = c) :
    (ro.o1.page.redDots ≠ [] → (performCardAction ro st).result = .returned →
      (c < 2 ^ 53 → (performCardAction ro st).storage.getSentCount = c + 1) ∧
      (c < 2 ^ 1024 → (performCardAction ro st).storage.getSentCount = round53 (c + 1))) ∧
    (ro.o1.page.redDots = [] →
      (performCardAction ro st).result = .returned ∧
        (performCardAction ro st).storage.getSentCount = c) ∧
    (∀ e, (performCardAction ro st).result = .threw e →
      (performCardAction ro st).storage.getSentCount = c) ∧
    ∀ next, (performCardAction ro st).result ≠ .asleep next := by
  subst hc
  rcases performCardAction_cases ro st with ⟨h0, h1, h2, _⟩ | ⟨h0, h1, h2⟩ | ⟨h0, e, h1, h2⟩
  · refine ⟨fun h => absurd h0 h, fun _ => ⟨h1, by rw [h2]⟩, fun e he => ?_, fun n hn => ?_⟩
    · rw [h1] at he; cases he
    · rw [h1] at hn; cases hn
  · have hread : (performCardAction ro st).storage.getSentCount =
        round53 (st.getSentCount + 1) := by
      rw [h2]
      simp [Storage.getSentCount, orZero_eq, round53_idem]
    refine ⟨fun _ _ => ⟨fun hlt => ?_, fun _ => hread⟩, fun h => absurd h h0, fun e he => ?_,
      fun n hn => ?_⟩
    · rw [hread]
      exact round53_of_le hlt
    · rw [h1] at he; cases he
    · rw [h1] at hn; cases hn
  · refine ⟨fun _ hr => ?_, fun h => absurd h h0, fun _ _ => by rw [h2], fun n hn => ?_⟩
    · rw [h1] at hr; cases hr
    · rw [h1] at hn; cases hn

theorem counter_delta_per_run_witness :
    Sample.manualStale.getSentCount = 0 ∧
    (performCardAction Sample.runObs Sample.manualStale).storage.getSentCount = 0 + 1 :=
  ⟨by decide,
    ((counter_delta_per_run Sample.runObs Sample.manualStale 0 (by decide)).1
      (by simp [Sample.runObs, Sample.obs, Sample.page]) (by decide)).1 (by decide)⟩

/-- C3 fails as stated: with `2 ^ 53` stored, a run over the sample page finds
the marker, activates the four controls in turn and returns, and the store
still reads `2 ^ 53`, not `2 ^ 53 + 1`: the sum is not a double and is rounded
back. -/
theorem counter_stuck_at_two_pow_53 :
    Sample.saturated.getSentCount = 2 ^ 53 ∧
    Sample.runObs.o1.page.redDots.length = 1 ∧
    (performCardAction Sample.runObs Sample.saturated).result = .returned ∧
    activated (performCardAction Sample.runObs Sample.saturated).attempts = [1, 2, 3, 121] ∧
    (performCardAction Sample.runObs Sample.saturated).storage.getSentCount = 2 ^ 53 ∧
    (performCardAction Sample.runObs Sample.saturated).storage.getSentCount ≠ 2 ^ 53 + 1 := by
  decide

/-! ## Step 5: the selected candidate -/

theorem safeClick_attempts_elem (e : Element) (a : Attempt) (h : a ∈ (safeClick (some e)).1) :
    a.elem = e.id := by
  unfold safeClick at h
  simp only at h
  split_ifs at h <;> simp at h
  all_goals (rcases h with rfl | rfl | rfl <;> rfl)

theorem safeClick_activated_ok (e : Element) (b : Bool) (h : (safeClick (some e)).2 = .ok b) :
    activated (safeClick (some e)).1 = [e.id] := by
  unfold safeClick at h ⊢
  simp only at h ⊢
  split_ifs at h ⊢ <;> simp [activated] at h ⊢

theorem clickThenSleep_attempts (target : Option Element) (st : Storage) (ms : Int) (next : Pc) :
    (clickThenSleep target st ms next).attempts = (safeClick target).1 := by
  unfold clickThenSleep
  split <;> (rename_i h; simp [h])

theorem clickThenSleep_sleep (target : Option Element) (st : Storage) (ms ms' : Int)
    (next next' : Pc) (h : (clickThenSleep target st ms next).result = .sleep ms' next') :
    ∃ b, (safeClick target).2 = .ok b := by
  unfold clickThenSleep at h
  split at h <;> rename_i h1
  · simp at h
  · exact ⟨_, by rw [h1]⟩

/-- Step 5 touches the send control of the selected candidate and nothing else. -/
theorem step5_on_card (st : Storage) (o : Obs) (cardContainer card : Element)
    (hpage : o.page.cardContainer = some cardContainer)
    (hne : cardContainer.children.length ≠ 0)
    (hcard : index cardContainer.children
      (selectIndex st o.rSelect cardContainer.children.length) = some card) :
    (∀ a ∈ (segment .step5 o st).attempts,
      ∃ sendButton, sendButtonOf (some card) = .ok (some sendButton) ∧ a.elem = sendButton.id) ∧
    (∀ ms next, (segment .step5 o st).result = .sleep ms next →
      ∃ sendButton, sendButtonOf (some card) = .ok (some sendButton) ∧
        activated (segment .step5 o st).attempts = [sendButton.id]) := by
  simp only [segment, hpage, hne, if_false, hcard]
  rcases hb : sendButtonOf (some card) with e | _ | sendButton
  · simp
  · simp
  · simp only [clickThenSleep_attempts]
    refine ⟨fun a ha => ⟨sendButton, rfl, safeClick_attempts_elem _ _ ha⟩, ?_⟩
    intro ms next h
    obtain ⟨b, hb⟩ := clickThenSleep_sleep _ _ _ _ _ _ h
    exact ⟨sendButton, rfl, safeClick_activated_ok _ _ hb⟩

theorem index_natCast (xs : List Element) (i : Nat) : index xs (i : Int) = xs[i]? := by
  simp [index]

/-- C5. Manual selection policy: with `cardSelection = 'manual'`, a stored
`selectedCardIndex = i` and `n ≥ 1` candidates, step 5 resolves the index `i`
when `i < n` and `0` when `i ≥ n`; the candidate at that index exists, every
activation attempt of step 5 is on that candidate's send control, and when
step 5 succeeds that control is the one element activated. -/
theorem manual_selection_policy (st : Storage) (o : Obs) (cardContainer : Element) (i n : Nat)
    (hsel : st.getCardSelection = "manual") (hi : st.getSelectedCardIndex = i)
    (hpage : o.page.cardContainer = some cardContainer)
    (hn : cardContainer.children.length = n) (hpos : 1 ≤ n) :
    selectIndex st o.rSelect n = (if i < n then (i : Int) else 0) ∧
    ∃ card, cardContainer.children[if i < n then i else 0]? = some card ∧
      index cardContainer.children (selectIndex st o.rSelect n) = some card ∧
      (∀ a ∈ (segment .step5 o st).attempts,
        ∃ sendButton, sendButtonOf (some card) = .ok (some sendButton) ∧
          a.elem = sendButton.id) ∧
      (∀ ms next, (segment .step5 o st).result = .sleep ms next →
        ∃ sendButton, sendButtonOf (some card) = .ok (some sendButton) ∧
          activated (segment .step5 o st).attempts = [sendButton.id]) := by
  have hidx : selectIndex st o.rSelect n = (if i < n then (i : Int) else 0) := by
    simp only [selectIndex, hsel, hi, if_true, ge_iff_le]
    by_cases h : i < n
    · simp [h, Nat.not_le.mpr h]
    · simp [h, Nat.not_lt.mp h]
  have hlt : (if i < n then i else 0) < cardContainer.children.length := by
    rw [hn]; split_ifs with h
    · exact h
    · exact hpos
  obtain ⟨card, hcard⟩ :
      ∃ card, cardContainer.children[if i < n then i else 0]? = some card :=
    ⟨_, List.getElem?_eq_getElem hlt⟩
  have hcard' : index cardContainer.children (selectIndex st o.rSelect n) = some card := by
    rw [hidx, ← hcard]
    split_ifs
    · exact index_natCast _ _
    · exact index_natCast _ 0
  refine ⟨hidx, card, hcard, hcard', ?_⟩
  subst hn
  exact step5_on_card st o cardContainer card hpage (by omega) hcard'

theorem manual_selection_policy_witness :
    selectIndex Sample.manualStale Sample.obs.rSelect 5 = 0 :=
  (manual_selection_policy Sample.manualStale Sample.obs Sample.cardContainer 10 5
    rfl rfl rfl rfl (by decide)).1

/-- C6. Random selection policy: with `cardSelection` other than `'manual'`,
`n ≥ 1` candidates and a draw `r` of `Math.random()`, a double in `[0, 1)`,
step 5 resolves the index `Math.floor(r * n)`, an integer in `[0, n)`; the
product being a double, the index is the exact floor of `r * n` or, when the
product is rounded up to an integer, the integer after it; the candidate at
that index exists, every activation attempt of step 5 is on that candidate's
send control, and when step 5 succeeds that control is the one element
activated. -/
theorem random_selection_policy (st : Storage) (o : Obs) (cardContainer : Element) (n : Nat)
    (hsel : st.getCardSelection ≠ "manual")
    (hpage : o.page.cardContainer = some cardContainer)
    (hn : cardContainer.children.length = n) (hpos : 1 ≤ n) :
    (0 ≤ o.rSelect.toRat ∧ o.rSelect.toRat < 1) ∧
    selectIndex st o.rSelect n = o.rSelect.mulFloor n ∧
    0 ≤ selectIndex st o.rSelect n ∧ selectIndex st o.rSelect n < (n : Int) ∧
    (n ≤ 2 ^ 53 → ⌊o.rSelect.toRat * (n : ℚ)⌋ ≤ selectIndex st o.rSelect n ∧
      selectIndex st o.rSelect n ≤ ⌊o.rSelect.toRat * (n : ℚ)⌋ + 1) ∧
    ∃ card, cardContainer.children[(selectIndex st o.rSelect n).toNat]? = some card ∧
      index cardContainer.children (selectIndex st o.rSelect n) = some card ∧
      (∀ a ∈ (segment .step5 o st).attempts,
        ∃ sendButton, sendButtonOf (some card) = .ok (some sendButton) ∧
          a.elem = sendButton.id) ∧
      (∀ ms next, (segment .step5 o st).result = .sleep ms next →
        ∃ sendButton, sendButtonOf (some card) = .ok (some sendButton) ∧
          activated (segment .step5 o st).attempts = [sendButton.id]) := by
  have hidx : selectIndex st o.rSelect n = o.rSelect.mulFloor n := by
    simp [selectIndex, hsel]
  obtain ⟨hlo, hhi⟩ := o.rSelect.mulFloor_range (by omega : (1 : Int) ≤ (n : Int))
  rw [← hidx] at hlo hhi
  have hlt : (selectIndex st o.rSelect n).toNat < cardContainer.children.length := by
    rw [hn]; omega
  obtain ⟨card, hcard⟩ :
      ∃ card, cardContainer.children[(selectIndex st o.rSelect n).toNat]? = some card :=
    ⟨_, List.getElem?_eq_getElem hlt⟩
  have hcard' : index cardContainer.children (selectIndex st o.rSelect n) = some card := by
    simp only [index, not_lt.mpr hlo, if_false]
    exact hcard
  refine ⟨o.rSelect.toRat_range, hidx, hlo, hhi,
    fun hle => hidx ▸ o.rSelect.mulFloor_near hle, card, hcard, hcard', ?_⟩
  subst hn
  exact step5_on_card st o cardContainer card hpage (by omega) hcard'

theorem random_selection_policy_witness :
    selectIndex Storage.empty Sample.obs.rSelect 5 = 2 ∧
    0 ≤ selectIndex Storage.empty Sample.obs.rSelect 5 ∧
      selectIndex Storage.empty Sample.obs.rSelect 5 < 5 :=
  ⟨by decide,
    (random_selection_policy Storage.empty Sample.obs Sample.cardContainer 5 (by decide)
      rfl rfl (by decide)).2.2.1,
    (random_selection_policy Storage.empty Sample.obs Sample.cardContainer 5 (by decide)
      rfl rfl (by decide)).2.2.2.1⟩

/-- The product of step 5 is a double: with five candidates the draw `0.6`,
whose exact product with `5` lies just under `3` and is rounded to `3`,
resolves the index `3`, the send control of the fourth candidate. -/
theorem selectIndex_rounded_product :
    selectIndex Storage.empty Sample.sixTenths 5 = 3 ∧
    ⌊Sample.sixTenths.toRat * 5⌋ = 2 ∧
    activated (segment .step5 { Sample.obs with rSelect := Sample.sixTenths }
      Storage.empty).attempts = [131] := by
  refine ⟨by decide, ?_, by decide⟩
  rw [Int.floor_eq_iff]
  norm_num [Sample.sixTenths, Draw.toRat]

/-! ## The single-flight wrapper -/

namespace World

@[simp] theorem statusLine_ops (w : World) (s : String) : (w.updateStatus s).ops = w.ops := by
  unfold updateStatus emit; split <;> rfl

@[simp] theorem statusLine_storage (w : World) (s : String) :
    (w.updateStatus s).storage = w.storage := by
  unfold updateStatus emit; split <;> rfl

@[simp] theorem statusLine_suspended (w : World) (s : String) :
    (w.updateStatus s).suspended = w.suspended := by
  unfold updateStatus emit; split <;> rfl

@[simp] theorem statusLine_retryTimers (w : World) (s : String) :
    (w.updateStatus s).retryTimers = w.retryTimers := by
  unfold updateStatus emit; split <;> rfl

@[simp] theorem updateSentCount_ops (w : World) : w.updateSentCount.ops = w.ops := by
  unfold updateSentCount emit; split <;> rfl

@[simp] theorem updateSentCount_storage (w : World) : w.updateSentCount.storage = w.storage := by
  unfold updateSentCount emit; split <;> rfl

@[simp] theorem updateSentCount_suspended (w : World) :
    w.updateSentCount.suspended = w.suspended := by
  unfold updateSentCount emit; split <;> rfl

@[simp] theorem updateSentCount_retryTimers (w : World) :
    w.updateSentCount.retryTimers = w.retryTimers := by
  unfold updateSentCount emit; split <;> rfl

@[simp] theorem handleError_isRunning (w : World) (e : Failure) (r : Draw) :
    (w.handleError e r).ops.isRunning = w.ops.isRunning := by
  unfold handleError emit; simp only; split <;> rfl

@[simp] theorem handleError_maxRetries (w : World) (e : Failure) (r : Draw) :
    (w.handleError e r).ops.maxRetries = w.ops.maxRetries := by
  unfold handleError emit; simp only; split <;> rfl

@[simp] theorem handleError_ui (w : World) (e : Failure) (r : Draw) :
    (w.handleError e r).ops.ui = w.ops.ui := by
  unfold handleError emit; simp only; split <;> rfl

@[simp] theorem handleError_storage (w : World) (e : Failure) (r : Draw) :
    (w.handleError e r).storage = w.storage := by
  unfold handleError emit; simp only; split <;> rfl

@[simp] theorem handleError_suspended (w : World) (e : Failure) (r : Draw) :
    (w.handleError e r).suspended = w.suspended := by
  unfold handleError emit; simp only; split <;> rfl

/-- After `handleError` the retry count is within the bound, whatever it was before. -/
theorem handleError_retryCount_le (w : World) (e : Failure) (r : Draw) :
    (w.handleError e r).ops.retryCount ≤ (w.handleError e r).ops.maxRetries := by
  unfold handleError emit; simp only
  split
  · assumption
  · exact Nat.zero_le _

theorem settle_suspended (w : World) (out : SegOut) (r : Draw) :
    (w.settle out r).suspended =
      match out.result with
      | .sleep ms next => w.suspended ++ [(next, ms)]
      | _ => w.suspended := by
  rcases hres : out.result with ⟨ms, next⟩ | _ | e <;> simp [settle, absorb, onSuccess, onFailure, hres]

theorem settle_isRunning (w : World) (out : SegOut) (r : Draw) :
    (w.settle out r).ops.isRunning =
      match out.result with
      | .sleep _ _ => w.ops.isRunning
      | _ => false := by
  rcases hres : out.result with ⟨ms, next⟩ | _ | e <;> simp [settle, absorb, onSuccess, onFailure, hres]

theorem settle_maxRetries (w : World) (out : SegOut) (r : Draw) :
    (w.settle out r).ops.maxRetries = w.ops.maxRetries := by
  rcases hres : out.result with ⟨ms, next⟩ | _ | e <;> simp [settle, absorb, onSuccess, onFailure, hres]

theorem settle_retryCount_le (w : World) (out : SegOut) (r : Draw)
    (h : w.ops.retryCount ≤ w.ops.maxRetries) :
    (w.settle out r).ops.retryCount ≤ (w.settle out r).ops.maxRetries := by
  rcases hres : out.result with ⟨ms, next⟩ | _ | e
  · simpa [settle, hres] using h
  · simp [settle, absorb, onSuccess, onFailure, hres]
  · simp only [settle, hres]
    exact handleError_retryCount_le _ _ _

end World

namespace World

theorem settle_singleFlight (w : World) (out : SegOut) (r : Draw)
    (hs : w.suspended = []) (hrun : w.ops.isRunning = true) :
    (w.settle out r).SingleFlight := by
  unfold SingleFlight
  rw [settle_suspended, settle_isRunning]
  rcases out.result with ⟨ms, next⟩ | _ | e <;> simp [hs, hrun]

theorem autoSendCard_singleFlight (w : World) (o : Obs) (h : w.SingleFlight) :
    (w.autoSendCard o).SingleFlight := by
  unfold autoSendCard
  split
  · simpa [SingleFlight] using h
  · rename_i hrun
    have hs : w.suspended = [] := by
      simpa [SingleFlight, hrun] using h
    exact settle_singleFlight _ _ _ (by simpa using hs) (by simp)

theorem wake_singleFlight (w : World) (i : Nat) (o : Obs) (h : w.SingleFlight) :
    (w.wake i o).SingleFlight := by
  unfold wake
  split
  · exact h
  · rename_i pc ms hget
    have hlen : i < w.suspended.length := by
      rcases Nat.lt_or_ge i w.suspended.length with hlt | hge
      · exact hlt
      · rw [List.getElem?_eq_none hge] at hget; cases hget
    have hrun : w.ops.isRunning = true := by
      by_contra hn
      simp only [SingleFlight, hn] at h
      simp at h
      simp [h] at hlen
    have hone : w.suspended.length = 1 := by simpa [SingleFlight, hrun] using h
    have hi : i = 0 := by omega
    have herase : w.suspended.eraseIdx i = [] := by
      subst hi
      match hw : w.suspended, hone with
      | [x], _ => rfl
    exact settle_singleFlight _ _ _ herase hrun

theorem fireRetry_singleFlight (w : World) (i : Nat) (o : Obs) (h : w.SingleFlight) :
    (w.fireRetry i o).SingleFlight := by
  unfold fireRetry
  split
  · exact h
  · exact autoSendCard_singleFlight _ _ h

theorem step_singleFlight (w : World) (ev : Event) (h : w.SingleFlight) :
    (w.step ev).SingleFlight := by
  cases ev with
  | tick o => exact autoSendCard_singleFlight w o h
  | manual o => exact autoSendCard_singleFlight w o h
  | retry i o => exact fireRetry_singleFlight w i o h
  | wake i o => exact wake_singleFlight w i o h
  | handleError e r => simpa [step, SingleFlight] using h
  | setUIManager => exact h
  | setEnabled _ => exact h
  | setAutoInterval _ => exact h
  | setCardSelection _ => exact h
  | setSelectedCardIndex _ => exact h
  | resetCount => simpa [step, SingleFlight] using h
  | resetConfig => exact h

theorem run_singleFlight (events : List Event) (w : World) (h : w.SingleFlight) :
    (w.run events).SingleFlight := by
  induction events generalizing w with
  | nil => exact h
  | cons ev rest ih => exact ih _ (step_singleFlight w ev h)

/-- A rejected call changes nothing but the status line. -/
theorem autoSendCard_rejected (w : World) (o : Obs) (h : w.ops.isRunning = true) :
    w.autoSendCard o = w.updateStatus "运行中..." := by
  simp [autoSendCard, h]

end World

/-- C1. Single-flight: in every state a fresh `CardOperations` reaches under any
sequence of periodic ticks, manual calls, retry-timer firings, wake-ups of
parked executions and settings changes, at most one execution of
`performCardAction` is parked at a sleep, and one is parked exactly while
`isRunning` is set (so a call admitted by the guard, and a wake-up, runs
alone); a call of `autoSendCard` made while `isRunning` is set clicks nothing
and leaves `isRunning`, `retryCount`, the store with its counter, the parked
execution and the retry timers as they were, adding at most a status line. -/
theorem single_flight (st : Storage) (events : List Event) :
    (((World.fresh st).run events).suspended.length ≤ 1 ∧
      (((World.fresh st).run events).ops.isRunning = true ↔
        ((World.fresh st).run events).suspended.length = 1)) ∧
    ∀ (w : World) (o : Obs), w.ops.isRunning = true →
      (w.autoSendCard o).ops = w.ops ∧ (w.autoSendCard o).storage = w.storage ∧
      (w.autoSendCard o).suspended = w.suspended ∧
      (w.autoSendCard o).retryTimers = w.retryTimers ∧
      (w.autoSendCard o).effects =
        w.effects ++ (if w.ops.ui then [Effect.status "运行中..."] else []) := by
  constructor
  · have h := World.run_singleFlight events (World.fresh st) rfl
    unfold World.SingleFlight at h
    rw [h]
    cases ((World.fresh st).run events).ops.isRunning <;> simp
  · intro w o hrun
    rw [World.autoSendCard_rejected w o hrun]
    refine ⟨by simp, by simp, by simp, by simp, ?_⟩
    unfold World.updateStatus World.emit
    split <;> simp

theorem single_flight_witness :
    Sample.busy.ops.isRunning = true ∧
      (Sample.busy.autoSendCard Sample.obs).ops = Sample.busy.ops ∧
      (Sample.busy.autoSendCard Sample.obs).storage = Sample.busy.storage ∧
      (Sample.busy.autoSendCard Sample.obs).suspended = Sample.busy.suspended ∧
      (Sample.busy.autoSendCard Sample.obs).retryTimers = Sample.busy.retryTimers ∧
      (Sample.busy.autoSendCard Sample.obs).effects =
        Sample.busy.effects ++
          (if Sample.busy.ops.ui then [Effect.status "运行中..."] else []) :=
  ⟨rfl, (single_flight Storage.empty []).2 Sample.busy Sample.obs rfl⟩

/-- C2. The retry count stays within `[0, maxRetries]`: in every state a fresh
`CardOperations` reaches under any sequence of `autoSendCard` calls (admitted
or rejected by the guard), wake-ups that end a run by success, early return or
failure, retry firings, direct `handleError` calls and settings changes,
`retryCount ≤ maxRetries`, and `maxRetries` is the constructor's `3`. -/
theorem retryCount_within_bound (st : Storage) (events : List Event) :
    0 ≤ ((World.fresh st).run events).ops.retryCount ∧
    ((World.fresh st).run events).ops.retryCount ≤ ((World.fresh st).run events).ops.maxRetries ∧
    ((World.fresh st).run events).ops.maxRetries = 3 := by
  suffices h : ∀ (evs : List Event) (w : World),
      w.ops.retryCount ≤ w.ops.maxRetries ∧ w.ops.maxRetries = 3 →
      (w.run evs).ops.retryCount ≤ (w.run evs).ops.maxRetries ∧ (w.run evs).ops.maxRetries = 3 by
    exact ⟨Nat.zero_le _, h events (World.fresh st) ⟨Nat.zero_le 3, rfl⟩⟩
  intro evs
  induction evs with
  | nil => intro w h; exact h
  | cons ev rest ih =>
    intro w h
    apply ih
    have hauto : ∀ (w : World) (o : Obs),
        w.ops.retryCount ≤ w.ops.maxRetries ∧ w.ops.maxRetries = 3 →
        (w.autoSendCard o).ops.retryCount ≤ (w.autoSendCard o).ops.maxRetries ∧
          (w.autoSendCard o).ops.maxRetries = 3 := by
      intro w o h
      unfold World.autoSendCard
      split
      · simpa using h
      · refine ⟨World.settle_retryCount_le _ _ _ (by simpa using h.1), ?_⟩
        rw [World.settle_maxRetries]; simpa using h.2
    cases ev with
    | tick o => exact hauto w o h
    | manual o => exact hauto w o h
    | retry i o =>
      simp only [World.step, World.fireRetry]
      split
      · exact h
      · exact hauto _ o h
    | wake i o =>
      simp only [World.step, World.wake]
      split
      · exact h
      · refine ⟨World.settle_retryCount_le _ _ _ (by simpa using h.1), ?_⟩
        rw [World.settle_maxRetries]; simpa using h.2
    | handleError e r =>
      exact ⟨World.handleError_retryCount_le w e r, by simpa [World.step] using h.2⟩
    | setUIManager => exact h
    | setEnabled _ => exact h
    | setAutoInterval _ => exact h
    | setCardSelection _ => exact h
    | setSelectedCardIndex _ => exact h
    | resetCount => simpa [World.step] using h
    | resetConfig => exact h

/-! ## An uninterrupted run, piece by piece and as a whole -/

namespace World

theorem wake_of_suspended_nil (w : World) (i : Nat) (o : Obs) (h : w.suspended = []) :
    w.wake i o = w := by
  simp [wake, h]

theorem foldl_wake_of_suspended_nil (obs : List Obs) (w : World) (h : w.suspended = []) :
    obs.foldl (fun w o => w.wake 0 o) w = w := by
  induction obs with
  | nil => rfl
  | cons o rest ih => simpa [List.foldl, wake_of_suspended_nil w 0 o h] using ih

theorem absorb_absorb (w : World) (as as' : List Attempt) (st st' : Storage) :
    (w.absorb as st).absorb as' st' = w.absorb (as ++ as') st' := by
  simp [absorb, List.map_append, List.append_assoc]

@[simp] theorem absorb_suspended (w : World) (as : List Attempt) (st : Storage) :
    (w.absorb as st).suspended = w.suspended := rfl

@[simp] theorem absorb_storage (w : World) (as : List Attempt) (st : Storage) :
    (w.absorb as st).storage = st := rfl

@[simp] theorem absorb_ops (w : World) (as : List Attempt) (st : Storage) :
    (w.absorb as st).ops = w.ops := rfl

@[simp] theorem absorb_retryTimers (w : World) (as : List Attempt) (st : Storage) :
    (w.absorb as st).retryTimers = w.retryTimers := rfl

@[simp] theorem onSuccess_suspended (w : World) : w.onSuccess.suspended = w.suspended := by
  simp [onSuccess]

@[simp] theorem onFailure_suspended (w : World) (e : Failure) (r : Draw) :
    (w.onFailure e r).suspended = w.suspended := by
  simp [onFailure]

/-- Waking the one parked execution continues from a world with nothing parked. -/
theorem wake_parked (w : World) (pc : Pc) (ms : Int) (o : Obs) (h : w.suspended = [(pc, ms)]) :
    w.wake 0 o =
      World.settle { w with suspended := [] } (segment pc o w.storage) o.rBackoff := by
  simp [wake, h]

/-- The wake-ups of an admitted call, taken together, complete it the way the
uninterrupted pipeline ends: on the `catch` path with the backoff draw of one
of the observations, or on the success path. -/
theorem settle_run (obs : List Obs) (pc : Pc) (o : Obs) (w : World) (hs : w.suspended = []) :
    (∀ e, (runFrom pc (o :: obs) w.storage).result = .threw e →
      ∃ r ∈ (o :: obs).map Obs.rBackoff,
        obs.foldl (fun w o => w.wake 0 o) (w.settle (segment pc o w.storage) o.rBackoff) =
          (w.absorb (runFrom pc (o :: obs) w.storage).attempts
            (runFrom pc (o :: obs) w.storage).storage).onFailure e r) ∧
    ((runFrom pc (o :: obs) w.storage).result = .returned →
      obs.foldl (fun w o => w.wake 0 o) (w.settle (segment pc o w.storage) o.rBackoff) =
        (w.absorb (runFrom pc (o :: obs) w.storage).attempts
          (runFrom pc (o :: obs) w.storage).storage).onSuccess) := by
  induction obs generalizing pc o w with
  | nil =>
    rw [runFrom_cons]
    rcases hr : (segment pc o w.storage).result with ⟨ms, next⟩ | _ | e
    · simp [runFrom]
    · simp [settle, hr]
    · simp [settle, hr]
  | cons o' rest ih =>
    rw [runFrom_cons]
    rcases hr : (segment pc o w.storage).result with ⟨ms, next⟩ | _ | e
    · -- the piece goes to sleep; the next observation wakes it
      have hw : w.settle (segment pc o w.storage) o.rBackoff =
          { w.absorb (segment pc o w.storage).attempts (segment pc o w.storage).storage with
            suspended := [(next, ms)] } := by
        simp [settle, hr, hs]
      simp only [List.foldl_cons, hw]
      rw [wake_parked _ next ms o' rfl]
      have hw2 : ({ ({ w.absorb (segment pc o w.storage).attempts (segment pc o w.storage).storage
          with suspended := [(next, ms)] } : World) with suspended := [] } : World) =
          w.absorb (segment pc o w.storage).attempts (segment pc o w.storage).storage := by
        simp [absorb, hs]
      simp only [hw2]
      have ih' := ih next o' (w.absorb (segment pc o w.storage).attempts
        (segment pc o w.storage).storage) (by simpa using hs)
      simp only [absorb_storage, absorb_absorb] at ih'
      refine ⟨fun e he => ?_, fun he => ?_⟩
      · obtain ⟨r, hr', heq⟩ := ih'.1 e he
        exact ⟨r, List.mem_cons_of_mem _ hr', heq⟩
      · exact ih'.2 he
    · refine ⟨fun e he => by simp at he, fun _ => ?_⟩
      have hw : (w.settle (segment pc o w.storage) o.rBackoff).suspended = [] := by
        simp [settle, hr, hs]
      rw [foldl_wake_of_suspended_nil _ _ hw]
      simp [settle, hr]
    · refine ⟨fun e' he => ?_, fun he => by simp at he⟩
      have hw : (w.settle (segment pc o w.storage) o.rBackoff).suspended = [] := by
        simp [settle, hr, hs]
      rw [foldl_wake_of_suspended_nil _ _ hw]
      simp only [Outcome.threw.injEq] at he
      subst he
      exact ⟨o.rBackoff, by simp, by simp [settle, hr]⟩

end World

namespace World

/-- The world in which an admitted call runs its pipeline: flag set, status line written. -/
theorem autoSendCard_admitted (w : World) (o : Obs) (h : w.ops.isRunning = false) :
    w.autoSendCard o =
      (World.updateStatus { w with ops := { w.ops with isRunning := true } }
        "正在发送名片...").settle (segment .step1 o w.storage) o.rBackoff := by
  simp [autoSendCard, h]

/-- An uninterrupted call whose pipeline raises ends on the `catch` path. -/
theorem autoSendCardRun_threw (w : World) (ro : RunObs) (e : Failure)
    (hidle : w.ops.isRunning = false) (hs : w.suspended = [])
    (hfail : (performCardAction ro w.storage).result = .threw e) :
    ∃ r ∈ [ro.o1.rBackoff, ro.o2.rBackoff, ro.o3.rBackoff, ro.o4.rBackoff, ro.o5.rBackoff],
      w.autoSendCardRun ro =
        ((World.updateStatus { w with ops := { w.ops with isRunning := true } }
          "正在发送名片...").absorb (performCardAction ro w.storage).attempts
            (performCardAction ro w.storage).storage).onFailure e r := by
  have h := (settle_run [ro.o2, ro.o3, ro.o4, ro.o5] .step1 ro.o1
    (World.updateStatus { w with ops := { w.ops with isRunning := true } } "正在发送名片...")
    (by simpa using hs)).1 e (by simpa [performCardAction] using hfail)
  obtain ⟨r, hr, heq⟩ := h
  refine ⟨r, by simpa using hr, ?_⟩
  simp only [statusLine_storage] at heq
  rw [autoSendCardRun, autoSendCard_admitted w ro.o1 hidle]
  exact heq

/-- An uninterrupted call whose pipeline returns ends on the success path. -/
theorem autoSendCardRun_returned (w : World) (ro : RunObs)
    (hidle : w.ops.isRunning = false) (hs : w.suspended = [])
    (hret : (performCardAction ro w.storage).result = .returned) :
    w.autoSendCardRun ro =
      ((World.updateStatus { w with ops := { w.ops with isRunning := true } }
        "正在发送名片...").absorb (performCardAction ro w.storage).attempts
          (performCardAction ro w.storage).storage).onSuccess := by
  have h := (settle_run [ro.o2, ro.o3, ro.o4, ro.o5] .step1 ro.o1
    (World.updateStatus { w with ops := { w.ops with isRunning := true } } "正在发送名片...")
    (by simpa using hs)).2 (by simpa [performCardAction] using hret)
  simp only [statusLine_storage] at h
  rw [autoSendCardRun, autoSendCard_admitted w ro.o1 hidle]
  exact h

end World

/-! ## The retry controller -/

namespace World

/-- The `catch` path within the budget: count one higher, a warning, one more timer. -/
theorem onFailure_within (w : World) (e : Failure) (r : Draw)
    (h : w.ops.retryCount + 1 ≤ w.ops.maxRetries) :
    (w.onFailure e r).ops.retryCount = w.ops.retryCount + 1 ∧
    (w.onFailure e r).ops.isRunning = false ∧
    (w.onFailure e r).ops.maxRetries = w.ops.maxRetries ∧
    (w.onFailure e r).storage = w.storage ∧
    (w.onFailure e r).retryTimers = w.retryTimers ++ [getRandomDelay r 3000 5000] ∧
    (w.onFailure e r).effects.getLast? = some (.warning ("发名片失败，正在重试 (" ++
      toString (w.ops.retryCount + 1) ++ "/" ++ toString w.ops.maxRetries ++ ")")) := by
  simp [onFailure, handleError, emit, h]

/-- The `catch` path beyond the budget: count reset, an error notification, no timer. -/
theorem onFailure_exhausted (w : World) (e : Failure) (r : Draw)
    (h : w.ops.maxRetries < w.ops.retryCount + 1) :
    (w.onFailure e r).ops.retryCount = 0 ∧
    (w.onFailure e r).ops.isRunning = false ∧
    (w.onFailure e r).ops.maxRetries = w.ops.maxRetries ∧
    (w.onFailure e r).storage = w.storage ∧
    (w.onFailure e r).retryTimers = w.retryTimers ∧
    (w.onFailure e r).effects.getLast? = some (.error "自动发名片失败，请检查页面状态") := by
  simp [onFailure, handleError, emit, Nat.not_le.mpr h]

/-- A failing pipeline leaves the store as it found it. -/
theorem performCardAction_threw_storage (ro : RunObs) (st : Storage) (e : Failure)
    (h : (performCardAction ro st).result = .threw e) : (performCardAction ro st).storage = st := by
  rcases performCardAction_cases ro st with ⟨_, h1, _⟩ | ⟨_, h1, _⟩ | ⟨_, e', _, h2⟩
  · rw [h1] at h; cases h
  · rw [h1] at h; cases h
  · exact h2

/-- A failing uninterrupted call within the budget. -/
theorem autoSendCardRun_failed_within (w : World) (ro : RunObs) (e : Failure)
    (hidle : w.ops.isRunning = false) (hs : w.suspended = [])
    (hfail : (performCardAction ro w.storage).result = .threw e)
    (hb : w.ops.retryCount + 1 ≤ w.ops.maxRetries) :
    ∃ r ∈ [ro.o1.rBackoff, ro.o2.rBackoff, ro.o3.rBackoff, ro.o4.rBackoff, ro.o5.rBackoff],
      (w.autoSendCardRun ro).ops.retryCount = w.ops.retryCount + 1 ∧
      (w.autoSendCardRun ro).ops.isRunning = false ∧
      (w.autoSendCardRun ro).ops.maxRetries = w.ops.maxRetries ∧
      (w.autoSendCardRun ro).storage = w.storage ∧
      (w.autoSendCardRun ro).suspended = [] ∧
      (w.autoSendCardRun ro).retryTimers = w.retryTimers ++ [getRandomDelay r 3000 5000] ∧
      (w.autoSendCardRun ro).effects.getLast? = some (.warning ("发名片失败，正在重试 (" ++
        toString (w.ops.retryCount + 1) ++ "/" ++ toString w.ops.maxRetries ++ ")")) := by
  obtain ⟨r, hr, heq⟩ := autoSendCardRun_threw w ro e hidle hs hfail
  refine ⟨r, hr, ?_⟩
  rw [heq]
  obtain ⟨h1, h2, h3, h4, h5, h6⟩ := onFailure_within
    ((World.updateStatus { w with ops := { w.ops with isRunning := true } }
      "正在发送名片...").absorb (performCardAction ro w.storage).attempts
        (performCardAction ro w.storage).storage) e r (by simpa using hb)
  refine ⟨by simpa using h1, h2, by simpa using h3, ?_, by simpa using hs, by simpa using h5,
    by simpa using h6⟩
  rw [h4]
  simpa using performCardAction_threw_storage ro w.storage e hfail

/-- A failing uninterrupted call beyond the budget. -/
theorem autoSendCardRun_failed_exhausted (w : World) (ro : RunObs) (e : Failure)
    (hidle : w.ops.isRunning = false) (hs : w.suspended = [])
    (hfail : (performCardAction ro w.storage).result = .threw e)
    (hb : w.ops.maxRetries < w.ops.retryCount + 1) :
    (w.autoSendCardRun ro).ops.retryCount = 0 ∧
    (w.autoSendCardRun ro).ops.isRunning = false ∧
    (w.autoSendCardRun ro).ops.maxRetries = w.ops.maxRetries ∧
    (w.autoSendCardRun ro).storage = w.storage ∧
    (w.autoSendCardRun ro).suspended = [] ∧
    (w.autoSendCardRun ro).retryTimers = w.retryTimers ∧
    (w.autoSendCardRun ro).effects.getLast? =
      some (.error "自动发名片失败，请检查页面状态") := by
  obtain ⟨r, _, heq⟩ := autoSendCardRun_threw w ro e hidle hs hfail
  rw [heq]
  obtain ⟨h1, h2, h3, h4, h5, h6⟩ := onFailure_exhausted
    ((World.updateStatus { w with ops := { w.ops with isRunning := true } }
      "正在发送名片...").absorb (performCardAction ro w.storage).attempts
        (performCardAction ro w.storage).storage) e r (by simpa using hb)
  refine ⟨h1, h2, by simpa using h3, ?_, by simpa using hs, by simpa using h5, h6⟩
  rw [h4]
  simpa using performCardAction_threw_storage ro w.storage e hfail

/-- A re-invocation consumes the oldest pending timer and is then an ordinary call. -/
theorem retryRun_cons (w : World) (ro : RunObs) (d : Int) (rest : List Int)
    (h : w.retryTimers = d :: rest) :
    w.retryRun ro = World.autoSendCardRun { w with retryTimers := rest } ro := by
  simp [retryRun, autoSendCardRun, fireRetry, h]

/-- A failing re-invocation within the budget replaces the fired timer by a new one. -/
theorem retryRun_failed_within (w : World) (ro : RunObs) (e : Failure) (d : Int)
    (hidle : w.ops.isRunning = false) (hs : w.suspended = []) (ht : w.retryTimers = [d])
    (hfail : (performCardAction ro w.storage).result = .threw e)
    (hb : w.ops.retryCount + 1 ≤ w.ops.maxRetries) :
    (w.retryRun ro).ops.retryCount = w.ops.retryCount + 1 ∧
    (w.retryRun ro).ops.isRunning = false ∧
    (w.retryRun ro).ops.maxRetries = w.ops.maxRetries ∧
    (w.retryRun ro).storage = w.storage ∧
    (w.retryRun ro).suspended = [] ∧
    ∃ d', (w.retryRun ro).retryTimers = [d'] := by
  rw [retryRun_cons w ro d [] ht]
  obtain ⟨r, _, h1, h2, h3, h4, h5, h6, _⟩ :=
    autoSendCardRun_failed_within { w with retryTimers := [] } ro e hidle hs hfail hb
  exact ⟨h1, h2, h3, h4, h5, _, h6⟩

/-- A failing re-invocation beyond the budget consumes the fired timer and adds none. -/
theorem retryRun_failed_exhausted (w : World) (ro : RunObs) (e : Failure) (d : Int)
    (hidle : w.ops.isRunning = false) (hs : w.suspended = []) (ht : w.retryTimers = [d])
    (hfail : (performCardAction ro w.storage).result = .threw e)
    (hb : w.ops.maxRetries < w.ops.retryCount + 1) :
    (w.retryRun ro).ops.retryCount = 0 ∧
    (w.retryRun ro).ops.isRunning = false ∧
    (w.retryRun ro).suspended = [] ∧
    (w.retryRun ro).retryTimers = [] ∧
    (w.retryRun ro).effects.getLast? = some (.error "自动发名片失败，请检查页面状态") := by
  rw [retryRun_cons w ro d [] ht]
  obtain ⟨h1, h2, _, _, h5, h6, h7⟩ :=
    autoSendCardRun_failed_exhausted { w with retryTimers := [] } ro e hidle hs hfail hb
  exact ⟨h1, h2, h5, h6, h7⟩

end World

/-- C7. Retry within budget: when an uninterrupted `autoSendCard` call, admitted
with `retryCount = c` and `c + 1 ≤ maxRetries`, has its pipeline raise a
failure, then after the call `retryCount = c + 1`, the last effect is the
warning notification carrying `(c+1/maxRetries)`, exactly one retry timer has
been added, with a delay in `[3000, 5000]` ms, and `isRunning` is false with
nothing parked while that timer waits. -/
theorem retry_within_budget (w : World) (ro : RunObs) (e : Failure) (c : Nat)
    (hidle : w.ops.isRunning = false) (hs : w.suspended = [])
    (hfail : (performCardAction ro w.storage).result = .threw e)
    (hc : w.ops.retryCount = c) (hbudget : c + 1 ≤ w.ops.maxRetries) :
    (w.autoSendCardRun ro).ops.retryCount = c + 1 ∧
    (w.autoSendCardRun ro).effects.getLast? = some (.warning ("发名片失败，正在重试 (" ++
      toString (c + 1) ++ "/" ++ toString w.ops.maxRetries ++ ")")) ∧
    (∃ d, (w.autoSendCardRun ro).retryTimers = w.retryTimers ++ [d] ∧ 3000 ≤ d ∧ d ≤ 5000) ∧
    (w.autoSendCardRun ro).ops.isRunning = false ∧
    (w.autoSendCardRun ro).suspended = [] := by
  subst hc
  obtain ⟨r, _, h1, h2, _, _, h5, h6, h7⟩ :=
    World.autoSendCardRun_failed_within w ro e hidle hs hfail hbudget
  obtain ⟨hlo, hhi⟩ := getRandomDelay_mem r (by decide : (3000 : Int) ≤ 5000) (by decide)
    (by decide) (by decide)
  exact ⟨h1, h7, ⟨_, h6, hlo, hhi⟩, h2, h5⟩

theorem retry_within_budget_witness :
    ((World.fresh Storage.empty).autoSendCardRun Sample.runNoTab).ops.retryCount = 0 + 1 ∧
      ((World.fresh Storage.empty).autoSendCardRun Sample.runNoTab).ops.isRunning = false :=
  have h := retry_within_budget (World.fresh Storage.empty) Sample.runNoTab .cardTabNotFound 0
    rfl rfl (by decide) rfl (by decide)
  ⟨h.1, h.2.2.2.1⟩

/-- C8. Retry exhaustion: when an uninterrupted `autoSendCard` call admitted with
`retryCount = maxRetries` has its pipeline raise a failure, the last effect is
the error notification, `retryCount` is `0` and no retry timer has been added;
and from `retryCount = 0`, `maxRetries = 3` and no pending timer, a first
failing call followed by three failing re-invocations leaves one pending timer
after each of the first three failures (counts 1, 2, 3) and, after the fourth,
`retryCount = 0`, the error notification as last effect and no timer pending. -/
theorem retry_exhaustion :
    (∀ (w : World) (ro : RunObs) (e : Failure),
      w.ops.isRunning = false → w.suspended = [] →
      (performCardAction ro w.storage).result = .threw e →
      w.ops.retryCount = w.ops.maxRetries →
      (w.autoSendCardRun ro).effects.getLast? = some (.error "自动发名片失败，请检查页面状态") ∧
      (w.autoSendCardRun ro).ops.retryCount = 0 ∧
      (w.autoSendCardRun ro).retryTimers = w.retryTimers ∧
      (w.autoSendCardRun ro).ops.isRunning = false ∧
      (w.autoSendCardRun ro).suspended = []) ∧
    (∀ (w : World) (ro1 ro2 ro3 ro4 : RunObs) (e1 e2 e3 e4 : Failure),
      w.ops.isRunning = false → w.suspended = [] →
      w.ops.retryCount = 0 → w.ops.maxRetries = 3 → w.retryTimers = [] →
      (performCardAction ro1 w.storage).result = .threw e1 →
      (performCardAction ro2 (w.autoSendCardRun ro1).storage).result = .threw e2 →
      (performCardAction ro3 ((w.autoSendCardRun ro1).retryRun ro2).storage).result
        = .threw e3 →
      (performCardAction ro4 (((w.autoSendCardRun ro1).retryRun ro2).retryRun ro3).storage).result
        = .threw e4 →
      ((w.autoSendCardRun ro1).retryTimers.length = 1 ∧
        (w.autoSendCardRun ro1).ops.retryCount = 1) ∧
      (((w.autoSendCardRun ro1).retryRun ro2).retryTimers.length = 1 ∧
        ((w.autoSendCardRun ro1).retryRun ro2).ops.retryCount = 2) ∧
      ((((w.autoSendCardRun ro1).retryRun ro2).retryRun ro3).retryTimers.length = 1 ∧
        (((w.autoSendCardRun ro1).retryRun ro2).retryRun ro3).ops.retryCount = 3) ∧
      ((((w.autoSendCardRun ro1).retryRun ro2).retryRun ro3).retryRun ro4).retryTimers = [] ∧
      ((((w.autoSendCardRun ro1).retryRun ro2).retryRun ro3).retryRun ro4).ops.retryCount = 0 ∧
      ((((w.autoSendCardRun ro1).retryRun ro2).retryRun ro3).retryRun ro4).effects.getLast? =
        some (.error "自动发名片失败，请检查页面状态") ∧
      ((((w.autoSendCardRun ro1).retryRun ro2).retryRun ro3).retryRun ro4).ops.isRunning
        = false ∧
      ((((w.autoSendCardRun ro1).retryRun ro2).retryRun ro3).retryRun ro4).suspended = []) := by
  constructor
  · intro w ro e hidle hs hfail hc
    obtain ⟨h1, h2, _, _, h5, h6, h7⟩ :=
      World.autoSendCardRun_failed_exhausted w ro e hidle hs hfail (by omega)
    exact ⟨h7, h1, h6, h2, h5⟩
  · intro w ro1 ro2 ro3 ro4 e1 e2 e3 e4 hidle hs hc hm ht hf1 hf2 hf3 hf4
    obtain ⟨r1, _, a1, a2, a3, _, a5, a6, _⟩ :=
      World.autoSendCardRun_failed_within w ro1 e1 hidle hs hf1 (by omega)
    rw [ht, List.nil_append] at a6
    obtain ⟨b1, b2, b3, _, b5, d2, b6⟩ :=
      World.retryRun_failed_within (w.autoSendCardRun ro1) ro2 e2 _ a2 a5 a6 hf2 (by omega)
    obtain ⟨c1, c2, c3, _, c5, d3, c6⟩ :=
      World.retryRun_failed_within _ ro3 e3 _ b2 b5 b6 hf3 (by omega)
    obtain ⟨d1, d2, d5, d6, d7⟩ :=
      World.retryRun_failed_exhausted _ ro4 e4 _ c2 c5 c6 hf4 (by omega)
    refine ⟨⟨by rw [a6]; rfl, by omega⟩, ⟨by rw [b6]; rfl, by omega⟩,
      ⟨by rw [c6]; rfl, by omega⟩, d6, d1, d7, d2, d5⟩

theorem retry_exhaustion_witness :
    (((((World.fresh Storage.empty).autoSendCardRun Sample.runNoTab).retryRun
        Sample.runNoTab).retryRun Sample.runNoTab).retryRun Sample.runNoTab).retryTimers = [] ∧
    (((((World.fresh Storage.empty).autoSendCardRun Sample.runNoTab).retryRun
        Sample.runNoTab).retryRun Sample.runNoTab).retryRun Sample.runNoTab).ops.retryCount = 0 :=
  have h := retry_exhaustion.2 (World.fresh Storage.empty) Sample.runNoTab Sample.runNoTab
    Sample.runNoTab Sample.runNoTab .cardTabNotFound .cardTabNotFound .cardTabNotFound
    .cardTabNotFound rfl rfl rfl rfl rfl rfl rfl rfl rfl
  ⟨h.2.2.2.1, h.2.2.2.2.1⟩

/-! ## What the session methods leave alone -/

namespace System

@[simp] theorem updateStatus_href (s : System) (k : Nat) (status : String) :
    (s.updateStatus k status).href = s.href := by
  unfold updateStatus; (repeat' split) <;> rfl

@[simp] theorem updateStatus_complete (s : System) (k : Nat) (status : String) :
    (s.updateStatus k status).complete = s.complete := by
  unfold updateStatus; (repeat' split) <;> rfl

@[simp] theorem updateStatus_storage (s : System) (k : Nat) (status : String) :
    (s.updateStatus k status).storage = s.storage := by
  unfold updateStatus; (repeat' split) <;> rfl

@[simp] theorem updateStatus_app (s : System) (k : Nat) (status : String) :
    (s.updateStatus k status).app = s.app := by
  unfold updateStatus; (repeat' split) <;> rfl

@[simp] theorem updateStatus_currentUrl (s : System) (k : Nat) (status : String) :
    (s.updateStatus k status).currentUrl = s.currentUrl := by
  unfold updateStatus; (repeat' split) <;> rfl

@[simp] theorem updateStatus_initTimers (s : System) (k : Nat) (status : String) :
    (s.updateStatus k status).initTimers = s.initTimers := by
  unfold updateStatus; (repeat' split) <;> rfl

@[simp] theorem modifySession_href (s : System) (k : Nat) (f : Session → Session) :
    (s.modifySession k f).href = s.href := by
  unfold modifySession; split <;> rfl

@[simp] theorem modifySession_complete (s : System) (k : Nat) (f : Session → Session) :
    (s.modifySession k f).complete = s.complete := by
  unfold modifySession; split <;> rfl

@[simp] theorem modifySession_storage (s : System) (k : Nat) (f : Session → Session) :
    (s.modifySession k f).storage = s.storage := by
  unfold modifySession; split <;> rfl

@[simp] theorem modifySession_app (s : System) (k : Nat) (f : Session → Session) :
    (s.modifySession k f).app = s.app := by
  unfold modifySession; split <;> rfl

@[simp] theorem modifySession_currentUrl (s : System) (k : Nat) (f : Session → Session) :
    (s.modifySession k f).currentUrl = s.currentUrl := by
  unfold modifySession; split <;> rfl

@[simp] theorem modifySession_initTimers (s : System) (k : Nat) (f : Session → Session) :
    (s.modifySession k f).initTimers = s.initTimers := by
  unfold modifySession; split <;> rfl

@[simp] theorem stop_href (s : System) (k : Nat) :
    (s.stop k).href = s.href := by
  unfold stop; (repeat' split) <;> simp

@[simp] theorem stop_complete (s : System) (k : Nat) :
    (s.stop k).complete = s.complete := by
  unfold stop; (repeat' split) <;> simp

@[simp] theorem stop_storage (s : System) (k : Nat) :
    (s.stop k).storage = s.storage := by
  unfold stop; (repeat' split) <;> simp

@[simp] theorem stop_app (s : System) (k : Nat) :
    (s.stop k).app = s.app := by
  unfold stop; (repeat' split) <;> simp

@[simp] theorem stop_currentUrl (s : System) (k : Nat) :
    (s.stop k).currentUrl = s.currentUrl := by
  unfold stop; (repeat' split) <;> simp

@[simp] theorem stop_initTimers (s : System) (k : Nat) :
    (s.stop k).initTimers = s.initTimers := by
  unfold stop; (repeat' split) <;> simp

@[simp] theorem startAutoMode_href (s : System) (k : Nat) :
    (s.startAutoMode k).href = s.href := by
  unfold startAutoMode; simp only; (repeat' split) <;> simp

@[simp] theorem startAutoMode_complete (s : System) (k : Nat) :
    (s.startAutoMode k).complete = s.complete := by
  unfold startAutoMode; simp only; (repeat' split) <;> simp

@[simp] theorem startAutoMode_storage (s : System) (k : Nat) :
    (s.startAutoMode k).storage = s.storage := by
  unfold startAutoMode; simp only; (repeat' split) <;> simp

@[simp] theorem startAutoMode_app (s : System) (k : Nat) :
    (s.startAutoMode k).app = s.app := by
  unfold startAutoMode; simp only; (repeat' split) <;> simp

@[simp] theorem startAutoMode_currentUrl (s : System) (k : Nat) :
    (s.startAutoMode k).currentUrl = s.currentUrl := by
  unfold startAutoMode; simp only; (repeat' split) <;> simp

@[simp] theorem startAutoMode_initTimers (s : System) (k : Nat) :
    (s.startAutoMode k).initTimers = s.initTimers := by
  unfold startAutoMode; simp only; (repeat' split) <;> simp

@[simp] theorem setupUI_href (s : System) (k : Nat) :
    (s.setupUI k).href = s.href := by
  simp [setupUI]

@[simp] theorem setupUI_complete (s : System) (k : Nat) :
    (s.setupUI k).complete = s.complete := by
  simp [setupUI]

@[simp] theorem setupUI_storage (s : System) (k : Nat) :
    (s.setupUI k).storage = s.storage := by
  simp [setupUI]

@[simp] theorem setupUI_app (s : System) (k : Nat) :
    (s.setupUI k).app = s.app := by
  simp [setupUI]

@[simp] theorem setupUI_currentUrl (s : System) (k : Nat) :
    (s.setupUI k).currentUrl = s.currentUrl := by
  simp [setupUI]

@[simp] theorem setupUI_initTimers (s : System) (k : Nat) :
    (s.setupUI k).initTimers = s.initTimers := by
  simp [setupUI]

@[simp] theorem initFinish_href (s : System) (k : Nat) :
    (s.initFinish k).href = s.href := by
  simp [initFinish]

@[simp] theorem initFinish_complete (s : System) (k : Nat) :
    (s.initFinish k).complete = s.complete := by
  simp [initFinish]

@[simp] theorem initFinish_storage (s : System) (k : Nat) :
    (s.initFinish k).storage = s.storage := by
  simp [initFinish]

@[simp] theorem initFinish_app (s : System) (k : Nat) :
    (s.initFinish k).app = s.app := by
  simp [initFinish]

@[simp] theorem initFinish_currentUrl (s : System) (k : Nat) :
    (s.initFinish k).currentUrl = s.currentUrl := by
  simp [initFinish]

@[simp] theorem initFinish_initTimers (s : System) (k : Nat) :
    (s.initFinish k).initTimers = s.initTimers := by
  simp [initFinish]

@[simp] theorem destroy_href (s : System) (k : Nat) :
    (s.destroy k).href = s.href := by
  simp [destroy]

@[simp] theorem destroy_complete (s : System) (k : Nat) :
    (s.destroy k).complete = s.complete := by
  simp [destroy]

@[simp] theorem destroy_storage (s : System) (k : Nat) :
    (s.destroy k).storage = s.storage := by
  simp [destroy]

@[simp] theorem destroy_app (s : System) (k : Nat) :
    (s.destroy k).app = s.app := by
  simp [destroy]

@[simp] theorem destroy_currentUrl (s : System) (k : Nat) :
    (s.destroy k).currentUrl = s.currentUrl := by
  simp [destroy]

@[simp] theorem destroy_initTimers (s : System) (k : Nat) :
    (s.destroy k).initTimers = s.initTimers := by
  simp [destroy]

theorem foldl_href (g : System → Nat → System) (hg : ∀ s k, (g s k).href = s.href)
    (ks : List Nat) (s : System) : (ks.foldl g s).href = s.href := by
  induction ks generalizing s with
  | nil => rfl
  | cons k rest ih => rw [List.foldl_cons, ih, hg]

theorem foldl_complete (g : System → Nat → System) (hg : ∀ s k, (g s k).complete = s.complete)
    (ks : List Nat) (s : System) : (ks.foldl g s).complete = s.complete := by
  induction ks generalizing s with
  | nil => rfl
  | cons k rest ih => rw [List.foldl_cons, ih, hg]

theorem foldl_storage (g : System → Nat → System) (hg : ∀ s k, (g s k).storage = s.storage)
    (ks : List Nat) (s : System) : (ks.foldl g s).storage = s.storage := by
  induction ks generalizing s with
  | nil => rfl
  | cons k rest ih => rw [List.foldl_cons, ih, hg]

theorem foldl_app (g : System → Nat → System) (hg : ∀ s k, (g s k).app = s.app)
    (ks : List Nat) (s : System) : (ks.foldl g s).app = s.app := by
  induction ks generalizing s with
  | nil => rfl
  | cons k rest ih => rw [List.foldl_cons, ih, hg]

theorem foldl_currentUrl (g : System → Nat → System) (hg : ∀ s k, (g s k).currentUrl = s.currentUrl)
    (ks : List Nat) (s : System) : (ks.foldl g s).currentUrl = s.currentUrl := by
  induction ks generalizing s with
  | nil => rfl
  | cons k rest ih => rw [List.foldl_cons, ih, hg]

theorem foldl_initTimers (g : System → Nat → System) (hg : ∀ s k, (g s k).initTimers = s.initTimers)
    (ks : List Nat) (s : System) : (ks.foldl g s).initTimers = s.initTimers := by
  induction ks generalizing s with
  | nil => rfl
  | cons k rest ih => rw [List.foldl_cons, ih, hg]

@[simp] theorem initAfterLoad_href (s : System) (ks : List Nat) :
    (s.initAfterLoad ks).href = s.href := by
  simp [initAfterLoad, foldl_href]

@[simp] theorem initAfterLoad_complete (s : System) (ks : List Nat) :
    (s.initAfterLoad ks).complete = s.complete := by
  simp [initAfterLoad, foldl_complete]

@[simp] theorem initAfterLoad_storage (s : System) (ks : List Nat) :
    (s.initAfterLoad ks).storage = s.storage := by
  simp [initAfterLoad, foldl_storage]

@[simp] theorem initAfterLoad_app (s : System) (ks : List Nat) :
    (s.initAfterLoad ks).app = s.app := by
  simp [initAfterLoad, foldl_app]

@[simp] theorem initAfterLoad_currentUrl (s : System) (ks : List Nat) :
    (s.initAfterLoad ks).currentUrl = s.currentUrl := by
  simp [initAfterLoad, foldl_currentUrl]

@[simp] theorem initAfterLoad_initTimers (s : System) (ks : List Nat) :
    (s.initAfterLoad ks).initTimers = s.initTimers := by
  simp [initAfterLoad, foldl_initTimers]

@[simp] theorem load_href (s : System) : s.load.href = s.href := by
  simp [load]

@[simp] theorem load_storage (s : System) : s.load.storage = s.storage := by
  simp [load]

@[simp] theorem load_app (s : System) : s.load.app = s.app := by
  simp [load]

@[simp] theorem load_currentUrl (s : System) : s.load.currentUrl = s.currentUrl := by
  simp [load]

@[simp] theorem load_initTimers (s : System) : s.load.initTimers = s.initTimers := by
  simp [load]

@[simp] theorem init_href (s : System) (k : Nat) :
    (s.init k).href = s.href := by
  unfold init; (repeat' split) <;> simp

@[simp] theorem init_complete (s : System) (k : Nat) :
    (s.init k).complete = s.complete := by
  unfold init; (repeat' split) <;> simp

@[simp] theorem init_storage (s : System) (k : Nat) :
    (s.init k).storage = s.storage := by
  unfold init; (repeat' split) <;> simp

@[simp] theorem init_app (s : System) (k : Nat) :
    (s.init k).app = s.app := by
  unfold init; (repeat' split) <;> simp

@[simp] theorem init_currentUrl (s : System) (k : Nat) :
    (s.init k).currentUrl = s.currentUrl := by
  unfold init; (repeat' split) <;> simp

@[simp] theorem init_initTimers (s : System) (k : Nat) :
    (s.init k).initTimers = s.initTimers := by
  unfold init; (repeat' split) <;> simp

end System

/-! ## The navigation monitor -/

namespace System

@[simp] theorem handleUrlChange_href (s : System) : s.handleUrlChange.href = s.href := by
  unfold handleUrlChange; (repeat' split) <;> simp

@[simp] theorem handleUrlChange_currentUrl (s : System) :
    s.handleUrlChange.currentUrl = s.currentUrl := by
  unfold handleUrlChange; (repeat' split) <;> simp

/-- After `handleUrlChange` a session is held exactly when the address matches. -/
theorem handleUrlChange_app_iff (s : System) :
    s.handleUrlChange.app ≠ none ↔ isTargetUrl s.href = true := by
  unfold handleUrlChange
  by_cases h : isTargetUrl s.href = true
  · rcases happ : s.app with _ | k <;> simp [h, happ]
  · rcases happ : s.app with _ | k <;> simp [h, happ]

theorem checkURL_changed (s : System) (h : s.href ≠ s.currentUrl) :
    s.checkURL = handleUrlChange { s with currentUrl := s.href } := by
  simp [checkURL, h]

theorem checkURL_missed (s : System) (h : s.href = s.currentUrl)
    (ht : isTargetUrl s.href = true) (happ : s.app = none) :
    s.checkURL = s.handleUrlChange := by
  unfold checkURL
  rw [if_neg (by simpa using h), if_pos (by simp [ht, happ])]

theorem checkURL_same (s : System) (h : s.href = s.currentUrl)
    (hn : ¬ (isTargetUrl s.href = true ∧ s.app = none)) :
    s.checkURL = s := by
  unfold checkURL
  rw [if_neg (by simpa using h), if_neg (by simpa using hn)]

@[simp] theorem checkURL_href (s : System) : s.checkURL.href = s.href := by
  by_cases h : s.href = s.currentUrl
  · by_cases hn : isTargetUrl s.href = true ∧ s.app = none
    · rw [checkURL_missed s h hn.1 hn.2]; simp
    · rw [checkURL_same s h hn]
  · rw [checkURL_changed s h]; simp

/-- After `checkURL` the remembered address is the current one. -/
theorem checkURL_currentUrl (s : System) : s.checkURL.currentUrl = s.href := by
  by_cases h : s.href = s.currentUrl
  · by_cases hn : isTargetUrl s.href = true ∧ s.app = none
    · rw [checkURL_missed s h hn.1 hn.2]; simp [h]
    · rw [checkURL_same s h hn, h]
  · rw [checkURL_changed s h]; simp

/-- After `checkURL` a session is held exactly when the address matches, provided
the session held before, if any, was for a matching remembered address. -/
theorem checkURL_app_iff (s : System) (hinv : s.AppOnTarget) :
    s.checkURL.app ≠ none ↔ isTargetUrl s.href = true := by
  by_cases h : s.href = s.currentUrl
  · by_cases hn : isTargetUrl s.href = true ∧ s.app = none
    · rw [checkURL_missed s h hn.1 hn.2]
      exact handleUrlChange_app_iff s
    · rw [checkURL_same s h hn]
      constructor
      · intro happ
        rw [h]
        exact hinv happ
      · intro ht happ
        exact hn ⟨ht, happ⟩
  · rw [checkURL_changed s h]
    simpa using handleUrlChange_app_iff { s with currentUrl := s.href }

theorem checkURL_appOnTarget (s : System) (h : s.AppOnTarget) : s.checkURL.AppOnTarget := by
  intro happ
  rw [checkURL_currentUrl]
  exact (checkURL_app_iff s h).mp happ

@[simp] theorem fireInit_app (s : System) : s.fireInit.app = s.app := by
  unfold fireInit
  split
  · rfl
  · simp only; split <;> simp

@[simp] theorem fireInit_currentUrl (s : System) : s.fireInit.currentUrl = s.currentUrl := by
  unfold fireInit
  split
  · rfl
  · simp only; split <;> simp

@[simp] theorem fireInit_href (s : System) : s.fireInit.href = s.href := by
  unfold fireInit
  split
  · rfl
  · simp only; split <;> simp

theorem step_monitor_appOnTarget (s : System) (ev : MonitorEvent) (h : s.AppOnTarget) :
    (s.step ev.toOp).AppOnTarget := by
  cases ev with
  | navigate href => exact h
  | checkURL => exact checkURL_appOnTarget s h
  | fireInit =>
    intro happ
    simp only [MonitorEvent.toOp, step, fireInit_app, fireInit_currentUrl] at happ ⊢
    exact h happ

theorem run_monitor_appOnTarget (events : List MonitorEvent) (s : System) (h : s.AppOnTarget) :
    (s.run (events.map MonitorEvent.toOp)).AppOnTarget := by
  induction events generalizing s with
  | nil => exact h
  | cons ev rest ih => exact ih _ (step_monitor_appOnTarget s ev h)

end System

/-- C9. A session exists exactly when the identity matches: from the watcher's
initial state (no session held), after any sequence of address changes, checks
and settle-timer firings, immediately after a `checkURL` the watcher holds a
session if and only if the current address matches the target pattern. -/
theorem session_iff_target (href currentUrl : String) (complete : Bool) (st : Storage)
    (events : List MonitorEvent) :
    ((System.initial href currentUrl complete st).run
        (events.map MonitorEvent.toOp)).checkURL.app ≠ none ↔
      isTargetUrl ((System.initial href currentUrl complete st).run
        (events.map MonitorEvent.toOp)).checkURL.href = true := by
  rw [System.checkURL_href]
  apply System.checkURL_app_iff
  apply System.run_monitor_appOnTarget
  intro h
  exact absurd rfl h

/-! ## At most one live session -/

namespace System

theorem modifySession_getElem? (s : System) (k j : Nat) (f : Session → Session) :
    (s.modifySession k f).sessions[j]? =
      if j = k then (s.sessions[k]?).map f else s.sessions[j]? := by
  unfold modifySession
  rcases h : s.sessions[k]? with _ | sess
  · by_cases hj : j = k
    · simp [hj, h]
    · simp [hj]
  · by_cases hj : j = k
    · subst hj
      have hlt : j < s.sessions.length := by
        rcases Nat.lt_or_ge j s.sessions.length with hlt | hge
        · exact hlt
        · rw [List.getElem?_eq_none hge] at h; cases h
      simp [List.getElem?_set, hlt]
    · simp [List.getElem?_set, hj, Ne.symm hj]

@[simp] theorem modifySession_intervals (s : System) (k : Nat) (f : Session → Session) :
    (s.modifySession k f).intervals = s.intervals := by
  unfold modifySession; split <;> rfl

@[simp] theorem modifySession_nextTimerId (s : System) (k : Nat) (f : Session → Session) :
    (s.modifySession k f).nextTimerId = s.nextTimerId := by
  unfold modifySession; split <;> rfl

@[simp] theorem updateStatus_sessions (s : System) (k : Nat) (status : String) :
    (s.updateStatus k status).sessions = s.sessions := by
  unfold updateStatus; (repeat' split) <;> rfl

@[simp] theorem updateStatus_intervals (s : System) (k : Nat) (status : String) :
    (s.updateStatus k status).intervals = s.intervals := by
  unfold updateStatus; (repeat' split) <;> rfl

@[simp] theorem updateStatus_nextTimerId (s : System) (k : Nat) (status : String) :
    (s.updateStatus k status).nextTimerId = s.nextTimerId := by
  unfold updateStatus; (repeat' split) <;> rfl

@[simp] theorem stop_nextTimerId (s : System) (k : Nat) :
    (s.stop k).nextTimerId = s.nextTimerId := by
  unfold stop; (repeat' split) <;> simp

/-- The `stop()` call of session `k` starts no trigger. -/
theorem stop_intervals_sub (s : System) (k : Nat) (t : Interval)
    (h : t ∈ (s.stop k).intervals) : t ∈ s.intervals := by
  unfold stop at h
  split at h
  · exact h
  · simp only [updateStatus_intervals] at h
    split at h
    · exact h
    · split at h
      · exact h
      · exact (List.mem_filter.mp h).1

/-- The `stop()` call of session `k` leaves the other sessions as they are. -/
theorem stop_getElem?_ne (s : System) (k j : Nat) (hj : j ≠ k) :
    (s.stop k).sessions[j]? = s.sessions[j]? := by
  unfold stop
  (repeat' split) <;> simp [List.getElem?_set, hj, Ne.symm hj]

/-- The `stop()` call of session `k` touches only its `intervalId`, which it keeps or clears. -/
theorem stop_getElem?_self (s : System) (k : Nat) (sess' : Session)
    (h : (s.stop k).sessions[k]? = some sess') :
    ∃ sess, s.sessions[k]? = some sess ∧ sess'.isInitialized = sess.isInitialized ∧
      sess'.ui = sess.ui ∧ (sess'.intervalId = sess.intervalId ∨ sess'.intervalId = none) := by
  unfold stop at h
  rcases hk : s.sessions[k]? with _ | sess
  · simp [hk] at h
  · have hlt : k < s.sessions.length := by
      rcases Nat.lt_or_ge k s.sessions.length with hlt | hge
      · exact hlt
      · rw [List.getElem?_eq_none hge] at hk; cases hk
    simp only [hk] at h
    rcases hid : sess.intervalId with _ | id
    · simp only [hid, updateStatus_sessions] at h
      rw [hk] at h
      cases h
      exact ⟨sess', rfl, rfl, rfl, Or.inl rfl⟩
    · simp only [hid, updateStatus_sessions] at h
      by_cases h0 : id = 0
      · simp only [h0, if_true] at h
        rw [hk] at h
        cases h
        exact ⟨sess', rfl, rfl, rfl, Or.inl rfl⟩
      · simp only [h0, if_false] at h
        simp [List.getElem?_set, hlt] at h
        subst h
        exact ⟨sess, rfl, rfl, rfl, Or.inr rfl⟩

/-- After `stop()` no live trigger runs the callback of session `k`. -/
theorem stop_not_owner (s : System) (k : Nat) (hO : s.Owned) (t : Interval)
    (h : t ∈ (s.stop k).intervals) : t.owner ≠ k := by
  intro hk
  have hmem := stop_intervals_sub s k t h
  obtain ⟨hne, sess, hsess, hid⟩ := hO t hmem
  rw [hk] at hsess
  unfold stop at h
  simp only [hsess, hid] at h
  rw [if_neg hne] at h
  simp at h

theorem live_iff (s : System) (j : Nat) :
    s.live j = true ↔
      (∃ sess, s.sessions[j]? = some sess ∧ sess.isInitialized = true) ∨
        ∃ t ∈ s.intervals, t.owner = j := by
  unfold live
  rcases h : s.sessions[j]? with _ | sess <;> simp

@[simp] theorem stop_sessions_length (s : System) (k : Nat) :
    (s.stop k).sessions.length = s.sessions.length := by
  unfold stop; (repeat' split) <;> simp

@[simp] theorem modifySession_sessions_length (s : System) (k : Nat) (f : Session → Session) :
    (s.modifySession k f).sessions.length = s.sessions.length := by
  unfold modifySession; split <;> simp

theorem getElem?_of_length_eq {xs ys : List Session} (h : xs.length = ys.length) (k : Nat)
    (x : Session) (hx : xs[k]? = some x) : ∃ y, ys[k]? = some y := by
  have hlt : k < xs.length := by
    rcases Nat.lt_or_ge k xs.length with hlt | hge
    · exact hlt
    · rw [List.getElem?_eq_none hge] at hx; cases hx
  exact ⟨_, List.getElem?_eq_getElem (h ▸ hlt)⟩

/-- The `stop()` call keeps the link between live triggers and handles. -/
theorem stop_owned (s : System) (k : Nat) (hO : s.Owned) : (s.stop k).Owned := by
  intro t ht
  obtain ⟨hne, sess, hsess, hid⟩ := hO t (stop_intervals_sub s k t ht)
  refine ⟨hne, sess, ?_, hid⟩
  rw [stop_getElem?_ne s k t.owner (stop_not_owner s k hO t ht)]
  exact hsess

/-- The `stop()` call makes no session live. -/
theorem stop_live (s : System) (k j : Nat) (h : (s.stop k).live j = true) : s.live j = true := by
  rw [live_iff] at h ⊢
  rcases h with ⟨sess', hs', hinit⟩ | ⟨t, ht, hown⟩
  · left
    by_cases hj : j = k
    · subst hj
      obtain ⟨sess, hs, hi, _⟩ := stop_getElem?_self s j sess' hs'
      exact ⟨sess, hs, hi ▸ hinit⟩
    · rw [stop_getElem?_ne s k j hj] at hs'
      exact ⟨sess', hs', hinit⟩
  · exact Or.inr ⟨t, stop_intervals_sub s k t ht, hown⟩

/-- The `destroy()` call keeps the link between live triggers and handles. -/
theorem destroy_owned (s : System) (k : Nat) (hO : s.Owned) : (s.destroy k).Owned := by
  intro t ht
  simp only [destroy, modifySession_intervals] at ht
  obtain ⟨hne, sess, hsess, hid⟩ := stop_owned s k hO t ht
  have hk : t.owner ≠ k := stop_not_owner s k hO t ht
  refine ⟨hne, sess, ?_, hid⟩
  simp only [destroy, modifySession_getElem?, hk, if_false]
  exact hsess

/-- After `destroy()` session `k` is not live, and no other session has become live. -/
theorem destroy_live (s : System) (k j : Nat) (hO : s.Owned)
    (h : (s.destroy k).live j = true) : s.live j = true ∧ j ≠ k := by
  rw [live_iff] at h
  simp only [destroy, modifySession_intervals, modifySession_getElem?] at h
  by_cases hj : j = k
  · subst hj
    exfalso
    rcases h with ⟨sess', hs', hinit⟩ | ⟨t, ht, hown⟩
    · simp only [if_true] at hs'
      rcases hq : (s.stop j).sessions[j]? with _ | q
      · simp [hq] at hs'
      · simp only [hq, Option.map_some', Option.some.injEq] at hs'
        subst hs'
        simp at hinit
    · exact stop_not_owner s j hO t ht hown
  · refine ⟨stop_live s k j ?_, hj⟩
    rw [live_iff]
    rcases h with ⟨sess', hs', hinit⟩ | ⟨t, ht, hown⟩
    · simp only [hj, if_false] at hs'
      exact Or.inl ⟨sess', hs', hinit⟩
    · exact Or.inr ⟨t, ht, hown⟩

/-- A change of session `k` that keeps its handle keeps the link between triggers and handles. -/
theorem modifySession_owned (s : System) (k : Nat) (f : Session → Session)
    (hf : ∀ sess, (f sess).intervalId = sess.intervalId) (hO : s.Owned) :
    (s.modifySession k f).Owned := by
  intro t ht
  simp only [modifySession_intervals] at ht
  obtain ⟨hne, sess, hsess, hid⟩ := hO t ht
  refine ⟨hne, ?_⟩
  rw [modifySession_getElem?]
  by_cases hk : t.owner = k
  · rw [hk] at hsess
    simp only [hk, if_true, hsess, Option.map_some']
    exact ⟨f sess, rfl, by rw [hf, hid]⟩
  · simp only [hk, if_false]
    exact ⟨sess, hsess, hid⟩

/-- A change of session `k` makes no other session live. -/
theorem modifySession_live (s : System) (k j : Nat) (f : Session → Session)
    (h : (s.modifySession k f).live j = true) : s.live j = true ∨ j = k := by
  by_cases hj : j = k
  · exact Or.inr hj
  · left
    rw [live_iff] at h ⊢
    simpa only [modifySession_intervals, modifySession_getElem?, hj, if_false] using h

/-- A change of session `k` that keeps its flag makes no session live. -/
theorem modifySession_live_of_flag (s : System) (k j : Nat) (f : Session → Session)
    (hf : ∀ sess, (f sess).isInitialized = sess.isInitialized)
    (h : (s.modifySession k f).live j = true) : s.live j = true := by
  by_cases hj : j = k
  · subst hj
    rw [live_iff] at h ⊢
    simp only [modifySession_intervals, modifySession_getElem?, if_true] at h
    rcases h with ⟨sess', hs', hinit⟩ | h
    · rcases hq : s.sessions[j]? with _ | q
      · simp [hq] at hs'
      · simp only [hq, Option.map_some', Option.some.injEq] at hs'
        subst hs'
        exact Or.inl ⟨q, rfl, by rw [← hf]; exact hinit⟩
    · exact Or.inr h
  · rcases modifySession_live s k j f h with h | h
    · exact h
    · exact absurd h hj

theorem setupUI_owned (s : System) (k : Nat) (hO : s.Owned) : (s.setupUI k).Owned :=
  modifySession_owned s k (fun sess => { sess with ui := true, ops := { sess.ops with ui := true } })
    (fun _ => rfl) hO

theorem setupUI_live (s : System) (k j : Nat) (h : (s.setupUI k).live j = true) :
    s.live j = true :=
  modifySession_live_of_flag s k j
    (fun sess => { sess with ui := true, ops := { sess.ops with ui := true } }) (fun _ => rfl) h

@[simp] theorem setupUI_nextTimerId (s : System) (k : Nat) :
    (s.setupUI k).nextTimerId = s.nextTimerId := by
  simp [setupUI]

theorem initFinish_owned (s : System) (k : Nat) (hO : s.Owned) : (s.initFinish k).Owned := by
  have h := modifySession_owned s k (fun sess => { sess with isInitialized := true })
    (fun _ => rfl) hO
  exact h

theorem initFinish_live (s : System) (k j : Nat) (h : (s.initFinish k).live j = true) :
    s.live j = true ∨ j = k := by
  apply modifySession_live s k j (fun sess => { sess with isInitialized := true })
  rw [live_iff] at h ⊢
  exact h

@[simp] theorem initFinish_nextTimerId (s : System) (k : Nat) :
    (s.initFinish k).nextTimerId = s.nextTimerId := by
  simp [initFinish]

/-- The states `startAutoMode()` of an existing session `k` can end in: the
stopped state with a status line, or that state with a new trigger for `k`
under the next handle. -/
theorem startAutoMode_cases (s : System) (k : Nat) (sess : Session)
    (hk : s.sessions[k]? = some sess) :
    (∃ status, s.startAutoMode k = (s.stop k).updateStatus k status) ∨
    ∃ status ms, s.startAutoMode k =
      System.updateStatus
        { ((s.stop k).modifySession k fun q => { q with intervalId := some (s.stop k).nextTimerId })
          with
          intervals := (s.stop k).intervals ++ [Interval.mk (s.stop k).nextTimerId k ms]
          nextTimerId := (s.stop k).nextTimerId + 1 } k status := by
  unfold startAutoMode
  simp only [hk]
  split
  · exact Or.inl ⟨_, rfl⟩
  · split
    · exact Or.inl ⟨_, rfl⟩
    · exact Or.inr ⟨_, _, rfl⟩

theorem startAutoMode_absent (s : System) (k : Nat) (hk : s.sessions[k]? = none) :
    s.startAutoMode k = s := by
  simp [startAutoMode, hk]

theorem startAutoMode_nextTimerId (s : System) (k : Nat) (h : s.nextTimerId ≠ 0) :
    (s.startAutoMode k).nextTimerId ≠ 0 := by
  rcases hk : s.sessions[k]? with _ | sess
  · rw [startAutoMode_absent s k hk]; exact h
  · rcases startAutoMode_cases s k sess hk with ⟨st, heq⟩ | ⟨st, ms, heq⟩ <;> rw [heq] <;> simp [h]

theorem updateStatus_owned (s : System) (k : Nat) (status : String) (hO : s.Owned) :
    (s.updateStatus k status).Owned := by
  intro t ht
  simp only [updateStatus_intervals] at ht
  simpa only [updateStatus_sessions] using hO t ht

theorem updateStatus_live (s : System) (k j : Nat) (status : String) :
    (s.updateStatus k status).live j = s.live j := by
  simp [live]

theorem startAutoMode_owned (s : System) (k : Nat) (hO : s.Owned) (hn : s.nextTimerId ≠ 0) :
    (s.startAutoMode k).Owned := by
  rcases hk : s.sessions[k]? with _ | sess
  · rw [startAutoMode_absent s k hk]; exact hO
  · rcases startAutoMode_cases s k sess hk with ⟨st, heq⟩ | ⟨st, ms, heq⟩ <;> rw [heq]
    · exact updateStatus_owned _ _ _ (stop_owned s k hO)
    · apply updateStatus_owned
      intro t ht
      simp only [List.mem_append, List.mem_singleton] at ht
      rcases ht with ht | ht
      · obtain ⟨hne, q, hq, hid⟩ := stop_owned s k hO t ht
        have hown : t.owner ≠ k := stop_not_owner s k hO t ht
        refine ⟨hne, q, ?_, hid⟩
        simp only [modifySession_getElem?, hown, if_false]
        exact hq
      · subst ht
        refine ⟨by simpa using hn, ?_⟩
        obtain ⟨q, hq⟩ := getElem?_of_length_eq (stop_sessions_length s k).symm k sess hk
        simp only [modifySession_getElem?, if_true, hq, Option.map_some']
        exact ⟨_, rfl, rfl⟩

theorem startAutoMode_live (s : System) (k j : Nat) (h : (s.startAutoMode k).live j = true) :
    s.live j = true ∨ j = k := by
  by_cases hj : j = k
  · exact Or.inr hj
  · left
    rcases hk : s.sessions[k]? with _ | sess
    · rwa [startAutoMode_absent s k hk] at h
    · rcases startAutoMode_cases s k sess hk with ⟨st, heq⟩ | ⟨st, ms, heq⟩ <;> rw [heq] at h
      · rw [updateStatus_live] at h
        exact stop_live s k j h
      · rw [updateStatus_live] at h
        apply stop_live s k j
        rw [live_iff] at h ⊢
        simp only [modifySession_getElem?, hj, if_false, List.mem_append,
          List.mem_singleton] at h
        rcases h with h | ⟨t, ht | ht, hown⟩
        · exact Or.inl h
        · exact Or.inr ⟨t, ht, hown⟩
        · subst ht
          exact absurd hown.symm hj

theorem initAfterLoad_single (s : System) (k : Nat) :
    s.initAfterLoad [k] = ((s.setupUI k).startAutoMode k).initFinish k := by
  simp [initAfterLoad]

/-- The states `init()` of session `k` can end in. -/
theorem init_cases (s : System) (k : Nat) :
    s.init k = s ∨ s.init k = ((s.setupUI k).startAutoMode k).initFinish k ∨
      s.init k = { s with loadWaiters := s.loadWaiters ++ [k] } := by
  unfold init
  split
  · exact Or.inl rfl
  · split
    · exact Or.inl rfl
    · split
      · exact Or.inr (Or.inl (initAfterLoad_single s k))
      · exact Or.inr (Or.inr rfl)

theorem init_owned (s : System) (k : Nat) (hO : s.Owned) (hn : s.nextTimerId ≠ 0) :
    (s.init k).Owned := by
  rcases init_cases s k with h | h | h <;> rw [h]
  · exact hO
  · exact initFinish_owned _ _ (startAutoMode_owned _ _ (setupUI_owned s k hO) (by simpa using hn))
  · exact hO

theorem init_nextTimerId (s : System) (k : Nat) (hn : s.nextTimerId ≠ 0) :
    (s.init k).nextTimerId ≠ 0 := by
  rcases init_cases s k with h | h | h <;> rw [h]
  · exact hn
  · simpa using startAutoMode_nextTimerId (s.setupUI k) k (by simpa using hn)
  · exact hn

/-- The `init()` call of session `k` makes no other session live. -/
theorem init_live (s : System) (k j : Nat) (h : (s.init k).live j = true) :
    s.live j = true ∨ j = k := by
  rcases init_cases s k with heq | heq | heq <;> rw [heq] at h
  · exact Or.inl h
  · rcases initFinish_live _ k j h with h | h
    · rcases startAutoMode_live _ k j h with h | h
      · exact Or.inl (setupUI_live s k j h)
      · exact Or.inr h
    · exact Or.inr h
  · exact Or.inl h

/-- What the monitor keeps true: triggers are linked to handles, only the held
session is live, and the next timer handle is not zero. -/
theorem fireInit_inv (s : System) (h : s.Owned ∧ s.OnlyApp ∧ s.nextTimerId ≠ 0) :
    s.fireInit.Owned ∧ s.fireInit.OnlyApp ∧ s.fireInit.nextTimerId ≠ 0 := by
  obtain ⟨hO, hA, hn⟩ := h
  unfold fireInit
  split
  · exact ⟨hO, hA, hn⟩
  · rcases happ : s.app with _ | k
    · exact ⟨hO, fun j hj => by simpa [happ] using hA j hj, hn⟩
    · simp only
      have hO' : System.Owned { s with initTimers := s.initTimers - 1 } := hO
      refine ⟨init_owned _ k hO' hn, ?_, init_nextTimerId _ k hn⟩
      intro j hj
      rw [init_app]
      rcases init_live _ k j hj with h | h
      · show some k = some j
        rw [← happ]
        exact hA j h
      · rw [h]

theorem handleUrlChange_inv (s : System) (h : s.Owned ∧ s.OnlyApp ∧ s.nextTimerId ≠ 0) :
    s.handleUrlChange.Owned ∧ s.handleUrlChange.OnlyApp ∧ s.handleUrlChange.nextTimerId ≠ 0 := by
  obtain ⟨hO, hA, hn⟩ := h
  unfold handleUrlChange
  split
  · rcases happ : s.app with _ | k
    · -- a new session is constructed; before it nothing was live
      have hdead : ∀ j, s.live j = true → False := fun j hj => by
        have := hA j hj
        rw [happ] at this
        cases this
      refine ⟨?_, ?_, hn⟩
      · intro t ht
        obtain ⟨hne, sess, hsess, hid⟩ := hO t ht
        refine ⟨hne, sess, ?_, hid⟩
        have hlt : t.owner < s.sessions.length := by
          rcases Nat.lt_or_ge t.owner s.sessions.length with hlt | hge
          · exact hlt
          · rw [List.getElem?_eq_none hge] at hsess; cases hsess
        simp only
        rw [List.getElem?_append_left hlt]
        exact hsess
      · intro j hj
        exfalso
        rw [live_iff] at hj
        simp only at hj
        rcases hj with ⟨sess, hsess, hinit⟩ | hj
        · rcases Nat.lt_trichotomy j s.sessions.length with hlt | heq | hgt
          · rw [List.getElem?_append_left hlt] at hsess
            exact hdead j ((live_iff s j).mpr (Or.inl ⟨sess, hsess, hinit⟩))
          · subst heq
            simp at hsess
            subst hsess
            simp [Session.new] at hinit
          · rw [List.getElem?_eq_none (by simp; omega)] at hsess
            cases hsess
        · exact hdead j ((live_iff s j).mpr (Or.inr hj))
    · exact ⟨hO, fun j hj => by simpa [happ] using hA j hj, hn⟩
  · rcases happ : s.app with _ | k
    · exact ⟨hO, fun j hj => by simpa [happ] using hA j hj, hn⟩
    · refine ⟨destroy_owned s k hO, ?_, by simpa [destroy] using hn⟩
      intro j hj
      exfalso
      have hj' : (s.destroy k).live j = true := hj
      obtain ⟨hlive, hne⟩ := destroy_live s k j hO hj'
      have := hA j hlive
      rw [happ] at this
      exact hne (Option.some.inj this).symm

theorem checkURL_inv (s : System) (h : s.Owned ∧ s.OnlyApp ∧ s.nextTimerId ≠ 0) :
    s.checkURL.Owned ∧ s.checkURL.OnlyApp ∧ s.checkURL.nextTimerId ≠ 0 := by
  by_cases hu : s.href = s.currentUrl
  · by_cases hn : isTargetUrl s.href = true ∧ s.app = none
    · rw [checkURL_missed s hu hn.1 hn.2]
      exact handleUrlChange_inv s h
    · rw [checkURL_same s hu hn]
      exact h
  · rw [checkURL_changed s hu]
    exact handleUrlChange_inv { s with currentUrl := s.href } h

theorem step_monitor_inv (s : System) (ev : MonitorEvent)
    (h : s.Owned ∧ s.OnlyApp ∧ s.nextTimerId ≠ 0) :
    (s.step ev.toOp).Owned ∧ (s.step ev.toOp).OnlyApp ∧ (s.step ev.toOp).nextTimerId ≠ 0 := by
  cases ev with
  | navigate href => exact h
  | checkURL => exact checkURL_inv s h
  | fireInit => exact fireInit_inv s h

theorem run_monitor_inv (events : List MonitorEvent) (s : System)
    (h : s.Owned ∧ s.OnlyApp ∧ s.nextTimerId ≠ 0) :
    (s.run (events.map MonitorEvent.toOp)).Owned ∧
      (s.run (events.map MonitorEvent.toOp)).OnlyApp ∧
      (s.run (events.map MonitorEvent.toOp)).nextTimerId ≠ 0 := by
  induction events generalizing s with
  | nil => exact h
  | cons ev rest ih => exact ih _ (step_monitor_inv s ev h)

theorem initial_inv (href currentUrl : String) (complete : Bool) (st : Storage) :
    (initial href currentUrl complete st).Owned ∧ (initial href currentUrl complete st).OnlyApp ∧
      (initial href currentUrl complete st).nextTimerId ≠ 0 := by
  refine ⟨?_, ?_, by simp [initial]⟩
  · intro t ht
    simp [initial] at ht
  · intro j hj
    simp [initial, live] at hj

/-- When only the held session can be live, at most one session is live. -/
theorem liveSessions_length_le_one (s : System) (h : s.OnlyApp) : s.liveSessions.length ≤ 1 := by
  have hnodup : s.liveSessions.Nodup := (List.nodup_range _).filter _
  rcases happ : s.app with _ | k
  · have hnil : s.liveSessions = [] := by
      apply List.eq_nil_iff_forall_not_mem.mpr
      intro j hj
      have := h j (List.mem_filter.mp hj).2
      rw [happ] at this
      cases this
    simp [hnil]
  · have hsub : s.liveSessions ⊆ [k] := by
      intro j hj
      have := h j (List.mem_filter.mp hj).2
      rw [happ] at this
      simp [Option.some.inj this]
    exact (hnodup.subperm hsub).length_le

end System

/-- What the monitor's own three events keep: from the watcher's initial state,
after address changes, `checkURL` calls and firings of the settle-delay `init`
timers alone, at most one `JuguangAutoCard` is initialized or has a live
periodic trigger, and a session that is so is the one the watcher holds. -/
theorem at_most_one_live_session (href currentUrl : String) (complete : Bool) (st : Storage)
    (events : List MonitorEvent) :
    ((System.initial href currentUrl complete st).run
      (events.map MonitorEvent.toOp)).liveSessions.length ≤ 1 ∧
    ∀ k, ((System.initial href currentUrl complete st).run
      (events.map MonitorEvent.toOp)).live k = true →
      ((System.initial href currentUrl complete st).run
        (events.map MonitorEvent.toOp)).app = some k := by
  obtain ⟨_, hA, _⟩ := System.run_monitor_inv events _
    (System.initial_inv href currentUrl complete st)
  exact ⟨System.liveSessions_length_le_one _ hA, hA⟩

theorem at_most_one_live_session_witness :
    ((System.initial targetUrlPattern targetUrlPattern true Storage.empty).run
        ([MonitorEvent.checkURL, MonitorEvent.fireInit].map MonitorEvent.toOp)).live 0 = true ∧
      ((System.initial targetUrlPattern targetUrlPattern true Storage.empty).run
        ([MonitorEvent.checkURL, MonitorEvent.fireInit].map MonitorEvent.toOp)).app = some 0 :=
  ⟨by decide,
    (at_most_one_live_session targetUrlPattern targetUrlPattern true Storage.empty
      [.checkURL, .fireInit]).2 0 (by decide)⟩

/-- C10, at the failing inputs. Two sessions are live at once, each with a
periodic trigger of its own, after either of two interleavings of the monitor's
events with a pending callback of a destroyed session, which `destroy()` does
not cancel. First, with the document not yet complete: the settle timer of the
first session fires and its `init` is parked at `waitForPageLoad()`; the
address leaves and re-enters the pattern around two checks, so that the first
session is destroyed and a second one constructed; the settle timer of the
second fires, and the window `load` event resumes both `init` calls. Second,
with the document complete: the address leaves the pattern and, before the
next check, the panel's `enabled` handler of the first session schedules
`startAutoMode()`; the check destroys the session, the address re-enters and a
check constructs the second session; the scheduled call then starts a trigger
for the destroyed session, and the settle timer initializes the second. -/
theorem destroyed_session_live_again :
    ((System.initial targetUrlPattern targetUrlPattern false Storage.empty).run
      [.checkURL, .fireInit, .navigate "https://pro.xiaohongshu.com/home", .checkURL,
        .navigate targetUrlPattern, .checkURL, .fireInit, .load]).liveSessions = [0, 1] ∧
    (((System.initial targetUrlPattern targetUrlPattern false Storage.empty).run
      [.checkURL, .fireInit, .navigate "https://pro.xiaohongshu.com/home", .checkURL,
        .navigate targetUrlPattern, .checkURL, .fireInit, .load]).intervals.map
          Interval.owner) = [0, 1] ∧
    ((System.initial targetUrlPattern targetUrlPattern false Storage.empty).run
      [.checkURL, .fireInit, .navigate "https://pro.xiaohongshu.com/home", .checkURL,
        .navigate targetUrlPattern, .checkURL, .fireInit, .load]).app = some 1 ∧
    ((System.initial targetUrlPattern targetUrlPattern true Storage.empty).run
      [.checkURL, .fireInit, .navigate "https://pro.xiaohongshu.com/home", .setEnabled 0 true,
        .checkURL, .navigate targetUrlPattern, .checkURL, .fireStart 0,
        .fireInit]).liveSessions = [0, 1] ∧
    (((System.initial targetUrlPattern targetUrlPattern true Storage.empty).run
      [.checkURL, .fireInit, .navigate "https://pro.xiaohongshu.com/home", .setEnabled 0 true,
        .checkURL, .navigate targetUrlPattern, .checkURL, .fireStart 0,
        .fireInit]).intervals.map Interval.owner) = [0, 1] ∧
    ((System.initial targetUrlPattern targetUrlPattern true Storage.empty).run
      [.checkURL, .fireInit, .navigate "https://pro.xiaohongshu.com/home", .setEnabled 0 true,
        .checkURL, .navigate targetUrlPattern, .checkURL, .fireStart 0,
        .fireInit]).app = some 1 := by
  decide

/-! ## The counter never goes down -/

/-- A piece of the pipeline never lowers the counter. -/
theorem segment_sentCount_le (pc : Pc) (o : Obs) (st : Storage) :
    st.getSentCount ≤ (segment pc o st).storage.getSentCount := by
  by_cases h : pc = .count
  · subst h
    rw [segment_count]
    simpa [Storage.getSentCount, orZero_eq, round53_idem] using le_round53_succ _
  · rw [segment_storage pc o st h]

namespace World

@[simp] theorem onSuccess_storage (w : World) : w.onSuccess.storage = w.storage := by
  simp [onSuccess]

@[simp] theorem onFailure_storage (w : World) (e : Failure) (r : Draw) :
    (w.onFailure e r).storage = w.storage := by
  simp [onFailure]

theorem settle_storage (w : World) (out : SegOut) (r : Draw) :
    (w.settle out r).storage = out.storage := by
  rcases hres : out.result with ⟨ms, next⟩ | _ | e <;> simp [settle, hres]

theorem autoSendCard_sentCount_le (w : World) (o : Obs) :
    w.storage.getSentCount ≤ (w.autoSendCard o).storage.getSentCount := by
  unfold autoSendCard
  split
  · simp
  · rw [settle_storage]
    simpa using segment_sentCount_le .step1 o w.storage

theorem wake_sentCount_le (w : World) (i : Nat) (o : Obs) :
    w.storage.getSentCount ≤ (w.wake i o).storage.getSentCount := by
  unfold wake
  split
  · exact Nat.le_refl _
  · rw [settle_storage]
    exact segment_sentCount_le _ o w.storage

theorem fireRetry_sentCount_le (w : World) (i : Nat) (o : Obs) :
    w.storage.getSentCount ≤ (w.fireRetry i o).storage.getSentCount := by
  unfold fireRetry
  split
  · exact Nat.le_refl _
  · exact autoSendCard_sentCount_le { w with retryTimers := w.retryTimers.eraseIdx i } o

end World

namespace System

/-- A `CardOperations` method that never lowers the counter does not lower it in the page. -/
theorem onCard_sentCount_le (s : System) (k : Nat) (f : World → World)
    (hf : ∀ w, w.storage.getSentCount ≤ (f w).storage.getSentCount) :
    s.storage.getSentCount ≤ (s.onCard k f).storage.getSentCount := by
  unfold onCard
  split
  · exact Nat.le_refl _
  · rename_i sess _
    exact hf { ops := sess.ops, storage := s.storage, suspended := sess.suspended,
               retryTimers := sess.retryTimers, effects := s.effects }

@[simp] theorem restart_storage (s : System) (k : Nat) : (s.restart k).storage = s.storage := by
  simp [restart]

@[simp] theorem handleUrlChange_storage (s : System) : s.handleUrlChange.storage = s.storage := by
  unfold handleUrlChange; (repeat' split) <;> simp

@[simp] theorem checkURL_storage (s : System) : s.checkURL.storage = s.storage := by
  by_cases h : s.href = s.currentUrl
  · by_cases hn : isTargetUrl s.href = true ∧ s.app = none
    · rw [checkURL_missed s h hn.1 hn.2]; simp
    · rw [checkURL_same s h hn]
  · rw [checkURL_changed s h]; simp

@[simp] theorem watcherStop_storage (s : System) : s.watcherStop.storage = s.storage := by
  unfold watcherStop; split <;> simp

@[simp] theorem fireInit_storage (s : System) : s.fireInit.storage = s.storage := by
  unfold fireInit
  split
  · rfl
  · simp only; split <;> simp

@[simp] theorem fireStart_storage (s : System) (i : Nat) : (s.fireStart i).storage = s.storage := by
  unfold fireStart; split <;> simp

@[simp] theorem fireRestart_storage (s : System) (i : Nat) :
    (s.fireRestart i).storage = s.storage := by
  unfold fireRestart; split <;> simp

theorem tick_sentCount_le (s : System) (id : Nat) (o : Obs) :
    s.storage.getSentCount ≤ (s.tick id o).storage.getSentCount := by
  unfold tick
  split
  · exact Nat.le_refl _
  · split
    · exact onCard_sentCount_le s _ _ fun w => World.autoSendCard_sentCount_le w o
    · simp

theorem onPanel_sentCount_le (s : System) (k : Nat) (f : System → System)
    (hf : ∀ s, s.storage.getSentCount ≤ (f s).storage.getSentCount) :
    s.storage.getSentCount ≤ (s.onPanel k f).storage.getSentCount := by
  unfold onPanel
  split
  · exact Nat.le_refl _
  · split
    · exact hf s
    · exact Nat.le_refl _

end System

/-- Every operation of the page but the two reset intents leaves the counter at
least as large as it was. -/
theorem System.step_sentCount_le (s : System) (op : Op) (hop : op.isReset = false) :
    s.storage.getSentCount ≤ (s.step op).storage.getSentCount := by
  cases op with
  | navigate href => exact Nat.le_refl _
  | load => simp [System.step]
  | checkURL => simp [System.step]
  | watcherStop => simp [System.step]
  | fireInit => simp [System.step]
  | fireStart i => simp [System.step]
  | fireRestart i => simp [System.step]
  | tick id o => exact System.tick_sentCount_le s id o
  | init k => simp [System.step]
  | startAutoMode k => simp [System.step]
  | stop k => simp [System.step]
  | destroy k => simp [System.step]
  | restart k => simp [System.step]
  | autoSendCard k o =>
    exact System.onCard_sentCount_le s k _ fun w => World.autoSendCard_sentCount_le w o
  | wake k i o => exact System.onCard_sentCount_le s k _ fun w => World.wake_sentCount_le w i o
  | retry k i o =>
    exact System.onCard_sentCount_le s k _ fun w => World.fireRetry_sentCount_le w i o
  | handleError k e r => exact System.onCard_sentCount_le s k _ fun w => by simp
  | getCardList k page => exact Nat.le_refl _
  | setEnabled k checked => exact System.onPanel_sentCount_le s k _ fun s => Nat.le_refl _
  | setAutoInterval k seconds =>
    refine System.onPanel_sentCount_le s k _ fun s => ?_
    simp only
    split <;> exact Nat.le_refl _
  | setCardSelection k value => exact System.onPanel_sentCount_le s k _ fun s => Nat.le_refl _
  | setSelectedCardIndex k value =>
    exact System.onPanel_sentCount_le s k _ fun s => Nat.le_refl _
  | refreshCardList k page => exact System.onPanel_sentCount_le s k _ fun s => Nat.le_refl _
  | manualSend k o =>
    exact System.onPanel_sentCount_le s k _ fun s =>
      System.onCard_sentCount_le s k _ fun w => World.autoSendCard_sentCount_le w o
  | togglePanel k => exact System.onPanel_sentCount_le s k _ fun s => Nat.le_refl _
  | resetCount k => simp [Op.isReset] at hop
  | resetConfig => simp [Op.isReset] at hop

/-- C4. Counter monotonicity: every operation of the page other than the two
reset intents (the reset-counter handler and `resetConfig`) leaves the stored
`sentCount` at least as large as it was: navigation and page load, `checkURL`
and the watcher's `stop`, the timers, `init`, `startAutoMode`, `stop`,
`destroy`, `restart`, `autoSendCard` and its wake-ups and retries,
`handleError`, `getCardList` and the other settings handlers. -/
theorem counter_monotone (s : System) (op : Op) (hop : op.isReset = false) :
    s.storage.getSentCount ≤ (s.step op).storage.getSentCount :=
  System.step_sentCount_le s op hop

theorem counter_monotone_witness :
    Sample.system.storage.getSentCount ≤
      (Sample.system.step (.wake 0 0 Sample.obs)).storage.getSentCount :=
  counter_monotone Sample.system (.wake 0 0 Sample.obs) rfl

/-! ## Utils: the layered click and the delay window -/

/-- C18. Layered activation fallback: on a present element `safeClick` attempts
the direct click, then the dispatched `MouseEvent`, then the dispatched plain
`Event`, in that order and each on that element; every attempt reports whether
its strategy throws on the element; every attempt before the last threw, so a
strategy is attempted only when all earlier ones threw; the call returns `true`
exactly when the last attempt did not throw, that is when some strategy does
not throw, and raises the click failure exactly when all three throw; on an
absent element it raises without any attempt. -/
theorem safeClick_layered_fallback :
    safeClick none = ([], .error .elementMissing) ∧
    ∀ e : Element,
      (safeClick (some e)).1.map Attempt.strategy <+: [.direct, .mouseEvent, .basicEvent] ∧
      (safeClick (some e)).1 ≠ [] ∧
      (∀ a ∈ (safeClick (some e)).1, a.elem = e.id ∧ a.threw = e.throwsOn a.strategy) ∧
      (∀ i a, i + 1 < (safeClick (some e)).1.length → (safeClick (some e)).1[i]? = some a →
        a.threw = true) ∧
      ((safeClick (some e)).2 = .ok true ↔
        ∃ a, (safeClick (some e)).1.getLast? = some a ∧ a.threw = false) ∧
      ((safeClick (some e)).2 = .ok true ↔
        ¬ (e.clickThrows = true ∧ e.mouseEventThrows = true ∧ e.basicEventThrows = true)) ∧
      ((safeClick (some e)).2 = .error .clickFailed ↔
        (e.clickThrows = true ∧ e.mouseEventThrows = true ∧ e.basicEventThrows = true)) := by
  refine ⟨rfl, ?_⟩
  rintro ⟨id, a, b, c, cs⟩
  cases a <;> cases b <;> cases c <;>
    simp [safeClick, Element.clickThrows, Element.mouseEventThrows, Element.basicEventThrows,
      Element.id, Element.throwsOn, List.prefix_iff_eq_take] <;>
    (intro i x hi hx
     have hi' : i = 0 ∨ i = 1 := by omega
     rcases hi' with rfl | rfl
     · simp at hx; simp [← hx]
     · first
       | omega
       | (simp at hx; simp [← hx]))

theorem safeClick_layered_fallback_witness :
    ((safeClick (some (.mk 9 true true false []))).2 = .ok true ↔
      ∃ a, (safeClick (some (.mk 9 true true false []))).1.getLast? = some a ∧
        a.threw = false) ∧
    (safeClick (some (.mk 9 true true false []))).1.map Attempt.strategy =
      [.direct, .mouseEvent, .basicEvent] :=
  ⟨(safeClick_layered_fallback.2 (.mk 9 true true false [])).2.2.2.2.1, by decide⟩

/-- A piece of the pipeline that goes to sleep sleeps for the delay of its draw
in the window of its step. -/
theorem segment_sleep_ms (pc : Pc) (o : Obs) (st : Storage) (ms : Int) (next : Pc)
    (h : (segment pc o st).result = .sleep ms next) :
    (pc = .step5 ∧ ms = getRandomDelay o.rDelay 500 1000) ∨
      (pc ≠ .step5 ∧ ms = getRandomDelay o.rDelay 1000 2000) := by
  cases pc <;> simp only [segment] at h
  all_goals (repeat' split at h)
  all_goals first
    | exact Segment.noConfusion h
    | (rcases clickThenSleep_result _ _ _ _ with h1 | ⟨e, h1⟩
       · rw [h1] at h
         simp only [Segment.sleep.injEq] at h
         obtain ⟨rfl, _⟩ := h
         simp
       · rw [h1] at h; exact Segment.noConfusion h)

/-- C19, as the code has it. Delay window: for integers `min ≤ max` between
`-2 ^ 53` and `2 ^ 53` with `max - min < 2 ^ 53` and every draw `r`,
`getRandomDelay` is `Math.floor(r * (max - min + 1)) + min` with the product
rounded to a double and no other step rounding, which is the exact
`floor(r * (max - min + 1)) + min` or one more, and lies in `[min, max]`; when
moreover `max - min < 2 ^ 52`, every integer of `[min, max]` is the delay of
some draw; so a piece of the pipeline that goes to sleep after step 5 sleeps
for `[500, 1000]` ms, one that goes to sleep after an earlier step for
`[1000, 2000]` ms, and the timer `handleError` adds has a delay in
`[3000, 5000]` ms. -/
theorem delay_window :
    (∀ (min max : Int) (r : Draw), min ≤ max → -(2 ^ 53) ≤ min → max ≤ 2 ^ 53 →
      max - min < 2 ^ 53 →
      getRandomDelay r min max = r.mulFloor (max - min + 1) + min ∧
      ⌊r.toRat * ((max - min + 1 : Int) : ℚ)⌋ + min ≤ getRandomDelay r min max ∧
      getRandomDelay r min max ≤ ⌊r.toRat * ((max - min + 1 : Int) : ℚ)⌋ + min + 1 ∧
      min ≤ getRandomDelay r min max ∧ getRandomDelay r min max ≤ max) ∧
    (∀ (min max d : Int), -(2 ^ 53) ≤ min → max ≤ 2 ^ 53 → max - min < 2 ^ 52 →
      min ≤ d → d ≤ max → ∃ r : Draw, getRandomDelay r min max = d) ∧
    (∀ (pc : Pc) (o : Obs) (st : Storage) (ms : Int) (next : Pc),
      (segment pc o st).result = .sleep ms next →
      (pc = .step5 → 500 ≤ ms ∧ ms ≤ 1000) ∧ (pc ≠ .step5 → 1000 ≤ ms ∧ ms ≤ 2000)) ∧
    (∀ (w : World) (e : Failure) (r : Draw),
      (w.handleError e r).retryTimers = w.retryTimers ∨
        ∃ d, (w.handleError e r).retryTimers = w.retryTimers ++ [d] ∧ 3000 ≤ d ∧ d ≤ 5000) := by
  refine ⟨fun min max r hle hmin hmax hw => ?_,
    fun min max d hmin hmax hw h1 h2 => getRandomDelay_surj hmin hmax hw h1 h2, ?_, ?_⟩
  · obtain ⟨hlo, hhi⟩ := getRandomDelay_near r hle hmin hmax hw
    exact ⟨getRandomDelay_eq r hle hmin hmax hw, hlo, hhi,
      getRandomDelay_mem r hle hmin hmax hw⟩
  · intro pc o st ms next h
    rcases segment_sleep_ms pc o st ms next h with ⟨hpc, hms⟩ | ⟨hpc, hms⟩
    · exact ⟨fun _ => hms ▸ getRandomDelay_mem _ (by decide : (500 : Int) ≤ 1000) (by decide)
          (by decide) (by decide),
        fun hne => absurd hpc hne⟩
    · exact ⟨fun heq => absurd heq hpc,
        fun _ => hms ▸ getRandomDelay_mem _ (by decide : (1000 : Int) ≤ 2000) (by decide)
          (by decide) (by decide)⟩
  · intro w e r
    by_cases hb : w.ops.retryCount + 1 ≤ w.ops.maxRetries
    · right
      exact ⟨_, by simp [World.handleError, World.emit, hb],
        getRandomDelay_mem r (by decide : (3000 : Int) ≤ 5000) (by decide) (by decide)
          (by decide)⟩
    · left
      simp [World.handleError, World.emit, hb]

theorem delay_window_witness :
    getRandomDelay Sample.half 500 1000 = 750 ∧
    getRandomDelay Sample.half 500 1000 = Sample.half.mulFloor (1000 - 500 + 1) + 500 ∧
      500 ≤ getRandomDelay Sample.half 500 1000 ∧ getRandomDelay Sample.half 500 1000 ≤ 1000 :=
  have h := delay_window.1 500 1000 Sample.half (by decide) (by decide) (by decide) (by decide)
  ⟨by decide, h.1, h.2.2.2⟩

/-- C19 fails as stated: on the window `[1000, 2000]` the draw
`8989202852633617 / 2 ^ 53` gives the delay `1999`, where
`floor(r * 1001) + 1000` is `1998`, the product being rounded up to `999`; and
on the window `[0, 2 ^ 53]`, whose width `2 ^ 53 + 1` is not a double, no draw
gives the delay `2 ^ 53`. -/
theorem delay_not_the_exact_floor :
    getRandomDelay Sample.underInteger 1000 2000 = 1999 ∧
    ⌊Sample.underInteger.toRat * ((2000 - 1000 + 1 : Int) : ℚ)⌋ + 1000 = 1998 ∧
    ¬ ∃ r : Draw, getRandomDelay r 0 (2 ^ 53) = 2 ^ 53 := by
  refine ⟨by decide, ?_, ?_⟩
  · have h : ⌊Sample.underInteger.toRat * ((2000 - 1000 + 1 : Int) : ℚ)⌋ = 998 := by
      rw [Int.floor_eq_iff]
      norm_num [Sample.underInteger, Draw.toRat]
    rw [h]
    rfl
  · rintro ⟨r, hr⟩
    have hw : roundInt (roundInt (roundInt (2 ^ 53) - roundInt 0) + 1) = 2 ^ 53 := by decide
    have h0 : roundInt 0 = 0 := by decide
    unfold getRandomDelay at hr
    rw [hw, h0] at hr
    obtain ⟨hlo, hhi⟩ := r.mulFloor_range (by decide : (1 : Int) ≤ 2 ^ 53)
    rw [Int.add_zero, roundInt_of_abs_le (by omega) (by omega)] at hr
    omega

/-! ## Runs that do not fail, and the named failures -/

namespace World

theorem statusLine_click (w : World) (s : String) (a : Attempt) :
    Effect.click a ∈ (w.updateStatus s).effects ↔ Effect.click a ∈ w.effects := by
  unfold updateStatus emit; split <;> simp

theorem updateSentCount_click (w : World) (a : Attempt) :
    Effect.click a ∈ w.updateSentCount.effects ↔ Effect.click a ∈ w.effects := by
  unfold updateSentCount emit; split <;> simp

/-- The success path: count reset, flag cleared, no timer, nothing clicked. -/
theorem onSuccess_spec (w : World) :
    w.onSuccess.ops.retryCount = 0 ∧ w.onSuccess.ops.isRunning = false ∧
    w.onSuccess.retryTimers = w.retryTimers ∧
    ∀ a, Effect.click a ∈ w.onSuccess.effects → Effect.click a ∈ w.effects := by
  refine ⟨by simp [onSuccess], by simp [onSuccess], by simp [onSuccess], ?_⟩
  intro a ha
  simp only [onSuccess] at ha
  exact (statusLine_click _ _ _).mp ((updateSentCount_click _ _).mp ha)

end World

/-- C14. Non-failing run outcome: in any state a fresh `CardOperations` reaches,
an uninterrupted `autoSendCard` call admitted by the guard whose pipeline
returns, after a full success or after the early return for zero markers,
adds no retry timer and ends with `retryCount = 0`, `isRunning = false` and
nothing parked; with zero markers the pipeline does return, and the call
activates no element and leaves the store as it was. -/
theorem non_failing_run (st : Storage) (events : List Event) (ro : RunObs)
    (hidle : ((World.fresh st).run events).ops.isRunning = false) :
    ((performCardAction ro ((World.fresh st).run events).storage).result = .returned →
      (((World.fresh st).run events).autoSendCardRun ro).ops.retryCount = 0 ∧
      (((World.fresh st).run events).autoSendCardRun ro).ops.isRunning = false ∧
      (((World.fresh st).run events).autoSendCardRun ro).retryTimers =
        ((World.fresh st).run events).retryTimers ∧
      (((World.fresh st).run events).autoSendCardRun ro).suspended = []) ∧
    (ro.o1.page.redDots = [] →
      (performCardAction ro ((World.fresh st).run events).storage).result = .returned ∧
      (performCardAction ro ((World.fresh st).run events).storage).attempts = [] ∧
      (∀ a, Effect.click a ∈ (((World.fresh st).run events).autoSendCardRun ro).effects →
        Effect.click a ∈ ((World.fresh st).run events).effects) ∧
      (((World.fresh st).run events).autoSendCardRun ro).storage =
        ((World.fresh st).run events).storage) := by
  have hsf := World.run_singleFlight events (World.fresh st) rfl
  generalize (World.fresh st).run events = w at hidle hsf ⊢
  have hs : w.suspended = [] := by
    simpa [World.SingleFlight, hidle] using hsf
  constructor
  · intro hret
    rw [World.autoSendCardRun_returned w ro hidle hs hret]
    obtain ⟨h1, h2, h3, _⟩ := World.onSuccess_spec
      ((World.updateStatus { w with ops := { w.ops with isRunning := true } }
        "正在发送名片...").absorb (performCardAction ro w.storage).attempts
          (performCardAction ro w.storage).storage)
    exact ⟨h1, h2, by simpa using h3, by simpa using hs⟩
  · intro hnil
    rcases performCardAction_cases ro w.storage with ⟨_, hret, hst, hatt⟩ | ⟨h, _⟩ | ⟨h, _⟩
    · refine ⟨hret, hatt, ?_, ?_⟩
      · intro a ha
        rw [World.autoSendCardRun_returned w ro hidle hs hret, hatt] at ha
        have h4 := (World.onSuccess_spec _).2.2.2 a ha
        simp only [World.absorb, List.map_nil, List.append_nil] at h4
        exact (World.statusLine_click { w with ops := { w.ops with isRunning := true } } _ a).mp h4
      · rw [World.autoSendCardRun_returned w ro hidle hs hret]
        simp [hst]
    · exact absurd hnil h
    · exact absurd hnil h

theorem non_failing_run_witness :
    ((World.fresh Sample.manualStale).run []).ops.isRunning = false ∧
      (((World.fresh Sample.manualStale).run []).autoSendCardRun Sample.runObs).ops.retryCount
        = 0 :=
  ⟨rfl, ((non_failing_run Sample.manualStale [] Sample.runObs rfl).1 rfl).1⟩

/-- A piece whose control is present and whose click succeeds goes to sleep. -/
theorem clickThenSleep_ok (e : Element) (st : Storage) (ms : Int) (next : Pc) (b : Bool)
    (h : (safeClick (some e)).2 = .ok b) :
    clickThenSleep (some e) st ms next = ⟨(safeClick (some e)).1, st, .sleep ms next⟩ := by
  unfold clickThenSleep
  rcases hc : safeClick (some e) with ⟨as, r⟩
  rw [hc] at h
  simp only at h
  subst h
  rfl

/-- C15. Immediate, step-identifying failure: on a page with at least one
marker, when the first lookup of the pipeline that comes back absent is the
marker's container, the tool control, the card tab or the candidate list (absent
or empty), every control looked up before it having been found and clicked,
`performCardAction` raises the failure named for that step, its activation
attempts are those on the controls of the earlier steps and no others, and the
store with its counter is as it was. -/
theorem step_identifying_failure (ro : RunObs) (st : Storage) (dot : Marker)
    (rest : List Marker) (hdots : ro.o1.page.redDots = dot :: rest) :
    (dot.parentElement = none →
      (performCardAction ro st).result = .threw .avatarNotFound ∧
      (performCardAction ro st).attempts = [] ∧ (performCardAction ro st).storage = st) ∧
    (∀ avatar b1, dot.parentElement = some avatar → (safeClick (some avatar)).2 = .ok b1 →
      (ro.o2.page.customerToolSvg = none →
        (performCardAction ro st).result = .threw .toolNotFound ∧
        (performCardAction ro st).attempts = (safeClick (some avatar)).1 ∧
        (performCardAction ro st).storage = st) ∧
      ∀ tool b2, ro.o2.page.customerToolSvg = some tool → (safeClick (some tool)).2 = .ok b2 →
        (ro.o3.page.cardTab = none →
          (performCardAction ro st).result = .threw .cardTabNotFound ∧
          (performCardAction ro st).attempts =
            (safeClick (some avatar)).1 ++ (safeClick (some tool)).1 ∧
          (performCardAction ro st).storage = st) ∧
        ∀ tab b3, ro.o3.page.cardTab = some tab → (safeClick (some tab)).2 = .ok b3 →
          ((ro.o4.page.cardContainer = none ∨
              ∃ c, ro.o4.page.cardContainer = some c ∧ c.children = []) →
            (performCardAction ro st).result = .threw .cardListEmpty ∧
            (performCardAction ro st).attempts =
              (safeClick (some avatar)).1 ++ ((safeClick (some tool)).1 ++
                (safeClick (some tab)).1) ∧
            (performCardAction ro st).storage = st)) := by
  refine ⟨fun h => ?_, fun avatar b1 ha hc1 => ⟨fun h => ?_, fun tool b2 ht hc2 =>
    ⟨fun h => ?_, fun tab b3 htab hc3 h => ?_⟩⟩⟩
  · simp [performCardAction, runFrom, segment, hdots, h]
  · simp [performCardAction, runFrom, segment, hdots, ha, clickThenSleep_ok _ _ _ _ _ hc1, h]
  · simp [performCardAction, runFrom, segment, hdots, ha, clickThenSleep_ok _ _ _ _ _ hc1, ht,
      clickThenSleep_ok _ _ _ _ _ hc2, h]
  · rcases h with h | ⟨c, h, hc⟩
    · simp [performCardAction, runFrom, segment, hdots, ha, clickThenSleep_ok _ _ _ _ _ hc1, ht,
        clickThenSleep_ok _ _ _ _ _ hc2, htab, clickThenSleep_ok _ _ _ _ _ hc3, h]
    · simp [performCardAction, runFrom, segment, hdots, ha, clickThenSleep_ok _ _ _ _ _ hc1, ht,
        clickThenSleep_ok _ _ _ _ _ hc2, htab, clickThenSleep_ok _ _ _ _ _ hc3, h, hc]

theorem step_identifying_failure_witness :
    (performCardAction Sample.runNoTab Storage.empty).result = .threw .cardTabNotFound ∧
      (performCardAction Sample.runNoTab Storage.empty).attempts =
        (safeClick (some (Sample.leaf 1))).1 ++ (safeClick (some (Sample.leaf 2))).1 ∧
      (performCardAction Sample.runNoTab Storage.empty).storage = Storage.empty :=
  ((step_identifying_failure Sample.runNoTab Storage.empty ⟨some (Sample.leaf 1)⟩ [] rfl).2
    (Sample.leaf 1) true rfl rfl).2 (Sample.leaf 2) true rfl rfl |>.1 rfl

/-- The send-control expression on a present card: the named absence is reached
only through three existing first children; a missing one raises a `TypeError`. -/
theorem sendButtonOf_cases (card : Element) :
    (card.children[0]? = none → sendButtonOf (some card) = .error .typeError) ∧
    (∀ a, card.children[0]? = some a → a.children[0]? = none →
      sendButtonOf (some card) = .error .typeError) ∧
    (∀ a b, card.children[0]? = some a → a.children[0]? = some b → b.children[0]? = none →
      sendButtonOf (some card) = .error .typeError) ∧
    (∀ a b c, card.children[0]? = some a → a.children[0]? = some b →
      b.children[0]? = some c → sendButtonOf (some card) = .ok c.children[1]?) := by
  refine ⟨fun h => ?_, fun a h1 h2 => ?_, fun a b h1 h2 h3 => ?_, fun a b c h1 h2 h3 => ?_⟩ <;>
    simp [sendButtonOf, childAt, *]

/-- C16, at the failing input: with every earlier control found and a candidate
list holding one card without children, step 5 raises a `TypeError` from the
send-control expression, not the named failure; the store is as it was. -/
theorem step5_bare_card_typeError :
    Sample.bareContainer.children.length = 1 ∧
    (performCardAction Sample.runBare Sample.manualStale).result = .threw .typeError ∧
    (performCardAction Sample.runBare Sample.manualStale).result ≠ .threw .sendButtonNotFound ∧
    (performCardAction Sample.runBare Sample.manualStale).storage = Sample.manualStale := by
  decide

/-! ## The retry bound and the store -/

namespace World

theorem autoSendCard_maxRetries (w : World) (o : Obs) :
    (w.autoSendCard o).ops.maxRetries = w.ops.maxRetries := by
  unfold autoSendCard
  split
  · simp
  · rw [settle_maxRetries]; simp

theorem step_maxRetries (w : World) (ev : Event) :
    (w.step ev).ops.maxRetries = w.ops.maxRetries := by
  cases ev with
  | tick o => exact autoSendCard_maxRetries w o
  | manual o => exact autoSendCard_maxRetries w o
  | retry i o =>
    simp only [step, fireRetry]
    split
    · rfl
    · exact autoSendCard_maxRetries _ o
  | wake i o =>
    simp only [step, wake]
    split
    · rfl
    · rw [settle_maxRetries]
  | handleError e r => simp [step]
  | setUIManager => rfl
  | setEnabled _ => rfl
  | setAutoInterval _ => rfl
  | setCardSelection _ => rfl
  | setSelectedCardIndex _ => rfl
  | resetCount => simp [step]
  | resetConfig => rfl

/-- The bound of a `CardOperations` object is never written after construction. -/
theorem run_maxRetries (events : List Event) (w : World) :
    (w.run events).ops.maxRetries = w.ops.maxRetries := by
  induction events generalizing w with
  | nil => rfl
  | cons ev rest ih =>
    show ((w.step ev).run rest).ops.maxRetries = w.ops.maxRetries
    rw [ih, step_maxRetries]

end World

/-- C17, as the code has it: the bound `handleError` compares against is the
constant `3` the constructor assigns, whatever the store holds under
`maxRetries`: in any state a fresh `CardOperations` reaches over any store, a
failure with `retryCount + 1 ≤ 3` adds one retry timer and a failure with
`retryCount + 1 > 3` adds none. -/
theorem retry_bound_is_constant (st : Storage) (events : List Event) (e : Failure) (r : Draw) :
    ((World.fresh st).run events).ops.maxRetries = 3 ∧
    (((World.fresh st).run events).ops.retryCount + 1 ≤ 3 →
      (((World.fresh st).run events).handleError e r).retryTimers =
        ((World.fresh st).run events).retryTimers ++ [getRandomDelay r 3000 5000]) ∧
    (3 < ((World.fresh st).run events).ops.retryCount + 1 →
      (((World.fresh st).run events).handleError e r).retryTimers =
        ((World.fresh st).run events).retryTimers) := by
  have hm : ((World.fresh st).run events).ops.maxRetries = 3 :=
    World.run_maxRetries events (World.fresh st)
  refine ⟨hm, fun h => ?_, fun h => ?_⟩
  · simp [World.handleError, World.emit, hm, h]
  · simp [World.handleError, World.emit, hm, Nat.not_le.mpr h]

theorem retry_bound_is_constant_witness :
    ((World.fresh Sample.noRetries).run []).ops.retryCount + 1 ≤ 3 ∧
      (((World.fresh Sample.noRetries).run []).handleError .cardTabNotFound
          Sample.half).retryTimers =
        ((World.fresh Sample.noRetries).run []).retryTimers ++
          [getRandomDelay Sample.half 3000 5000] :=
  ⟨by decide,
    (retry_bound_is_constant Sample.noRetries [] .cardTabNotFound Sample.half).2.1 (by decide)⟩

/-- C17 fails as stated: with `0` stored under `maxRetries`, the first failure
of a fresh `CardOperations` has `retryCount + 1 = 1 > 0`, and yet the failing
call adds a retry timer. -/
theorem stored_maxRetries_not_read :
    Sample.noRetries.getMaxRetries = 0 ∧
    Sample.noRetries.getMaxRetries < (World.fresh Sample.noRetries).ops.retryCount + 1 ∧
    (performCardAction Sample.runNoTab Sample.noRetries).result = .threw .cardTabNotFound ∧
    (World.fresh Sample.noRetries).retryTimers.length = 0 ∧
    ((World.fresh Sample.noRetries).autoSendCardRun Sample.runNoTab).retryTimers.length = 1 := by
  decide

/-! ## Timers and handles in every reachable state -/

namespace System

/-- A state with the same next handle, no new trigger and no new handle keeps its timers in order. -/
theorem timersOk_shrink (s s' : System) (h : s.TimersOk) (hO : s'.Owned)
    (hn : s'.nextTimerId = s.nextTimerId) (hsub : s'.intervals.Sublist s.intervals)
    (hsess : ∀ (j : Nat) (sess' : Session), s'.sessions[j]? = some sess' →
      ∃ sess, s.sessions[j]? = some sess ∧
        (sess'.intervalId = sess.intervalId ∨ sess'.intervalId = none)) :
    s'.TimersOk := by
  obtain ⟨_, h2, h3, h4, h5⟩ := h
  refine ⟨hO, by rw [hn]; exact h2, ?_, ?_, ?_⟩
  · intro t ht
    rw [hn]
    exact h3 t (hsub.subset ht)
  · intro j sess' hj
    obtain ⟨sess, hs, hid | hid⟩ := hsess j sess' hj
    · rw [hid]; exact h4 j sess hs
    · rw [hid]; simp
  · intro j
    exact Nat.le_trans (hsub.filter _).length_le (h5 j)

theorem stop_intervals_sublist (s : System) (k : Nat) :
    (s.stop k).intervals.Sublist s.intervals := by
  unfold stop
  split
  · exact List.Sublist.refl _
  · simp only [updateStatus_intervals]
    split
    · exact List.Sublist.refl _
    · split
      · exact List.Sublist.refl _
      · exact List.filter_sublist _

theorem stop_timersOk (s : System) (k : Nat) (h : s.TimersOk) : (s.stop k).TimersOk := by
  refine timersOk_shrink s _ h (stop_owned s k h.1) (stop_nextTimerId s k)
    (stop_intervals_sublist s k) ?_
  intro j sess' hj
  by_cases hjk : j = k
  · subst hjk
    obtain ⟨sess, hs, _, _, hid⟩ := stop_getElem?_self s j sess' hj
    exact ⟨sess, hs, hid⟩
  · rw [stop_getElem?_ne s k j hjk] at hj
    exact ⟨sess', hj, Or.inl rfl⟩

theorem modifySession_timersOk (s : System) (k : Nat) (f : Session → Session)
    (hf : ∀ sess, (f sess).intervalId = sess.intervalId) (h : s.TimersOk) :
    (s.modifySession k f).TimersOk := by
  refine timersOk_shrink s _ h (modifySession_owned s k f hf h.1) (by simp)
    (by simp) ?_
  intro j sess' hj
  rw [modifySession_getElem?] at hj
  by_cases hjk : j = k
  · subst hjk
    simp only [if_true] at hj
    rcases hq : s.sessions[j]? with _ | q
    · simp [hq] at hj
    · simp only [hq, Option.map_some', Option.some.injEq] at hj
      subst hj
      exact ⟨q, rfl, Or.inl (hf q)⟩
  · simp only [hjk, if_false] at hj
    exact ⟨sess', hj, Or.inl rfl⟩

theorem updateStatus_timersOk (s : System) (k : Nat) (status : String) (h : s.TimersOk) :
    (s.updateStatus k status).TimersOk :=
  timersOk_shrink s _ h (updateStatus_owned s k status h.1) (by simp) (by simp)
    (fun j sess' hj => ⟨sess', by simpa using hj, Or.inl rfl⟩)

theorem setupUI_timersOk (s : System) (k : Nat) (h : s.TimersOk) : (s.setupUI k).TimersOk :=
  modifySession_timersOk s k
    (fun sess => { sess with ui := true, ops := { sess.ops with ui := true } }) (fun _ => rfl) h

theorem initFinish_timersOk (s : System) (k : Nat) (h : s.TimersOk) :
    (s.initFinish k).TimersOk := by
  have h' := modifySession_timersOk s k (fun sess => { sess with isInitialized := true })
    (fun _ => rfl) h
  exact h'

theorem destroy_timersOk (s : System) (k : Nat) (h : s.TimersOk) : (s.destroy k).TimersOk :=
  modifySession_timersOk (s.stop k) k
    (fun sess => { sess with ui := false, isInitialized := false }) (fun _ => rfl)
    (stop_timersOk s k h)

/-- After `stop()` session `k` has no live trigger. -/
theorem stop_triggersOf (s : System) (k : Nat) (hO : s.Owned) : (s.stop k).triggersOf k = [] := by
  unfold triggersOf
  rw [List.filter_eq_nil_iff]
  intro t ht
  simpa using stop_not_owner s k hO t ht

end System

namespace System

theorem startAutoMode_timersOk (s : System) (k : Nat) (h : s.TimersOk) :
    (s.startAutoMode k).TimersOk := by
  rcases hk : s.sessions[k]? with _ | sess
  · rw [startAutoMode_absent s k hk]; exact h
  · have hstop := stop_timersOk s k h
    have hO' := startAutoMode_owned s k h.1 h.2.1
    have hn' := startAutoMode_nextTimerId s k h.2.1
    rcases startAutoMode_cases s k sess hk with ⟨st, heq⟩ | ⟨st, ms, heq⟩
    · rw [heq]; exact updateStatus_timersOk _ _ _ hstop
    · rw [heq] at hO' hn' ⊢
      obtain ⟨_, g2, g3, g4, g5⟩ := hstop
      refine ⟨hO', hn', ?_, ?_, ?_⟩
      · intro t ht
        simp only [updateStatus_intervals, updateStatus_nextTimerId, List.mem_append,
          List.mem_singleton] at ht ⊢
        rcases ht with ht | ht
        · exact Nat.lt_succ_of_lt (g3 t ht)
        · subst ht; exact Nat.lt_succ_self _
      · intro j q hj
        simp only [updateStatus_sessions, modifySession_getElem?] at hj
        by_cases hjk : j = k
        · subst hjk
          simp only [if_true] at hj
          rcases hq : (s.stop j).sessions[j]? with _ | p
          · simp [hq] at hj
          · simp only [hq, Option.map_some', Option.some.injEq] at hj
            subst hj
            simpa using g2
        · simp only [hjk, if_false] at hj
          exact g4 j q hj
      · intro j
        simp only [triggersOf, updateStatus_intervals, List.filter_append, List.length_append]
        by_cases hjk : j = k
        · subst hjk
          have h0 := stop_triggersOf s j h.1
          simp only [triggersOf] at h0
          simp [h0]
        · have hle := g5 j
          simp only [triggersOf] at hle
          simpa [List.filter_cons, Ne.symm hjk] using hle

theorem foldl_timersOk (g : System → Nat → System) (hg : ∀ s k, s.TimersOk → (g s k).TimersOk)
    (ks : List Nat) (s : System) (h : s.TimersOk) : (ks.foldl g s).TimersOk := by
  induction ks generalizing s with
  | nil => exact h
  | cons k rest ih => exact ih _ (hg s k h)

theorem initAfterLoad_timersOk (s : System) (ks : List Nat) (h : s.TimersOk) :
    (s.initAfterLoad ks).TimersOk := by
  unfold initAfterLoad
  exact foldl_timersOk _ initFinish_timersOk ks _
    (foldl_timersOk _ startAutoMode_timersOk ks _ (foldl_timersOk _ setupUI_timersOk ks _ h))

theorem init_timersOk (s : System) (k : Nat) (h : s.TimersOk) : (s.init k).TimersOk := by
  unfold init
  split
  · exact h
  · split
    · exact h
    · split
      · exact initAfterLoad_timersOk s [k] h
      · exact h

theorem load_timersOk (s : System) (h : s.TimersOk) : s.load.TimersOk :=
  initAfterLoad_timersOk _ _ h

/-- A method of `CardOperations` changes no trigger and no handle. -/
theorem onCard_timersOk (s : System) (k : Nat) (f : World → World) (h : s.TimersOk) :
    (s.onCard k f).TimersOk := by
  unfold onCard
  rcases hk : s.sessions[k]? with _ | sess
  · exact h
  · exact modifySession_timersOk s k
      (fun q =>
        { q with
          ops := (f { ops := sess.ops, storage := s.storage, suspended := sess.suspended,
                      retryTimers := sess.retryTimers, effects := s.effects }).ops
          suspended := (f { ops := sess.ops, storage := s.storage, suspended := sess.suspended,
                            retryTimers := sess.retryTimers, effects := s.effects }).suspended
          retryTimers := (f { ops := sess.ops, storage := s.storage,
                              suspended := sess.suspended, retryTimers := sess.retryTimers,
                              effects := s.effects }).retryTimers })
      (fun _ => rfl) h |> fun h' => by
        simp only [modifySession, hk] at h'
        exact h'

end System

namespace System

/-- A newly constructed session holds no handle and runs no trigger. -/
theorem newSession_timersOk (s : System) (h : s.TimersOk) :
    System.TimersOk { s with sessions := s.sessions ++ [Session.new] } := by
  obtain ⟨h1, h2, h3, h4, h5⟩ := h
  refine ⟨?_, h2, h3, ?_, h5⟩
  · intro t ht
    obtain ⟨hne, sess, hsess, hid⟩ := h1 t ht
    refine ⟨hne, sess, ?_, hid⟩
    have hlt : t.owner < s.sessions.length := by
      rcases Nat.lt_or_ge t.owner s.sessions.length with hlt | hge
      · exact hlt
      · rw [List.getElem?_eq_none hge] at hsess; cases hsess
    simp only
    rw [List.getElem?_append_left hlt]
    exact hsess
  · intro j q hj
    simp only at hj
    rcases Nat.lt_trichotomy j s.sessions.length with hlt | heq | hgt
    · rw [List.getElem?_append_left hlt] at hj
      exact h4 j q hj
    · subst heq
      simp at hj
      subst hj
      simp [Session.new]
    · rw [List.getElem?_eq_none (by simp; omega)] at hj
      cases hj

theorem handleUrlChange_timersOk (s : System) (h : s.TimersOk) : s.handleUrlChange.TimersOk := by
  unfold handleUrlChange
  split
  · split
    · exact newSession_timersOk s h
    · exact h
  · split
    · exact destroy_timersOk s _ h
    · exact h

theorem checkURL_timersOk (s : System) (h : s.TimersOk) : s.checkURL.TimersOk := by
  by_cases hu : s.href = s.currentUrl
  · by_cases hn : isTargetUrl s.href = true ∧ s.app = none
    · rw [checkURL_missed s hu hn.1 hn.2]
      exact handleUrlChange_timersOk s h
    · rw [checkURL_same s hu hn]
      exact h
  · rw [checkURL_changed s hu]
    exact handleUrlChange_timersOk { s with currentUrl := s.href } h

theorem watcherStop_timersOk (s : System) (h : s.TimersOk) : s.watcherStop.TimersOk := by
  unfold watcherStop
  split
  · exact destroy_timersOk s _ h
  · exact h

theorem fireInit_timersOk (s : System) (h : s.TimersOk) : s.fireInit.TimersOk := by
  unfold fireInit
  split
  · exact h
  · simp only
    split
    · exact h
    · exact init_timersOk { s with initTimers := s.initTimers - 1 } _ h

theorem fireStart_timersOk (s : System) (i : Nat) (h : s.TimersOk) :
    (s.fireStart i).TimersOk := by
  unfold fireStart
  split
  · exact h
  · exact startAutoMode_timersOk { s with startTimers := s.startTimers.eraseIdx i } _ h

theorem fireRestart_timersOk (s : System) (i : Nat) (h : s.TimersOk) :
    (s.fireRestart i).TimersOk := by
  unfold fireRestart
  split
  · exact h
  · exact init_timersOk { s with restartTimers := s.restartTimers.eraseIdx i } _ h

theorem tick_timersOk (s : System) (id : Nat) (o : Obs) (h : s.TimersOk) :
    (s.tick id o).TimersOk := by
  unfold tick
  split
  · exact h
  · split
    · exact onCard_timersOk s _ _ h
    · exact stop_timersOk s _ h

theorem onPanel_timersOk (s : System) (k : Nat) (f : System → System)
    (hf : ∀ s, s.TimersOk → (f s).TimersOk) (h : s.TimersOk) : (s.onPanel k f).TimersOk := by
  unfold onPanel
  split
  · exact h
  · split
    · exact hf s h
    · exact h

/-- Every operation of the page keeps the timers in order. -/
theorem step_timersOk (s : System) (op : Op) (h : s.TimersOk) : (s.step op).TimersOk := by
  cases op with
  | navigate href => exact h
  | load => exact load_timersOk s h
  | checkURL => exact checkURL_timersOk s h
  | watcherStop => exact watcherStop_timersOk s h
  | fireInit => exact fireInit_timersOk s h
  | fireStart i => exact fireStart_timersOk s i h
  | fireRestart i => exact fireRestart_timersOk s i h
  | tick id o => exact tick_timersOk s id o h
  | init k => exact init_timersOk s k h
  | startAutoMode k => exact startAutoMode_timersOk s k h
  | stop k => exact stop_timersOk s k h
  | destroy k => exact destroy_timersOk s k h
  | restart k => exact destroy_timersOk s k h
  | autoSendCard k o => exact onCard_timersOk s k _ h
  | wake k i o => exact onCard_timersOk s k _ h
  | retry k i o => exact onCard_timersOk s k _ h
  | handleError k e r => exact onCard_timersOk s k _ h
  | getCardList k page => exact h
  | setEnabled k checked => exact onPanel_timersOk s k _ (fun _ h => h) h
  | setAutoInterval k seconds =>
    refine onPanel_timersOk s k _ (fun s h => ?_) h
    simp only
    split <;> exact h
  | setCardSelection k value => exact onPanel_timersOk s k _ (fun _ h => h) h
  | setSelectedCardIndex k value => exact onPanel_timersOk s k _ (fun _ h => h) h
  | refreshCardList k page => exact onPanel_timersOk s k _ (fun _ h => h) h
  | manualSend k o => exact onPanel_timersOk s k _ (fun s h => onCard_timersOk s k _ h) h
  | togglePanel k => exact onPanel_timersOk s k _ (fun _ h => h) h
  | resetCount k => exact onPanel_timersOk s k _ (fun _ h => h) h
  | resetConfig => exact h

theorem run_timersOk (ops : List Op) (s : System) (h : s.TimersOk) : (s.run ops).TimersOk := by
  induction ops generalizing s with
  | nil => exact h
  | cons op rest ih => exact ih _ (step_timersOk s op h)

theorem initial_timersOk (href currentUrl : String) (complete : Bool) (st : Storage) :
    (initial href currentUrl complete st).TimersOk := by
  refine ⟨(initial_inv href currentUrl complete st).1, by simp [initial], ?_, ?_, ?_⟩
  · intro t ht; simp [initial] at ht
  · intro k sess hk; simp [initial] at hk
  · intro k; simp [initial, triggersOf]

end System

/-! ## startAutoMode and stop -/

namespace System

/-- After `stop()` the handle of session `k` is null, when it did not hold the handle zero. -/
theorem stop_handle (s : System) (k : Nat) (q : Session)
    (h0 : ∀ sess, s.sessions[k]? = some sess → sess.intervalId ≠ some 0)
    (hq : (s.stop k).sessions[k]? = some q) : q.intervalId = none := by
  unfold stop at hq
  rcases hk : s.sessions[k]? with _ | sess
  · simp [hk] at hq
  · have hlt : k < s.sessions.length := by
      rcases Nat.lt_or_ge k s.sessions.length with hlt | hge
      · exact hlt
      · rw [List.getElem?_eq_none hge] at hk; cases hk
    simp only [hk, updateStatus_sessions] at hq
    rcases hid : sess.intervalId with _ | id
    · simp only [hid] at hq
      rw [hk] at hq
      cases hq
      exact hid
    · have hne : id ≠ 0 := fun h => h0 sess hk (by rw [hid, h])
      simp only [hid, hne, if_false] at hq
      simp [List.getElem?_set, hlt] at hq
      subst hq
      rfl

/-- With the flag set and the page matching, `startAutoMode()` stops and starts a trigger. -/
theorem startAutoMode_started (s : System) (k : Nat) (sess : Session)
    (hk : s.sessions[k]? = some sess) (he : s.storage.getEnabled = true)
    (ht : isTargetPage s.href = true) :
    s.startAutoMode k =
      System.updateStatus
        { ((s.stop k).modifySession k fun q => { q with intervalId := some s.nextTimerId }) with
          intervals := (s.stop k).intervals ++ [Interval.mk s.nextTimerId k s.storage.getAutoInterval]
          nextTimerId := s.nextTimerId + 1 } k "自动模式运行中" := by
  simp [startAutoMode, hk, he, ht]

/-- Otherwise `startAutoMode()` only stops. -/
theorem startAutoMode_skipped (s : System) (k : Nat) (sess : Session)
    (hk : s.sessions[k]? = some sess)
    (h : ¬ (s.storage.getEnabled = true ∧ isTargetPage s.href = true)) :
    ∃ status, s.startAutoMode k = (s.stop k).updateStatus k status := by
  by_cases he : s.storage.getEnabled = true
  · have ht : isTargetPage s.href = false := by
      cases hx : isTargetPage s.href
      · rfl
      · exact absurd ⟨he, hx⟩ h
    exact ⟨"当前页面不是目标页面", by simp [startAutoMode, hk, he, ht]⟩
  · have he' : s.storage.getEnabled = false := by
      cases hx : s.storage.getEnabled
      · rfl
      · exact absurd hx he
    exact ⟨"自动模式已禁用", by simp [startAutoMode, hk, he']⟩

/-- What `startAutoMode()` of an existing session leaves, in a page whose timers are in order. -/
theorem startAutoMode_spec (s : System) (k : Nat) (sess : Session) (h : s.TimersOk)
    (hk : s.sessions[k]? = some sess) :
    (∀ t ∈ s.intervals, t.owner = k → t ∉ (s.startAutoMode k).intervals) ∧
    (s.storage.getEnabled = true ∧ isTargetPage s.href = true →
      (s.startAutoMode k).triggersOf k =
        [Interval.mk s.nextTimerId k s.storage.getAutoInterval] ∧
      ∃ q, (s.startAutoMode k).sessions[k]? = some q ∧ q.intervalId = some s.nextTimerId) ∧
    (¬ (s.storage.getEnabled = true ∧ isTargetPage s.href = true) →
      (s.startAutoMode k).triggersOf k = [] ∧
      ∃ q, (s.startAutoMode k).sessions[k]? = some q ∧ q.intervalId = none) := by
  obtain ⟨q0, hq0⟩ := getElem?_of_length_eq (stop_sessions_length s k).symm k sess hk
  have hnone : (s.stop k).triggersOf k = [] := stop_triggersOf s k h.1
  refine ⟨?_, ?_, ?_⟩
  · intro t ht hown hmem
    by_cases hc : s.storage.getEnabled = true ∧ isTargetPage s.href = true
    · rw [startAutoMode_started s k sess hk hc.1 hc.2] at hmem
      simp only [updateStatus_intervals, List.mem_append, List.mem_singleton] at hmem
      rcases hmem with hmem | hmem
      · exact stop_not_owner s k h.1 t hmem hown
      · have := h.2.2.1 t ht
        rw [hmem] at this
        exact Nat.lt_irrefl _ this
    · obtain ⟨status, heq⟩ := startAutoMode_skipped s k sess hk hc
      rw [heq] at hmem
      exact stop_not_owner s k h.1 t (by simpa using hmem) hown
  · rintro ⟨he, ht⟩
    rw [startAutoMode_started s k sess hk he ht]
    constructor
    · simp only [triggersOf] at hnone
      simp [triggersOf, List.filter_append, hnone]
    · simp only [updateStatus_sessions, modifySession_getElem?, if_true, hq0, Option.map_some']
      exact ⟨_, rfl, rfl⟩
  · intro hc
    obtain ⟨status, heq⟩ := startAutoMode_skipped s k sess hk hc
    rw [heq]
    constructor
    · simpa [triggersOf] using hnone
    · simp only [updateStatus_sessions]
      exact ⟨q0, hq0, stop_handle s k q0 (fun p hp => h.2.2.2.1 k p hp) hq0⟩

end System

/-- C11. The postcondition of `startAutoMode`: in any state the page reaches from
the watcher's initial state under any operations, for an existing session,
after `startAutoMode` no trigger the session had before is live; when `enabled`
reads true and the address matches the target, the session has exactly one live
trigger, with the next timer handle and the configured `autoInterval`, and holds
that handle; otherwise it has no live trigger and its handle is null; and in
every such state no session has two live triggers. -/
theorem startAutoMode_postcondition (href currentUrl : String) (complete : Bool)
    (st : Storage) (ops : List Op) (k : Nat) (sess : Session)
    (hk : ((System.initial href currentUrl complete st).run ops).sessions[k]? = some sess) :
    (∀ t ∈ ((System.initial href currentUrl complete st).run ops).intervals, t.owner = k →
      t ∉ (((System.initial href currentUrl complete st).run ops).startAutoMode k).intervals) ∧
    (((System.initial href currentUrl complete st).run ops).storage.getEnabled = true ∧
        isTargetPage ((System.initial href currentUrl complete st).run ops).href = true →
      (((System.initial href currentUrl complete st).run ops).startAutoMode k).triggersOf k =
        [Interval.mk ((System.initial href currentUrl complete st).run ops).nextTimerId k
          ((System.initial href currentUrl complete st).run ops).storage.getAutoInterval] ∧
      ∃ q, (((System.initial href currentUrl complete st).run ops).startAutoMode k).sessions[k]?
          = some q ∧
        q.intervalId = some ((System.initial href currentUrl complete st).run ops).nextTimerId) ∧
    (¬ (((System.initial href currentUrl complete st).run ops).storage.getEnabled = true ∧
        isTargetPage ((System.initial href currentUrl complete st).run ops).href = true) →
      (((System.initial href currentUrl complete st).run ops).startAutoMode k).triggersOf k = [] ∧
      ∃ q, (((System.initial href currentUrl complete st).run ops).startAutoMode k).sessions[k]?
          = some q ∧ q.intervalId = none) ∧
    (∀ j, ((((System.initial href currentUrl complete st).run ops).startAutoMode k).triggersOf
      j).length ≤ 1) ∧
    ∀ j, (((System.initial href currentUrl complete st).run ops).triggersOf j).length ≤ 1 := by
  have hinv := System.run_timersOk ops _ (System.initial_timersOk href currentUrl complete st)
  obtain ⟨h1, h2, h3⟩ := System.startAutoMode_spec _ k sess hinv hk
  exact ⟨h1, h2, h3, (System.startAutoMode_timersOk _ k hinv).2.2.2.2, hinv.2.2.2.2⟩

theorem startAutoMode_postcondition_witness :
    ((System.initial targetUrlPattern targetUrlPattern true Storage.empty).run
        [.checkURL]).sessions[0]? = some Session.new ∧
    (((System.initial targetUrlPattern targetUrlPattern true Storage.empty).run
        [.checkURL]).startAutoMode 0).triggersOf 0 =
      [Interval.mk
        ((System.initial targetUrlPattern targetUrlPattern true Storage.empty).run
          [.checkURL]).nextTimerId 0
        ((System.initial targetUrlPattern targetUrlPattern true Storage.empty).run
          [.checkURL]).storage.getAutoInterval] :=
  ⟨rfl,
    ((startAutoMode_postcondition targetUrlPattern targetUrlPattern true Storage.empty
      [.checkURL] 0 Session.new rfl).2.1 ⟨by decide, by decide⟩).1⟩

namespace System

/-- With a null handle `stop()` only writes its status line. -/
theorem stop_of_handle_none (s : System) (k : Nat) (q : Session)
    (hq : s.sessions[k]? = some q) (hid : q.intervalId = none) :
    s.stop k = s.updateStatus k "已停止" := by
  simp [stop, hq, hid]

/-- A second `stop()` right after a first changes no session, no trigger and no handle counter. -/
theorem stop_stop (s : System) (k : Nat) :
    ((s.stop k).stop k).sessions = (s.stop k).sessions ∧
    ((s.stop k).stop k).intervals = (s.stop k).intervals ∧
    ((s.stop k).stop k).nextTimerId = (s.stop k).nextTimerId := by
  rcases hk : s.sessions[k]? with _ | sess
  · have h1 : s.stop k = s := by simp [stop, hk]
    rw [h1, h1]
    exact ⟨rfl, rfl, rfl⟩
  · have hlt : k < s.sessions.length := by
      rcases Nat.lt_or_ge k s.sessions.length with hlt | hge
      · exact hlt
      · rw [List.getElem?_eq_none hge] at hk; cases hk
    rcases hid : sess.intervalId with _ | id
    · have h1 : s.stop k = s.updateStatus k "已停止" := by simp [stop, hk, hid]
      have h2 : (s.updateStatus k "已停止").stop k =
          (s.updateStatus k "已停止").updateStatus k "已停止" := by
        simp [stop, hk, hid]
      rw [h1, h2]
      simp
    · by_cases h0 : id = 0
      · have h1 : s.stop k = s.updateStatus k "已停止" := by simp [stop, hk, hid, h0]
        have h2 : (s.updateStatus k "已停止").stop k =
            (s.updateStatus k "已停止").updateStatus k "已停止" := by
          simp [stop, hk, hid, h0]
        rw [h1, h2]
        simp
      · have hq : (s.stop k).sessions[k]? = some { sess with intervalId := none } := by
          simp [stop, hk, hid, h0, List.getElem?_set, hlt]
        rw [stop_of_handle_none (s.stop k) k _ hq rfl]
        simp

end System

/-- C12. `stop` is idempotent: for every state of the page and every session, a
second `stop()` right after a first leaves the sessions with their handles, the
set of live triggers and the handle counter as the first left them, so it
cancels nothing; and in any state the page reaches from the watcher's initial
state, after `stop()` the session's `intervalId` is null. -/
theorem stop_idempotent :
    (∀ (s : System) (k : Nat),
      ((s.stop k).stop k).sessions = (s.stop k).sessions ∧
      ((s.stop k).stop k).intervals = (s.stop k).intervals ∧
      ((s.stop k).stop k).nextTimerId = (s.stop k).nextTimerId) ∧
    ∀ (href currentUrl : String) (complete : Bool) (st : Storage) (ops : List Op) (k : Nat)
      (q : Session),
      (((System.initial href currentUrl complete st).run ops).stop k).sessions[k]? = some q →
      q.intervalId = none ∧
      ((((System.initial href currentUrl complete st).run ops).stop k).stop k).sessions[k]?
        = some q := by
  refine ⟨System.stop_stop, ?_⟩
  intro href currentUrl complete st ops k q hq
  have hinv := System.run_timersOk ops _ (System.initial_timersOk href currentUrl complete st)
  refine ⟨System.stop_handle _ k q (fun p hp => hinv.2.2.2.1 k p hp) hq, ?_⟩
  rw [(System.stop_stop _ k).1]
  exact hq

theorem stop_idempotent_witness :
    (((System.initial targetUrlPattern targetUrlPattern true Storage.empty).run
        [.checkURL, .fireInit]).stop 0).intervals = [] ∧
    ((((System.initial targetUrlPattern targetUrlPattern true Storage.empty).run
        [.checkURL, .fireInit]).stop 0).stop 0).intervals =
      (((System.initial targetUrlPattern targetUrlPattern true Storage.empty).run
        [.checkURL, .fireInit]).stop 0).intervals :=
  ⟨by decide, (stop_idempotent.1 _ 0).2.1⟩

/-! ## Teardown and re-entry -/

namespace System

theorem onCard_app (s : System) (k : Nat) (f : World → World) : (s.onCard k f).app = s.app := by
  unfold onCard; split <;> rfl

theorem onCard_currentUrl (s : System) (k : Nat) (f : World → World) :
    (s.onCard k f).currentUrl = s.currentUrl := by
  unfold onCard; split <;> rfl

theorem onPanel_appOnTarget (s : System) (k : Nat) (f : System → System)
    (hf : ∀ s, s.AppOnTarget → (f s).AppOnTarget) (h : s.AppOnTarget) :
    (s.onPanel k f).AppOnTarget := by
  unfold onPanel
  split
  · exact h
  · split
    · exact hf s h
    · exact h

/-- A state holding the same session for the same remembered address. -/
theorem appOnTarget_of_eq (s s' : System) (h : s.AppOnTarget) (ha : s'.app = s.app)
    (hc : s'.currentUrl = s.currentUrl) : s'.AppOnTarget := by
  intro happ
  rw [hc]
  exact h (by rwa [ha] at happ)

/-- Every operation of the page keeps the held session on a matching remembered address. -/
theorem step_appOnTarget (s : System) (op : Op) (h : s.AppOnTarget) :
    (s.step op).AppOnTarget := by
  cases op with
  | navigate href => exact h
  | load => exact appOnTarget_of_eq s _ h (by simp [step]) (by simp [step])
  | checkURL => exact checkURL_appOnTarget s h
  | watcherStop =>
    intro happ
    simp only [step, watcherStop] at happ ⊢
    split at happ
    · exact absurd rfl happ
    · rename_i hnone
      exact absurd hnone happ
  | fireInit => exact appOnTarget_of_eq s _ h (by simp [step]) (by simp [step])
  | fireStart i =>
    refine appOnTarget_of_eq s _ h ?_ ?_ <;>
      (simp only [step, fireStart]; split <;> simp)
  | fireRestart i =>
    refine appOnTarget_of_eq s _ h ?_ ?_ <;>
      (simp only [step, fireRestart]; split <;> simp)
  | tick id o =>
    refine appOnTarget_of_eq s _ h ?_ ?_ <;>
      (simp only [step, tick]; split
       · rfl
       · split <;> simp [onCard_app, onCard_currentUrl])
  | init k => exact appOnTarget_of_eq s _ h (by simp [step]) (by simp [step])
  | startAutoMode k => exact appOnTarget_of_eq s _ h (by simp [step]) (by simp [step])
  | stop k => exact appOnTarget_of_eq s _ h (by simp [step]) (by simp [step])
  | destroy k => exact appOnTarget_of_eq s _ h (by simp [step]) (by simp [step])
  | restart k => exact appOnTarget_of_eq s _ h (by simp [step, restart]) (by simp [step, restart])
  | autoSendCard k o => exact appOnTarget_of_eq s _ h (onCard_app s k _) (onCard_currentUrl s k _)
  | wake k i o => exact appOnTarget_of_eq s _ h (onCard_app s k _) (onCard_currentUrl s k _)
  | retry k i o => exact appOnTarget_of_eq s _ h (onCard_app s k _) (onCard_currentUrl s k _)
  | handleError k e r =>
    exact appOnTarget_of_eq s _ h (onCard_app s k _) (onCard_currentUrl s k _)
  | getCardList k page => exact h
  | setEnabled k checked => exact onPanel_appOnTarget s k _ (fun _ h => h) h
  | setAutoInterval k seconds =>
    refine onPanel_appOnTarget s k _ (fun s h => ?_) h
    simp only
    split <;> exact h
  | setCardSelection k value => exact onPanel_appOnTarget s k _ (fun _ h => h) h
  | setSelectedCardIndex k value => exact onPanel_appOnTarget s k _ (fun _ h => h) h
  | refreshCardList k page => exact onPanel_appOnTarget s k _ (fun _ h => h) h
  | manualSend k o =>
    exact onPanel_appOnTarget s k _
      (fun s h => appOnTarget_of_eq s _ h (onCard_app s k _) (onCard_currentUrl s k _)) h
  | togglePanel k => exact onPanel_appOnTarget s k _ (fun _ h => h) h
  | resetCount k => exact onPanel_appOnTarget s k _ (fun _ h => h) h
  | resetConfig => exact h

theorem run_appOnTarget (ops : List Op) (s : System) (h : s.AppOnTarget) :
    (s.run ops).AppOnTarget := by
  induction ops generalizing s with
  | nil => exact h
  | cons op rest ih => exact ih _ (step_appOnTarget s op h)

/-- The monitor's events do not write the store. -/
theorem run_monitor_storage (events : List MonitorEvent) (s : System) :
    (s.run (events.map MonitorEvent.toOp)).storage = s.storage := by
  induction events generalizing s with
  | nil => rfl
  | cons ev rest ih =>
    show ((s.step ev.toOp).run (rest.map MonitorEvent.toOp)).storage = s.storage
    rw [ih]
    cases ev <;> simp [MonitorEvent.toOp, step]

/-- The check that finds the address off the pattern while a session is held destroys it. -/
theorem checkURL_leave (s : System) (k : Nat) (h : s.AppOnTarget) (happ : s.app = some k)
    (hleft : isTargetUrl s.href = false) :
    s.checkURL = { System.destroy { s with currentUrl := s.href } k with app := none } := by
  have hne : s.href ≠ s.currentUrl := by
    intro heq
    have ht := h (by rw [happ]; simp)
    rw [← heq, hleft] at ht
    cases ht
  rw [checkURL_changed s hne]
  simp [handleUrlChange, hleft, happ]

/-- The check that finds the address on the pattern with no session held constructs one. -/
theorem checkURL_enter (s : System) (happ : s.app = none) (ht : isTargetUrl s.href = true) :
    s.checkURL.app = some s.sessions.length ∧
    s.checkURL.sessions = s.sessions ++ [Session.new] ∧
    s.checkURL.storage = s.storage := by
  by_cases hu : s.href = s.currentUrl
  · rw [checkURL_missed s hu ht happ]
    simp [handleUrlChange, ht, happ]
  · rw [checkURL_changed s hu]
    simp [handleUrlChange, ht, happ]

end System

namespace World

/-- The entry of `autoSendCard` does not write the store. -/
theorem autoSendCard_storage (w : World) (o : Obs) : (w.autoSendCard o).storage = w.storage := by
  unfold autoSendCard
  split
  · simp
  · rw [settle_storage]
    simpa using segment_storage .step1 o w.storage (by decide)

theorem fireRetry_storage (w : World) (i : Nat) (o : Obs) :
    (w.fireRetry i o).storage = w.storage := by
  unfold fireRetry
  split
  · rfl
  · exact autoSendCard_storage { w with retryTimers := w.retryTimers.eraseIdx i } o

end World

namespace System

theorem onCard_storage (s : System) (k : Nat) (f : World → World)
    (hf : ∀ w, (f w).storage = w.storage) : (s.onCard k f).storage = s.storage := by
  unfold onCard
  split
  · rfl
  · rename_i sess _
    exact hf { ops := sess.ops, storage := s.storage, suspended := sess.suspended,
               retryTimers := sess.retryTimers, effects := s.effects }

theorem onPanel_sentCount_eq (s : System) (k : Nat) (f : System → System)
    (hf : ∀ s, (f s).storage.getSentCount = s.storage.getSentCount) :
    (s.onPanel k f).storage.getSentCount = s.storage.getSentCount := by
  unfold onPanel
  split
  · rfl
  · split
    · exact hf s
    · rfl

/-- Only the wake-up of a parked run and the two resets change what the counter reads. -/
theorem step_sentCount_eq (s : System) (op : Op) (hop : op.mayWriteCount = false) :
    (s.step op).storage.getSentCount = s.storage.getSentCount := by
  cases op with
  | navigate href => rfl
  | load => simp [System.step]
  | checkURL => simp [System.step]
  | watcherStop => simp [System.step]
  | fireInit => simp [System.step]
  | fireStart i => simp [System.step]
  | fireRestart i => simp [System.step]
  | tick id o =>
    simp only [System.step, tick]
    split
    · rfl
    · split
      · rw [onCard_storage s _ _ fun w => World.autoSendCard_storage w o]
      · simp
  | init k => simp [System.step]
  | startAutoMode k => simp [System.step]
  | stop k => simp [System.step]
  | destroy k => simp [System.step]
  | restart k => simp [System.step]
  | autoSendCard k o =>
    exact congrArg _ (onCard_storage s k _ fun w => World.autoSendCard_storage w o)
  | wake k i o => simp [Op.mayWriteCount] at hop
  | retry k i o =>
    exact congrArg _ (onCard_storage s k _ fun w => World.fireRetry_storage w i o)
  | handleError k e r => exact congrArg _ (onCard_storage s k _ fun w => by simp)
  | getCardList k page => rfl
  | setEnabled k checked => exact onPanel_sentCount_eq s k _ fun s => rfl
  | setAutoInterval k seconds =>
    refine onPanel_sentCount_eq s k _ fun s => ?_
    simp only
    split <;> rfl
  | setCardSelection k value => exact onPanel_sentCount_eq s k _ fun s => rfl
  | setSelectedCardIndex k value => exact onPanel_sentCount_eq s k _ fun s => rfl
  | refreshCardList k page => exact onPanel_sentCount_eq s k _ fun s => rfl
  | manualSend k o =>
    exact onPanel_sentCount_eq s k _ fun s =>
      congrArg _ (onCard_storage s k _ fun w => World.autoSendCard_storage w o)
  | togglePanel k => exact onPanel_sentCount_eq s k _ fun s => rfl
  | resetCount k => simp [Op.mayWriteCount] at hop
  | resetConfig => simp [Op.mayWriteCount] at hop

theorem run_sentCount_eq (ops : List Op) (s : System)
    (h : ∀ op ∈ ops, op.mayWriteCount = false) :
    (s.run ops).storage.getSentCount = s.storage.getSentCount := by
  induction ops generalizing s with
  | nil => rfl
  | cons op rest ih =>
    show ((s.step op).run rest).storage.getSentCount = s.storage.getSentCount
    rw [ih _ fun o ho => h o (List.mem_cons_of_mem _ ho)]
    exact step_sentCount_eq s op (h op (List.mem_cons_self _ _))

theorem run_sentCount_le (ops : List Op) (s : System) (h : ∀ op ∈ ops, op.isReset = false) :
    s.storage.getSentCount ≤ (s.run ops).storage.getSentCount := by
  induction ops generalizing s with
  | nil => exact Nat.le_refl _
  | cons op rest ih =>
    show s.storage.getSentCount ≤ ((s.step op).run rest).storage.getSentCount
    exact Nat.le_trans (step_sentCount_le s op (h op (List.mem_cons_self _ _)))
      (ih _ fun o ho => h o (List.mem_cons_of_mem _ ho))

/-- No event of the monitor writes the counter. -/
theorem toOp_mayWriteCount (ev : MonitorEvent) : ev.toOp.mayWriteCount = false := by
  cases ev <;> rfl

end System

/-- C13, as the code has it. Session teardown and re-entry: in any state the
page reaches from the watcher's initial state, when a session is held and the
address does not match the pattern, the next `checkURL` leaves no session held,
the former session not initialized and without a live trigger, and the store
unchanged; and when, after any further operations of the page, the address
matches with no session held, the next `checkURL` constructs a session whose
`CardOperations` has `retryCount = 0` and `isRunning = false`; the stored
`sentCount` then reads as it did before the teardown when no parked run woke up
and no reset intent occurred in between, as it does when only the monitor's
events occurred; and it reads at least as much when no reset intent occurred. -/
theorem teardown_and_reentry (href currentUrl : String) (complete : Bool) (st : Storage)
    (ops : List Op) (k : Nat)
    (happ : ((System.initial href currentUrl complete st).run ops).app = some k)
    (hleft : isTargetUrl ((System.initial href currentUrl complete st).run ops).href = false) :
    (((System.initial href currentUrl complete st).run ops).checkURL.app = none ∧
      ((System.initial href currentUrl complete st).run ops).checkURL.live k = false ∧
      ((System.initial href currentUrl complete st).run ops).checkURL.triggersOf k = [] ∧
      ((System.initial href currentUrl complete st).run ops).checkURL.storage =
        ((System.initial href currentUrl complete st).run ops).storage) ∧
    ∀ mid : List Op,
      (((System.initial href currentUrl complete st).run ops).checkURL.run mid).app = none →
      isTargetUrl (((System.initial href currentUrl complete st).run ops).checkURL.run
        mid).href = true →
      (∃ q,
        (((System.initial href currentUrl complete st).run ops).checkURL.run mid).checkURL.app =
          some (((System.initial href currentUrl complete st).run ops).checkURL.run
            mid).sessions.length ∧
        (((System.initial href currentUrl complete st).run ops).checkURL.run
          mid).checkURL.sessions[
            (((System.initial href currentUrl complete st).run ops).checkURL.run
              mid).sessions.length]? = some q ∧
        q.ops.retryCount = 0 ∧ q.ops.isRunning = false) ∧
      ((∀ op ∈ mid, op.mayWriteCount = false) →
        (((System.initial href currentUrl complete st).run ops).checkURL.run
          mid).checkURL.storage.getSentCount =
          ((System.initial href currentUrl complete st).run ops).storage.getSentCount) ∧
      ((∃ events : List MonitorEvent, mid = events.map MonitorEvent.toOp) →
        (((System.initial href currentUrl complete st).run ops).checkURL.run
          mid).checkURL.storage.getSentCount =
          ((System.initial href currentUrl complete st).run ops).storage.getSentCount) ∧
      ((∀ op ∈ mid, op.isReset = false) →
        ((System.initial href currentUrl complete st).run ops).storage.getSentCount ≤
          (((System.initial href currentUrl complete st).run ops).checkURL.run
            mid).checkURL.storage.getSentCount) := by
  have hT := System.run_timersOk ops _ (System.initial_timersOk href currentUrl complete st)
  have hA : ((System.initial href currentUrl complete st).run ops).AppOnTarget :=
    System.run_appOnTarget ops _ (fun h => absurd rfl h)
  generalize (System.initial href currentUrl complete st).run ops = s at happ hleft hT hA ⊢
  have hleave := System.checkURL_leave s k hA happ hleft
  have hO : System.Owned { s with currentUrl := s.href } := hT.1
  have hst : s.checkURL.storage = s.storage := by rw [hleave]; simp
  refine ⟨⟨by rw [hleave], ?_, ?_, hst⟩, ?_⟩
  · rw [hleave]
    cases hl : System.live
      { System.destroy { s with currentUrl := s.href } k with app := none } k
    · rfl
    · have hl' : (System.destroy { s with currentUrl := s.href } k).live k = true := hl
      exact absurd rfl (System.destroy_live _ k k hO hl').2
  · rw [hleave]
    have h0 := System.stop_triggersOf { s with currentUrl := s.href } k hO
    simpa [System.triggersOf, System.destroy] using h0
  · intro mid hnone ht
    obtain ⟨h1, h2, h3⟩ := System.checkURL_enter _ hnone ht
    have hquiet : (∀ op ∈ mid, op.mayWriteCount = false) →
        (s.checkURL.run mid).checkURL.storage.getSentCount = s.storage.getSentCount := by
      intro hmid
      rw [h3, System.run_sentCount_eq mid _ hmid, hst]
    refine ⟨⟨Session.new, h1, by rw [h2]; simp, rfl, rfl⟩, hquiet, ?_, ?_⟩
    · rintro ⟨events, rfl⟩
      refine hquiet fun op hop => ?_
      obtain ⟨ev, _, rfl⟩ := List.mem_map.mp hop
      exact System.toOp_mayWriteCount ev
    · intro hmid
      rw [h3, ← hst]
      exact System.run_sentCount_le mid _ hmid

theorem teardown_and_reentry_witness :
    ((System.initial targetUrlPattern targetUrlPattern true Storage.empty).run
        [.checkURL, .fireInit, .navigate "about:blank"]).app = some 0 ∧
    ((System.initial targetUrlPattern targetUrlPattern true Storage.empty).run
        [.checkURL, .fireInit, .navigate "about:blank"]).checkURL.app = none ∧
    ((System.initial targetUrlPattern targetUrlPattern true Storage.empty).run
        [.checkURL, .fireInit, .navigate "about:blank"]).checkURL.live 0 = false :=
  ⟨by decide,
    (teardown_and_reentry targetUrlPattern targetUrlPattern true Storage.empty
      [.checkURL, .fireInit, .navigate "about:blank"] 0 (by decide) (by decide)).1.1,
    (teardown_and_reentry targetUrlPattern targetUrlPattern true Storage.empty
      [.checkURL, .fireInit, .navigate "about:blank"] 0 (by decide) (by decide)).1.2.1⟩

/-- C13 fails as stated: a run of the session, parked at its last sleep when
the session is destroyed, wakes up after the teardown and counts. The store
reads `0` before the teardown and just after it; the session constructed on
re-entry reads `1`. -/
theorem parked_run_counts_after_teardown :
    Sample.leaving.app = some 0 ∧
    isTargetUrl Sample.leaving.href = false ∧
    Sample.leaving.storage.getSentCount = 0 ∧
    Sample.leaving.checkURL.app = none ∧
    Sample.leaving.checkURL.liveSessions = [] ∧
    Sample.leaving.checkURL.storage.getSentCount = 0 ∧
    (Sample.leaving.checkURL.run [.wake 0 0 Sample.obs, .navigate targetUrlPattern]).app = none ∧
    isTargetUrl (Sample.leaving.checkURL.run
      [.wake 0 0 Sample.obs, .navigate targetUrlPattern]).href = true ∧
    (Sample.leaving.checkURL.run
      [.wake 0 0 Sample.obs, .navigate targetUrlPattern]).checkURL.app = some 1 ∧
    (Sample.leaving.checkURL.run
      [.wake 0 0 Sample.obs, .navigate targetUrlPattern]).checkURL.storage.getSentCount = 1 := by
  decide

end AutoCard
